import Mathlib

/-!
# egg-asn1: ASN.1 helper routines

A shallow embedding of `egg/egg-asn1.c`.  Bytes and C `char`s are natural
numbers (a `guchar` is a number below 256), C strings are lists of their
characters without the terminating NUL, C `int`s are integers.
-/

namespace EggAsn1

/-! ## Integer leaves -/

/-- Result of libtasn1 `asn1_read_value (asn, part, buf, &n_buf)` on a leaf whose
content is `leaf` (`none`: the leaf cannot be read), for a caller buffer of
`n_buf` bytes: the content on `ASN1_SUCCESS`, `none` on any error, among them
`ASN1_MEM_ERROR` when the content does not fit the buffer. -/
def asn1_read_value (leaf : Option (List Nat)) (n_buf : Nat) : Option (List Nat) :=
  match leaf with
  | none => none
  | some content => if content.length ≤ n_buf then some content else none

/-- One round of the loop of `egg_asn1_read_uint`:
`*val |= buf[i] << (8 * ((n_buf - 1) - i))`, stored into a 32 bit `guint`. -/
def read_uint_step (buf : List Nat) (n_buf : Nat) (val : Nat) (i : Nat) : Nat :=
  (val ||| (buf.getD i 0 <<< (8 * ((n_buf - 1) - i)))) % 2 ^ 32

/-- The function `egg_asn1_read_uint`: `none` is the result `FALSE`, `some v` is
`TRUE` with `*val = v`. -/
def egg_asn1_read_uint (leaf : Option (List Nat)) : Option Nat :=
  match asn1_read_value leaf 4 with
  | none => none
  | some buf =>
    let n_buf := buf.length
    if n_buf > 4 ∨ n_buf < 1 then none
    else some ((List.range n_buf).foldl (read_uint_step buf n_buf) 0)

/-- The scan `for (bytes = 3; bytes >= 0; --bytes) if (!buf[bytes]) break;` of
`egg_asn1_write_uint`, started with `bytes = k - 1`; the value is `bytes` when
the loop is left. -/
def write_uint_scan (buf : List Nat) : Nat → Int
  | 0 => -1
  | k + 1 => if buf.getD k 0 = 0 then (k : Int) else write_uint_scan buf k

/-- The function `egg_asn1_write_uint`: the bytes `buf + (4 - bytes)` of length
`bytes` that are handed to `asn1_write_value` for the 32 bit value `val`. -/
def egg_asn1_write_uint (val : Nat) : List Nat :=
  let buf : List Nat :=
    [(val >>> 24) &&& 0xff, (val >>> 16) &&& 0xff, (val >>> 8) &&& 0xff, (val >>> 0) &&& 0xff]
  let bytes : Int := write_uint_scan buf 4
  let bytes : Int := 4 - (bytes + 1)
  let bytes : Int := if bytes = 0 then 1 else bytes
  (buf.drop (4 - bytes.toNat)).take bytes.toNat

/-- The encoding the specification asks of `write_uint`: the four big-endian
bytes of `v` with all leading zero bytes removed, keeping one byte when nothing
else is left. -/
def spec_minimal_big_endian (v : Nat) : List Nat :=
  let be : List Nat := [v / 2 ^ 24 % 256, v / 2 ^ 16 % 256, v / 2 ^ 8 % 256, v % 256]
  match be.dropWhile (fun b => b == 0) with
  | [] => [0]
  | bs => bs

/-- The big-endian value of the bytes `b`: the sum over `i` of
`b[i] * 256 ^ (n - 1 - i)`, where `n` is the number of bytes. -/
def spec_big_endian_value (b : List Nat) : Nat :=
  ((List.range b.length).map (fun i => b.getD i 0 * 256 ^ (b.length - 1 - i))).sum

/-! ## Time parsing -/

/-- The fields of `struct tm` that the time parser writes; after the `memset` of
the parser every other field of the structure is zero. -/
structure Tm where
  tm_sec : Int
  tm_min : Int
  tm_hour : Int
  tm_mday : Int
  tm_mon : Int
  tm_year : Int
  deriving DecidableEq

/-- The state of `*when` after `memset (when, 0, sizeof (*when))`. -/
def tm_zero : Tm := ⟨0, 0, 0, 0, 0, 0⟩

/-- The character `s[i]` of the C string `s`; the character behind the last one is
the terminating NUL. -/
def charAt (s : List Nat) (i : Nat) : Nat := s.getD i 0

/-- The loop `while (--digits >= 0)` of `atoin`, with `ret` and `base` as they
are on entry; `p` is the offset of the pointer argument in the string `s`. -/
def atoin_loop (s : List Nat) (p : Nat) : Nat → Int → Int → Int
  | 0, ret, _ => ret
  | digits + 1, ret, base =>
    if charAt s (p + digits) < 48 ∨ charAt s (p + digits) > 57 then -1
    else atoin_loop s p digits (ret + ((charAt s (p + digits) : Int) - 48) * base) (base * 10)

/-- The function `atoin (p, digits)` for the pointer `s + p`. -/
def atoin (s : List Nat) (p : Nat) (digits : Nat) : Int := atoin_loop s p digits 0 1

/-- What `two_to_four_digit_year` gets from the C library: `now` is the value of
`time (NULL)` and `tm_year` is the field `tm.tm_year` (years since 1900) that
`gmtime_r (&now, &tm)` fills in, `none` when `gmtime_r` returns NULL. -/
structure Clock where
  now : Int
  tm_year : Option Int

/-- The function `two_to_four_digit_year`, under the clock `clk`. The operator `%`
of C truncates towards zero. -/
def two_to_four_digit_year (clk : Clock) (year : Int) : Int :=
  if ¬(year ≥ 0 ∧ year ≤ 99) then -1
  else if ¬(clk.now ≥ 0) then -1
  else
    match clk.tm_year with
    | none => -1
    | some tm_year =>
      let current := Int.tmod tm_year 100
      let century := (tm_year + 1900) - current
      let after := if year < current then century + 100 + year else century + year
      if current < 40 then
        if year < current then century + year
        else if year > 100 - (40 - current) then (century - 100) + year
        else after
      else
        if year < current ∧ year > current - 40 then century + year
        else after

/-- Is `year` a leap year of the Gregorian calendar. -/
def is_leap_year (year : Int) : Bool :=
  decide (year % 4 = 0 ∧ (year % 100 ≠ 0 ∨ year % 400 = 0))

/-- Days of the year before the first day of month `mon` (0 is January). -/
def days_before_month (leap : Bool) (mon : Int) : Int :=
  let t : List Int := [0, 31, 59, 90, 120, 151, 181, 212, 243, 273, 304, 334]
  t.getD mon.toNat 0 + (if leap ∧ mon ≥ 2 then 1 else 0)

/-- Days from 1970-01-01 to the first of January of `year`. -/
def days_before_year (year : Int) : Int :=
  365 * (year - 1970) + (year - 1969) / 4 - (year - 1901) / 100 + (year - 1601) / 400

/-- Seconds from 1970-01-01T00:00:00Z to the calendar fields of `when` read as UTC,
the way the C library function `timegm` counts them: a month outside 0..11 is
carried into the year, and days, hours, minutes and seconds are counted on
linearly from the first day of the month. -/
def utc_epoch_second (when : Tm) : Int :=
  let year := when.tm_year + 1900 + when.tm_mon / 12
  let mon := when.tm_mon % 12
  let days := days_before_year year + days_before_month (is_leap_year year) mon + (when.tm_mday - 1)
  ((days * 24 + when.tm_hour) * 60 + when.tm_min) * 60 + when.tm_sec

/-- The C library function `timegm` for a `time_t` of `sizeof_time_t` bytes: the
epoch second of the fields, or -1 when that does not fit the type. (The
replacement that the source defines under `#ifndef HAVE_TIMEGM` is not used
where the C library has the function.) -/
def timegm (sizeof_time_t : Nat) (when : Tm) : Int :=
  let t := utc_epoch_second when
  if -(2 ^ (8 * sizeof_time_t - 1) : Int) ≤ t ∧ t < 2 ^ (8 * sizeof_time_t - 1) then t else -1

/-- Results of `parse_utc_time` and `parse_general_time`: the returned `gboolean`
(an `int`) and the values left in `*when` and `*offset`. -/
structure Parsed where
  ret : Int
  when : Tm
  offset : Int
  deriving DecidableEq

/-- The end `e` of the digits: `for (e = p; *e >= '0' && *e <= '9'; ++e);` with
`p` at the start of the string. -/
def digit_run (time : List Nat) : Nat :=
  (time.takeWhile (fun c => decide (c ≥ 48 ∧ c ≤ 57))).length

/-- One block `if (p + digits <= e) { field = atoin (p, digits); p += digits; }`
on the state `(when, p)`; `set` stores the field. -/
def field (time : List Nat) (e : Nat) (digits : Nat) (set : Tm → Int → Tm) (st : Tm × Nat) :
    Tm × Nat :=
  if st.2 + digits ≤ e then (set st.1 (atoin time st.2 digits), st.2 + digits) else st

/-- The five blocks for month, day, hour, minute and second, in lines 480-499 of
`parse_utc_time` and again in lines 617-636 of `parse_general_time`. -/
def parse_fields (time : List Nat) (e : Nat) (st : Tm × Nat) : Tm × Nat :=
  let st := field time e 2 (fun w v => { w with tm_mon := v - 1 }) st
  let st := field time e 2 (fun w v => { w with tm_mday := v }) st
  let st := field time e 2 (fun w v => { w with tm_hour := v }) st
  let st := field time e 2 (fun w v => { w with tm_min := v }) st
  field time e 2 (fun w v => { w with tm_sec := v }) st

/-- The condition of the range check in lines 501-506 and 638-643. -/
def out_of_range (when : Tm) : Bool :=
  decide (when.tm_year < 0 ∨ when.tm_year > 9999 ∨
    when.tm_mon < 0 ∨ when.tm_mon > 11 ∨
    when.tm_mday < 1 ∨ when.tm_mday > 31 ∨
    when.tm_hour < 0 ∨ when.tm_hour > 23 ∨
    when.tm_min < 0 ∨ when.tm_min > 59 ∨
    when.tm_sec < 0 ∨ when.tm_sec > 59)

/-- The step `if (p < e && *p == '.' && p + 5 <= e) p += 5;` with `e` at the end
of the string. -/
def skip_fraction (time : List Nat) (p : Nat) : Nat :=
  if p < time.length ∧ charAt time p = 46 ∧ p + 5 ≤ time.length then p + 5 else p

/-- The zone part, lines 520-552 and 657-689, from the pointer `p` behind the
fraction: `Z` is 90, `-` is 45, `+` is 43. The statement `return -1` leaves the
function with -1 as its `gboolean`. -/
def parse_zone (time : List Nat) (when : Tm) (p : Nat) : Parsed :=
  let e := time.length
  if p < e ∧ charAt time p = 90 then
    if p + 1 ≠ e then ⟨0, when, 0⟩ else ⟨1, when, 0⟩
  else if (charAt time p = 45 ∨ charAt time p = 43) ∧ p + 3 ≤ e then
    let neg : Bool := decide (charAt time p = 45)
    let p := p + 1
    let off := atoin time p 2 * 3600
    if off < 0 ∨ off > 86400 then ⟨-1, when, 0⟩
    else
      let p := p + 2
      let st : Int × Nat := if p + 2 ≤ e then (off + atoin time p 2 * 60, p + 2) else (off, p)
      let offset : Int := if neg then 0 - st.1 else st.1
      if st.2 ≠ e then ⟨0, when, offset⟩ else ⟨1, when, offset⟩
  else
    if p ≠ e then ⟨0, when, 0⟩ else ⟨1, when, 0⟩

/-- Lines 501-552 of `parse_utc_time`, the same text as lines 638-689 of
`parse_general_time`: range check, `if (p != e) return FALSE`, fraction, zone. -/
def parse_rest (time : List Nat) (e : Nat) (st : Tm × Nat) : Parsed :=
  if out_of_range st.1 then ⟨0, st.1, 0⟩
  else if st.2 ≠ e then ⟨0, st.1, 0⟩
  else parse_zone time st.1 (skip_fraction time st.2)

/-- The function `parse_utc_time` under the clock `clk`. When it returns before
`*when` is written, `when` and `offset` of the result are placeholders. -/
def parse_utc_time (clk : Clock) (time : List Nat) : Parsed :=
  let n_time := time.length
  if n_time < 6 ∨ n_time ≥ 28 then ⟨0, tm_zero, 0⟩
  else
    let when : Tm := { tm_zero with tm_mday := 1 }
    let e := digit_run time
    let st := field time e 2
      (fun w year => { w with tm_year := two_to_four_digit_year clk year - 1900 }) (when, 0)
    parse_rest time e (parse_fields time e st)

/-- The function `parse_general_time`. When it returns before `*when` is
written, `when` and `offset` of the result are placeholders. -/
def parse_general_time (time : List Nat) : Parsed :=
  let n_time := time.length
  if n_time < 8 ∨ n_time ≥ 30 then ⟨0, tm_zero, 0⟩
  else
    let when : Tm := { tm_zero with tm_mday := 1 }
    let e := digit_run time
    let st := field time e 4 (fun w v => { w with tm_year := v - 1900 }) (when, 0)
    parse_rest time e (parse_fields time e st)

/-- The function `when_to_time` for a `time_t` of `sizeof_time_t` bytes. -/
def when_to_time (sizeof_time_t : Nat) (when : Tm) (offset : Int) : Int :=
  if sizeof_time_t ≤ 4 ∧ when.tm_year ≥ 2038 then 2145914603
  else
    let result := timegm sizeof_time_t when
    if result ≥ 0 then result + offset else result

/-- The function `egg_asn1_time_parse_utc` on a string (not NULL). -/
def egg_asn1_time_parse_utc (sizeof_time_t : Nat) (clk : Clock) (time : List Nat) : Int :=
  let r := parse_utc_time clk time
  if r.ret = 0 then -1 else when_to_time sizeof_time_t r.when r.offset

/-- The function `egg_asn1_time_parse_general` on a string (not NULL). -/
def egg_asn1_time_parse_general (sizeof_time_t : Nat) (time : List Nat) : Int :=
  let r := parse_general_time time
  if r.ret = 0 then -1 else when_to_time sizeof_time_t r.when r.offset

/-- The characters of a string literal, as C `char` values. -/
def cstr (s : String) : List Nat := s.toList.map Char.toNat

/-- The two decimal digits of `n`, as characters. -/
def digits2 (n : Nat) : List Nat := [48 + n / 10 % 10, 48 + n % 10]

/-- The four decimal digits of `n`, as characters. -/
def digits4 (n : Nat) : List Nat :=
  [48 + n / 1000 % 10, 48 + n / 100 % 10, 48 + n / 10 % 10, 48 + n % 10]

/-- The value of `*when` with the six fields given, in the order of the grammar. -/
def tm_of (year mon mday hour min sec : Int) : Tm := ⟨sec, min, hour, mday, mon, year⟩

/-- The result of the range check and the zone part on six complete fields
followed by the single character `Z`: `FALSE` when a field is out of range,
`TRUE` with offset 0 otherwise. -/
def six_fields_Z (year mon mday hour min sec : Int) : Parsed :=
  if out_of_range (tm_of year mon mday hour min sec) then ⟨0, tm_of year mon mday hour min sec, 0⟩
  else ⟨1, tm_of year mon mday hour min sec, 0⟩

/-! ## Distinguished names -/

/-- A C string seen through a buffer: the bytes in front of the first NUL. -/
def c_str (buf : List Nat) : List Nat := buf.takeWhile (fun c => c != 0)

/-- The function `egg_asn1_read_value (asn, part, len, NULL)` on the leaf at
`part` (`none`: there is no such leaf): the first `asn1_read_value`, with no
buffer, must fail with `ASN1_MEM_ERROR`; the second one fills a buffer of the
length reported. `none` is the result NULL. -/
def egg_asn1_read_value (leaf : Option (List Nat)) : Option (List Nat) :=
  match leaf with
  | none => none
  | some content =>
    match asn1_read_value leaf 0 with
    | some _ => none
    | none => asn1_read_value leaf content.length

/-- A `GQuark`: `none` is the quark 0, `some s` the quark of the string `s`. -/
abbrev GQuark := Option (List Nat)

/-- The function `egg_asn1_read_oid` on the leaf at `part`. -/
def egg_asn1_read_oid (leaf : Option (List Nat)) : GQuark :=
  match egg_asn1_read_value leaf with
  | none => none
  | some buf => some (c_str buf)

/-- A row of the table `printable_oids`, without the field `oid`, which is
filled in by `init_printable_oids`. -/
structure PrintableOid where
  oidstr : List Nat
  attr : Option (List Nat)
  description : Option (List Nat)
  is_choice : Bool
  deriving DecidableEq

/-- The table `printable_oids`, up to the row that ends it. -/
def printable_oids : List PrintableOid :=
  [⟨cstr "0.9.2342.19200300.100.1.25", some (cstr "DC"), some (cstr "Domain Component"), false⟩,
   ⟨cstr "0.9.2342.19200300.100.1.1", some (cstr "UID"), some (cstr "User ID"), true⟩,
   ⟨cstr "1.2.840.113549.1.9.1", some (cstr "EMAIL"), some (cstr "Email"), false⟩,
   ⟨cstr "1.2.840.113549.1.9.7", none, none, true⟩,
   ⟨cstr "1.2.840.113549.1.9.20", none, none, false⟩,
   ⟨cstr "1.3.6.1.5.5.7.9.1", some (cstr "dateOfBirth"), some (cstr "Date of Birth"), false⟩,
   ⟨cstr "1.3.6.1.5.5.7.9.2", some (cstr "placeOfBirth"), some (cstr "Place of Birth"), false⟩,
   ⟨cstr "1.3.6.1.5.5.7.9.3", some (cstr "gender"), some (cstr "Gender"), false⟩,
   ⟨cstr "1.3.6.1.5.5.7.9.4", some (cstr "countryOfCitizenship"),
     some (cstr "Country of Citizenship"), false⟩,
   ⟨cstr "1.3.6.1.5.5.7.9.5", some (cstr "countryOfResidence"),
     some (cstr "Country of Residence"), false⟩,
   ⟨cstr "2.5.4.3", some (cstr "CN"), some (cstr "Common Name"), true⟩,
   ⟨cstr "2.5.4.4", some (cstr "surName"), some (cstr "Surname"), true⟩,
   ⟨cstr "2.5.4.5", some (cstr "serialNumber"), some (cstr "Serial Number"), false⟩,
   ⟨cstr "2.5.4.6", some (cstr "C"), some (cstr "Country"), false⟩,
   ⟨cstr "2.5.4.7", some (cstr "L"), some (cstr "Locality"), true⟩,
   ⟨cstr "2.5.4.8", some (cstr "ST"), some (cstr "State"), true⟩,
   ⟨cstr "2.5.4.9", some (cstr "STREET"), some (cstr "Street"), true⟩,
   ⟨cstr "2.5.4.10", some (cstr "O"), some (cstr "Organization"), true⟩,
   ⟨cstr "2.5.4.11", some (cstr "OU"), some (cstr "Organizational Unit"), true⟩,
   ⟨cstr "2.5.4.12", some (cstr "T"), some (cstr "Title"), true⟩,
   ⟨cstr "2.5.4.20", some (cstr "telephoneNumber"), some (cstr "Telephone Number"), false⟩,
   ⟨cstr "2.5.4.42", some (cstr "givenName"), some (cstr "Given Name"), true⟩,
   ⟨cstr "2.5.4.43", some (cstr "initials"), some (cstr "Initials"), true⟩,
   ⟨cstr "2.5.4.44", some (cstr "generationQualifier"), some (cstr "Generation Qualifier"), true⟩,
   ⟨cstr "2.5.4.46", some (cstr "dnQualifier"), some (cstr "DN Qualifier"), false⟩,
   ⟨cstr "2.5.4.65", some (cstr "pseudonym"), some (cstr "Pseudonym"), true⟩]

/-- The function `init_printable_oids` on the flag that says whether the fields
`oid` of the table are filled in: afterwards they are. -/
def init_printable_oids (_inited : Bool) : Bool := true

/-- The field `oid` of a row of the table: 0 until `init_printable_oids` has run,
the quark of `oidstr` afterwards. -/
def PrintableOid.oid (inited : Bool) (row : PrintableOid) : GQuark :=
  if inited then some row.oidstr else none

/-- The function `dn_find_printable`, with the table filled in or not. -/
def dn_find_printable (inited : Bool) (oid : GQuark) : Option PrintableOid :=
  if oid = none then none
  else printable_oids.find? (fun row => decide (row.oid inited = oid))

/-- The string `HEXC`. -/
def HEXC : List Nat := cstr "0123456789ABCDEF"

/-- The loop of `dn_print_hex_value`: two characters for every byte. -/
def hex_loop : List Nat → List Nat
  | [] => []
  | b :: data => HEXC.getD ((b >>> 4) &&& 0xf) 0 :: HEXC.getD (b &&& 0xf) 0 :: hex_loop data

/-- The function `dn_print_hex_value (data, len)` with `len` the length of
`data`; `#` is 35. -/
def dn_print_hex_value (data : List Nat) : List Nat := 35 :: hex_loop data

/-- Is `b` a continuation byte of UTF-8. -/
def utf8_cont (b : Nat) : Bool := decide (0x80 ≤ b ∧ b ≤ 0xBF)

/-- The glib function `g_utf8_validate (str, -1, NULL)` on the characters of the
C string `str`: well-formed UTF-8 without overlong forms, surrogates or code
points above U+10FFFF. -/
def g_utf8_validate : List Nat → Bool
  | [] => true
  | b0 :: rest =>
    if b0 < 0x80 then g_utf8_validate rest
    else if 0xC2 ≤ b0 ∧ b0 ≤ 0xDF then
      match rest with
      | b1 :: r => utf8_cont b1 && g_utf8_validate r
      | _ => false
    else if 0xE0 ≤ b0 ∧ b0 ≤ 0xEF then
      match rest with
      | b1 :: b2 :: r =>
        utf8_cont b1 && utf8_cont b2 && decide (b0 = 0xE0 → 0xA0 ≤ b1) &&
          decide (b0 = 0xED → b1 ≤ 0x9F) && g_utf8_validate r
      | _ => false
    else if 0xF0 ≤ b0 ∧ b0 ≤ 0xF4 then
      match rest with
      | b1 :: b2 :: b3 :: r =>
        utf8_cont b1 && utf8_cont b2 && utf8_cont b3 && decide (b0 = 0xF0 → 0x90 ≤ b1) &&
          decide (b0 = 0xF4 → b1 ≤ 0x8F) && g_utf8_validate r
      | _ => false
    else false

/-- A decoded element, seen through its leaves: the content of the leaf at a
path, `none` where there is no leaf. -/
abbrev ASN1_TYPE := List Nat → Option (List Nat)

/-- The calls into libtasn1 that depend on the schema trees, which are built
from tables that are not part of this development. -/
structure Tasn1 where
  /-- `asn1_find_structure_from_oid` on the PKIX tree; `none` is NULL. -/
  asn1_find_structure_from_oid : List Nat → Option (List Nat)
  /-- `asn1_create_element (base, type, &asn)` gives `ASN1_SUCCESS`; the flag
  says whether `base` is the PKIX tree or the PK tree. -/
  asn1_create_element : Bool → List Nat → Bool
  /-- `asn1_der_decoding` into the element created for `type`: the element
  filled in, `none` when the result is not `ASN1_SUCCESS`. -/
  asn1_der_decoding : Bool → List Nat → List Nat → Option ASN1_TYPE

/-- The function `egg_asn1_decode (type, data, n_data)`; `none` is NULL. -/
def egg_asn1_decode (lib : Tasn1) (type : List Nat) (data : List Nat) : Option ASN1_TYPE :=
  if type.take 6 = cstr "PKIX1." then
    if lib.asn1_create_element true type then lib.asn1_der_decoding true type data else none
  else if type.take 3 = cstr "PK." then
    if lib.asn1_create_element false type then lib.asn1_der_decoding false type data else none
  else none

/-- The end of `dn_print_oid_value_parsed`, from `if (!value)` on. -/
def dn_print_checked (value : Option (List Nat)) : Option (List Nat) :=
  match value with
  | none => none
  | some value =>
    if !g_utf8_validate (c_str value) then some (dn_print_hex_value (c_str value))
    else some (c_str value)

/-- The function `dn_print_oid_value_parsed` for a row of the table; `none` is
NULL. -/
def dn_print_oid_value_parsed (lib : Tasn1) (printable : PrintableOid) (data : List Nat) :
    Option (List Nat) :=
  match lib.asn1_find_structure_from_oid printable.oidstr with
  | none => none
  | some asn_name =>
    match egg_asn1_decode lib (cstr "PKIX1." ++ asn_name) data with
    | none => none
    | some asn1 =>
      match egg_asn1_read_value (asn1 []) with
      | none => dn_print_checked none
      | some value =>
        if printable.is_choice then
          if c_str value = cstr "printableString" ∨ c_str value = cstr "ia5String" ∨
              c_str value = cstr "utf8String" ∨ c_str value = cstr "teletexString" then
            dn_print_checked (egg_asn1_read_value (asn1 (c_str value)))
          else none
        else dn_print_checked (some value)

/-- The function `dn_print_oid_value`; `printable` is `none` for NULL. The result
is `none` when `g_assert (len)` fails, which ends the program. -/
def dn_print_oid_value (lib : Tasn1) (printable : Option PrintableOid) (data : List Nat) :
    Option (List Nat) :=
  if data.length = 0 then none
  else
    match printable with
    | none => some (dn_print_hex_value data)
    | some row =>
      match dn_print_oid_value_parsed lib row data with
      | some value => some value
      | none => some (dn_print_hex_value data)

/-- The function `dn_parse_rdn` on the leaves at `part.type` and `part.value`
(`none`: there is no such leaf); `=` is 61. `none` is NULL. -/
def dn_parse_rdn (lib : Tasn1) (inited : Bool) (type value : Option (List Nat)) :
    Option (List Nat) :=
  match egg_asn1_read_oid type with
  | none => none
  | some oid =>
    let value := egg_asn1_read_value value
    let printable := dn_find_printable inited (some oid)
    match value with
    | none => none
    | some value =>
      match dn_print_oid_value lib printable value with
      | none => none
      | some display =>
        let label := match printable with
          | none => oid
          | some row => match row.attr with
            | some attr => attr
            | none => oid
        some (label ++ [61] ++ display)

/-- The part of an element that the functions for names read below `part`: the
members `?1`, `?2`, ... of the name, each with its own members `?1`, `?2`, ...,
each of those with the text of its leaf `type` and the bytes of its leaf
`value`. -/
abbrev Name := List (List (List Nat × List Nat))

/-- The inner loop of `egg_asn1_read_dn` for the member `?i`, entered with `j`
and with the members `?j`, `?j+1`, ... that are there; the value is `result`
and `done` where the loop is left by `break`. `+` is 43, `, ` is 44 and 32. -/
def read_dn_values (lib : Tasn1) (inited : Bool) (i : Nat) :
    Nat → List (List Nat × List Nat) → List Nat → List Nat × Bool
  | j, [], result => (result, j == 1)
  | j, atv :: rest, result =>
    match dn_parse_rdn lib inited (some atv.1) (some atv.2) with
    | none => (result, j == 1)
    | some rdn =>
      let result := if j > 1 then result ++ [43] else if i > 1 then result ++ [44, 32] else result
      read_dn_values lib inited i (j + 1) rest (result ++ rdn)

/-- The outer loop of `egg_asn1_read_dn`, entered with `i` and with the members
`?i`, `?i+1`, ... that are there. -/
def read_dn_rdns (lib : Tasn1) (inited : Bool) : Nat → Name → List Nat → List Nat
  | i, [], result => (read_dn_values lib inited i 1 [] result).1
  | i, rdn :: rest, result =>
    let r := read_dn_values lib inited i 1 rdn result
    if r.2 then r.1 else read_dn_rdns lib inited (i + 1) rest r.1

/-- The function `egg_asn1_read_dn`; `none` is NULL. -/
def egg_asn1_read_dn (lib : Tasn1) (inited : Bool) (asn : Name) : Option (List Nat) :=
  let inited := init_printable_oids inited
  let result := read_dn_rdns lib inited 1 asn []
  if result.length = 0 then none else some result

/-- The characters of `c` in lower case, for the letters of ASCII. -/
def ascii_tolower (c : Nat) : Nat := if 65 ≤ c ∧ c ≤ 90 then c + 32 else c

/-- The glib function `g_ascii_strcasecmp`, as far as its result is compared
with 0: 0 when the strings are equal ignoring the case of ASCII letters. -/
def g_ascii_strcasecmp (s1 s2 : List Nat) : Int :=
  if s1.map ascii_tolower = s2.map ascii_tolower then 0 else 1

/-- How the inner loop of `egg_asn1_read_dn_part` is left: by `return`, or by
`break` with `done` and the variable `printable` as they are then. -/
inductive PartLoop where
  | returned (value : Option (List Nat))
  | left (done : Bool) (printable : Option PrintableOid)

/-- The inner loop of `egg_asn1_read_dn_part`, entered with `j`, with the members
`?j`, ... that are there and with the variable `printable`. -/
def read_dn_part_values (lib : Tasn1) (inited : Bool) (match_ : List Nat) :
    Nat → List (List Nat × List Nat) → Option PrintableOid → PartLoop
  | j, [], printable => PartLoop.left (j == 1) printable
  | j, atv :: rest, printable =>
    match egg_asn1_read_oid (some atv.1) with
    | none => PartLoop.left (j == 1) printable
    | some oid =>
      if g_ascii_strcasecmp oid match_ ≠ 0 then
        let printable := dn_find_printable inited (some oid)
        let skip : Bool := match printable with
          | none => true
          | some row => match row.attr with
            | none => true
            | some attr =>
              decide ((if g_ascii_strcasecmp attr match_ = 0 then (1 : Int) else 0) = 0)
        if skip then read_dn_part_values lib inited match_ (j + 1) rest printable
        else
          match egg_asn1_read_value (some atv.2) with
          | none => PartLoop.returned none
          | some value => PartLoop.returned (dn_print_oid_value lib printable value)
      else
        match egg_asn1_read_value (some atv.2) with
        | none => PartLoop.returned none
        | some value => PartLoop.returned (dn_print_oid_value lib printable value)

/-- The outer loop of `egg_asn1_read_dn_part`, entered with `i` and with the
members `?i`, ... that are there; with no member `?i` the inner loop sets `done`
at once and the function returns NULL. -/
def read_dn_part_rdns (lib : Tasn1) (inited : Bool) (match_ : List Nat) :
    Nat → Name → Option PrintableOid → Option (List Nat)
  | _, [], _ => none
  | i, rdn :: rest, printable =>
    match read_dn_part_values lib inited match_ 1 rdn printable with
    | PartLoop.returned value => value
    | PartLoop.left done printable =>
      if done then none else read_dn_part_rdns lib inited match_ (i + 1) rest printable

/-- The function `egg_asn1_read_dn_part`; `none` is NULL. -/
def egg_asn1_read_dn_part (lib : Tasn1) (inited : Bool) (asn : Name) (match_ : List Nat) :
    Option (List Nat) :=
  let inited := init_printable_oids inited
  read_dn_part_rdns lib inited match_ 1 asn none

/-- One call of the callback of `egg_asn1_dn_parse`: the arguments `index`,
`oid`, `value` and `n_value`. -/
structure DnVisit where
  index : Nat
  oid : List Nat
  value : List Nat
  n_value : Nat
  deriving DecidableEq

/-- The inner loop of `egg_asn1_dn_parse` for the member `?i`, entered with `j`
and with the members `?j`, ... that are there; `visits` are the calls of the
callback so far, and `callback` says whether there is one. -/
def dn_parse_values (callback : Bool) (i : Nat) :
    Nat → List (List Nat × List Nat) → List DnVisit → List DnVisit × Bool
  | j, [], visits => (visits, j == 1)
  | j, atv :: rest, visits =>
    match egg_asn1_read_oid (some atv.1) with
    | none => (visits, j == 1)
    | some oid =>
      match egg_asn1_read_value (some atv.2) with
      | none => (visits, j == 1)
      | some value =>
        let visits := if callback then visits ++ [⟨i, oid, value, value.length⟩] else visits
        dn_parse_values callback i (j + 1) rest visits

/-- The outer loop `for (i = 1; !done; ++i)` of `egg_asn1_dn_parse`, entered with
`i`; the value is the calls of the callback and `i` as it is when the loop is
left, after the last `++i`. -/
def dn_parse_rdns (callback : Bool) : Nat → Name → List DnVisit → List DnVisit × Nat
  | i, [], visits => ((dn_parse_values callback i 1 [] visits).1, i + 1)
  | i, rdn :: rest, visits =>
    let r := dn_parse_values callback i 1 rdn visits
    if r.2 then (r.1, i + 1) else dn_parse_rdns callback (i + 1) rest r.1

/-- The function `egg_asn1_dn_parse` on an element (not NULL): the calls of the
callback, in order, and the `gboolean` returned, `i > 1`. -/
def egg_asn1_dn_parse (asn : Name) (callback : Bool) : List DnVisit × Bool :=
  let r := dn_parse_rdns callback 1 asn []
  (r.1, decide (r.2 > 1))

/-- The function `egg_asn1_dn_oid_attr`; `none` is NULL. -/
def egg_asn1_dn_oid_attr (inited : Bool) (oid : GQuark) : Option (List Nat) :=
  match oid with
  | none => none
  | some s =>
    match dn_find_printable inited oid with
    | none => some s
    | some row => row.attr

/-- The function `egg_asn1_dn_print_value (oid, value, n_value)` with `n_value`
the length of `value`; `none` is NULL, or `g_assert (len)` has failed. -/
def egg_asn1_dn_print_value (lib : Tasn1) (inited : Bool) (oid : GQuark) (value : List Nat) :
    Option (List Nat) :=
  match oid with
  | none => none
  | some _ => dn_print_oid_value lib (dn_find_printable inited oid) value

/-- The name of the alternative of a string type with the DER tag `tag`. -/
def der_string_choice (tag : Nat) : Option (List Nat) :=
  if tag = 0x13 then some (cstr "printableString")
  else if tag = 0x16 then some (cstr "ia5String")
  else if tag = 0x0C then some (cstr "utf8String")
  else if tag = 0x14 then some (cstr "teletexString")
  else if tag = 0x1E then some (cstr "bmpString")
  else if tag = 0x1C then some (cstr "universalString")
  else none

/-- A DER decoder for one string with a length below 128, which stands in for
libtasn1 in the examples: for the type `PKIX1.DirectoryString`, a CHOICE, the
root leaf holds the name of the alternative and the leaf of that name the
content; for any other type the root leaf holds the content. It takes any of
the six string tags for such a type, where libtasn1 takes only the tag of the
type in the schema. -/
def der_string_decoding (_pkix : Bool) (type : List Nat) (data : List Nat) : Option ASN1_TYPE :=
  match data with
  | tag :: len :: content =>
    if len < 128 ∧ content.length = len then
      match der_string_choice tag with
      | none => none
      | some name =>
        if type = cstr "PKIX1.DirectoryString" then
          some (fun path => if path = [] then some name else if path = name then some content
            else none)
        else some (fun path => if path = [] then some content else none)
    else none
  | _ => none

/-- A library for the examples: every row of the table that is marked as a CHOICE
has the structure `DirectoryString`, every other row the structure `String`, and
values are decoded by `der_string_decoding`. -/
def string_tasn1 : Tasn1 where
  asn1_find_structure_from_oid := fun oidstr =>
    match printable_oids.find? (fun row => decide (row.oidstr = oidstr)) with
    | none => none
    | some row => if row.is_choice then some (cstr "DirectoryString") else some (cstr "String")
  asn1_create_element := fun _ _ => true
  asn1_der_decoding := der_string_decoding

/-- The DER encoding of a string of less than 128 bytes with the tag `tag`. -/
def der_string (tag : Nat) (content : List Nat) : List Nat := tag :: content.length :: content

/-- The digit of `d` in upper case hexadecimal, for `d` below 16. -/
def spec_hex_digit (d : Nat) : Nat := if d < 10 then 48 + d else 55 + d

/-- The upper case hexadecimal encoding of `data`, two digits for each byte. -/
def spec_hex_upper (data : List Nat) : List Nat :=
  (data.map (fun b => [spec_hex_digit (b / 16), spec_hex_digit (b % 16)])).flatten

/-- The strings `xs` joined with `sep` between them. -/
def spec_join (sep : List Nat) : List (List Nat) → List Nat
  | [] => []
  | [x] => x
  | x :: y :: rest => x ++ sep ++ spec_join sep (y :: rest)

/-- The text `label=value` of one pair, as `dn_parse_rdn` gives it once the table
is filled in; empty where it gives NULL. -/
def pair_text (lib : Tasn1) (atv : List Nat × List Nat) : List Nat :=
  (dn_parse_rdn lib true (some atv.1) (some atv.2)).getD []

/-- The row of the table for the OID with the dotted string `oid`, if there is
one. -/
def spec_table_row (oid : List Nat) : Option PrintableOid :=
  printable_oids.find? (fun row => decide (row.oidstr = oid))

/-- The label of an attribute as the specification has it: the short name of
the table when the table has a row for the OID with a short name, and the
dotted string of the OID otherwise. -/
def spec_label (oid : List Nat) : List Nat :=
  match spec_table_row oid with
  | none => oid
  | some row => row.attr.getD oid

/-- Does the pair match the name `match_`: its OID string, or the short name the
table has for it, equals `match_` ignoring the case of ASCII letters. -/
def spec_pair_matches (match_ : List Nat) (atv : List Nat × List Nat) : Bool :=
  decide (g_ascii_strcasecmp (c_str atv.1) match_ = 0) ||
    match spec_table_row (c_str atv.1) with
    | none => false
    | some row =>
      match row.attr with
      | none => false
      | some attr => decide (g_ascii_strcasecmp attr match_ = 0)

/-- The pairs of a name in document order, up to the first member that has no
pair. -/
def visited_pairs (asn : Name) : List (List Nat × List Nat) :=
  (asn.takeWhile (fun rdn => !rdn.isEmpty)).flatten

/-! ## Elements and their encoding -/

/-- The two calls into libtasn1 that read the head of a DER element. The buffer
is given as the bytes from the pointer to its end, and `int` values are taken
as numbers, without overflow. -/
structure Tasn1Der where
  /-- `asn1_get_tag_der (der, der_len, &cls, &len, &tag)`: the value of `*len`, the
  number of bytes of the tag field, on `ASN1_SUCCESS`; `none` on any error. -/
  asn1_get_tag_der : List Nat → Option Nat
  /-- `asn1_get_length_der (der, der_len, &len)`: the value returned, which is the
  length of the content or is negative, and the value of `*len`, the number of
  bytes of the length field. -/
  asn1_get_length_der : List Nat → Int × Nat

/-- The function `egg_asn1_element_length (data, n_data)` with `n_data` the
length of `data`. -/
def egg_asn1_element_length (lib : Tasn1Der) (data : List Nat) : Int :=
  let n_data : Int := data.length
  let counter : Int := 0
  match lib.asn1_get_tag_der data with
  | some cb =>
    let counter := counter + cb
    let r := lib.asn1_get_length_der (data.drop cb)
    let len := r.1
    let cb := r.2
    let counter := counter + cb
    if len ≥ 0 then
      let len := len + counter
      if n_data ≥ len then len else -1
    else -1
  | none => -1

/-- One round `ris = ris * 128 + (der[punt] & 0x7F)` of `asn1_get_tag_der` on
the `unsigned int` `ris`; `none` when the product or the sum does not fit 32
bits, where the function returns `ASN1_DER_ERROR`. -/
def tag_number_step (ris : Option Nat) (b : Nat) : Option Nat :=
  match ris with
  | none => none
  | some r =>
    if r * 128 ≥ 2 ^ 32 then none
    else if r * 128 + (b &&& 0x7F) ≥ 2 ^ 32 then none
    else some (r * 128 + (b &&& 0x7F))

/-- The function `asn1_get_tag_der (der, der_len, &cls, &len, &tag)` of libtasn1
4.19, which is not part of the repository, with `der_len` the length of `der`:
the value of `*len` on `ASN1_SUCCESS`, `none` on `ASN1_DER_ERROR`. Fewer than
two bytes are an error. When the low five bits of the first byte are not all
set the tag has one byte; else the bytes with the high bit set are read as long
as there are any, one more byte must follow, and the number of the tag must fit
an `unsigned int`. -/
def asn1_get_tag_der (der : List Nat) : Option Nat :=
  if der.length < 2 then none
  else if der.getD 0 0 &&& 0x1F ≠ 0x1F then some 1
  else
    let more := (der.drop 1).takeWhile (fun b => decide (b &&& 128 ≠ 0))
    let punt := 1 + more.length
    match more.foldl tag_number_step (some 0) with
    | none => none
    | some ris =>
      if punt ≥ der.length then none
      else
        match tag_number_step (some ris) (der.getD punt 0) with
        | none => none
        | some _ => some (punt + 1)

/-- One round `ans = ans * 256 + der[punt]` of `asn1_get_length_der` on the
`unsigned int` `ans`; `none` when the product or the sum does not fit 32 bits,
where the function returns -2. -/
def length_number_step (ans : Option Nat) (b : Nat) : Option Nat :=
  match ans with
  | none => none
  | some a =>
    if a * 256 ≥ 2 ^ 32 then none
    else if a * 256 + b ≥ 2 ^ 32 then none
    else some (a * 256 + b)

/-- The end of `asn1_get_length_der`, with `ans` read and `*len` set to `len`:
-2 when `ans >= INT_MAX` or `ans + len` does not fit an `int`, -4 when
`ans + len` is more than `der_len`, else `ans`. -/
def length_check (ans len der_len : Nat) : Int × Nat :=
  if ans ≥ 2 ^ 31 - 1 ∨ ans + len > 2 ^ 31 - 1 then (-2, len)
  else if ans + len > der_len then (-4, len)
  else ((ans : Int), len)

/-- The function `asn1_get_length_der (der, der_len, &len)` of libtasn1 4.19,
which is not part of the repository, with `der_len` the length of `der`: the
value returned and the value of `*len`. With no byte it returns 0. A first byte
below 128 is the length. A first byte 128 stands for the indefinite form and
gives -1. Otherwise the low seven bits `k` of the first byte count the bytes of
the length: the loop `while (punt <= k && punt < der_len)` reads the ones that
are there, and the number read so far is taken as the length even when bytes
are missing. -/
def asn1_get_length_der (der : List Nat) : Int × Nat :=
  match der with
  | [] => (0, 0)
  | d0 :: rest =>
    if d0 &&& 128 = 0 then length_check d0 1 der.length
    else
      let k := d0 &&& 0x7F
      if k ≠ 0 then
        match (rest.take k).foldl length_number_step (some 0) with
        | none => (-2, 0)
        | some ans => length_check ans (1 + (rest.take k).length) der.length
      else (-1, 1)

/-- The two functions of libtasn1 as they are modelled here, for the
evaluations. -/
def libtasn1_der : Tasn1Der where
  asn1_get_tag_der := asn1_get_tag_der
  asn1_get_length_der := asn1_get_length_der

/-- The loop `for (k = 0; k < len - 1; k++)` of `asn1_write_value` of libtasn1
for an INTEGER, on the bytes from `value[k]` on: it is left at the first byte
that is not FF when the number is negative and at the first byte that is not 0
when it is not, and at the last byte at the latest. The value is `k`. -/
def write_integer_scan (negative : Bool) : List Nat → Nat → Nat
  | b :: c :: rest, k =>
    if negative ∧ b ≠ 0xFF then k
    else if ¬ negative ∧ b ≠ 0 then k
    else write_integer_scan negative (c :: rest) (k + 1)
  | _, k => k

/-- The content that `asn1_write_value (asn, part, value, len)` of libtasn1 4.19,
which is not part of the repository, keeps in an INTEGER leaf for `len > 0`
bytes: the bytes are a number in two's complement, negative when
`value[0] & 0x80`; the bytes in front of `value[k]` are left out, where `k` is
found by `write_integer_scan` and is stepped back by one when the sign of
`value[k]` is not the sign of the number. `asn1_read_value` gives these bytes
back. -/
def asn1_write_value_integer (value : List Nat) : List Nat :=
  let negative : Bool := decide (value.getD 0 0 &&& 0x80 ≠ 0)
  let k := write_integer_scan negative value 0
  let k := if (negative ∧ value.getD k 0 &&& 0x80 = 0) ∨
      (¬ negative ∧ value.getD k 0 &&& 0x80 ≠ 0) then k - 1 else k
  value.drop k

/-- The coder of libtasn1. -/
structure Tasn1Coding where
  /-- The DER encoding that `asn1_der_coding (asn, part, ...)` makes of the
  structure at `part`; `none` when it fails for another reason than the size of
  the buffer. -/
  der : ASN1_TYPE → List Nat → Option (List Nat)

/-- Results of `asn1_der_coding`: `ASN1_SUCCESS` with the bytes written,
`ASN1_MEM_ERROR` with the length needed left in `*len`, or another error. -/
inductive CodingResult where
  | success (data : List Nat)
  | mem_error (len : Nat)
  | error
  deriving DecidableEq

/-- The call `asn1_der_coding (asn, part, ider, &len, NULL)` with a buffer of
`len` bytes. -/
def asn1_der_coding (lib : Tasn1Coding) (asn : ASN1_TYPE) (part : List Nat) (len : Nat) :
    CodingResult :=
  match lib.der asn part with
  | none => CodingResult.error
  | some data => if data.length ≤ len then CodingResult.success data
    else CodingResult.mem_error data.length

/-- The function `egg_asn1_encode (asn, part, n_data, alloc)` with an allocator
that does not fail: the bytes returned and `*n_data`, which is `len` as the
second call has left it, the number of bytes written; `none` is NULL. -/
def egg_asn1_encode (lib : Tasn1Coding) (asn : ASN1_TYPE) (part : List Nat) :
    Option (List Nat × Nat) :=
  match asn1_der_coding lib asn part 0 with
  | CodingResult.mem_error len =>
    match asn1_der_coding lib asn part len with
    | CodingResult.success data => some (data, data.length)
    | _ => none
  | _ => none

/-- The function `egg_asn1_read_boolean` on the leaf at `part` (`none`: the leaf
cannot be read), with `val` the value of `*val` before the call: the `gboolean`
returned and `*val` afterwards. The buffer has room for 31 characters. -/
def egg_asn1_read_boolean (leaf : Option (List Nat)) (val : Bool) : Bool × Bool :=
  match asn1_read_value leaf 31 with
  | none => (false, val)
  | some buffer =>
    if g_ascii_strcasecmp (c_str buffer) (cstr "TRUE") = 0 then (true, true)
    else (true, false)

/-- The calls of the callback that the specification asks of
`egg_asn1_dn_parse` for the members `rdns`, the first of which has the index
`i`: one for each pair, in document order. -/
def spec_visits : Nat → Name → List DnVisit
  | _, [] => []
  | i, rdn :: rest =>
    rdn.map (fun atv => ⟨i, c_str atv.1, atv.2, atv.2.length⟩) ++ spec_visits (i + 1) rest

/-- The members of a name in front of the first member that has no pair. -/
def visited_members (asn : Name) : Name := asn.takeWhile (fun rdn => !rdn.isEmpty)

/-! ## Traversals round by round, and further functions -/

/-- The function `egg_asn1_element_content (data, n_data, n_content)` with
`n_data` the length of `data` (`data` and `n_content` not NULL): the offset
`counter` of the pointer returned and `*n_content`; `none` is NULL. -/
def egg_asn1_element_content (lib : Tasn1Der) (data : List Nat) : Option (Int × Int) :=
  let counter : Int := 0
  match lib.asn1_get_tag_der data with
  | none => none
  | some cb =>
    let counter := counter + cb
    let r := lib.asn1_get_length_der (data.drop cb)
    let len := r.1
    let cb := r.2
    if len < 0 then none
    else
      let counter := counter + cb
      some (counter, len)

/-- The function `egg_asn1_dn_oid_desc`, with the table filled in or not;
`gettext` is the translation of a description. `none` is NULL. -/
def egg_asn1_dn_oid_desc (gettext : List Nat → List Nat) (inited : Bool) (oid : GQuark) :
    Option (List Nat) :=
  match oid with
  | none => none
  | some s =>
    match dn_find_printable inited oid with
    | none => some s
    | some row => row.description.map gettext

/-- The pair at `?i.?j` of a name, `i` and `j` counted from 1, if there is
one. -/
def dn_pair (asn : Name) (i j : Nat) : Option (List Nat × List Nat) :=
  (asn.getD (i - 1) [])[j - 1]?

/-- The two loops of `egg_asn1_dn_parse` run round by round, the leaves read at
their positions `?i.?j`: each unit of `fuel` pays for one round of the inner
loop, entered at `i` and `j` with the calls of the callback so far. The value is
`none` when the fuel ends before the loops do, else the calls of the callback
and `i` as it is when the outer loop is left. -/
def dn_parse_steps (asn : Name) (callback : Bool) :
    Nat → Nat → Nat → List DnVisit → Option (List DnVisit × Nat)
  | 0, _, _, _ => none
  | fuel + 1, i, j, visits =>
    match egg_asn1_read_oid ((dn_pair asn i j).map Prod.fst) with
    | none =>
      if j == 1 then some (visits, i + 1) else dn_parse_steps asn callback fuel (i + 1) 1 visits
    | some oid =>
      match egg_asn1_read_value ((dn_pair asn i j).map Prod.snd) with
      | none =>
        if j == 1 then some (visits, i + 1)
        else dn_parse_steps asn callback fuel (i + 1) 1 visits
      | some value =>
        let visits := if callback then visits ++ [⟨i, oid, value, value.length⟩] else visits
        dn_parse_steps asn callback fuel i (j + 1) visits

/-- The two loops of `egg_asn1_read_dn` run round by round, as in
`dn_parse_steps`; the value is `result` when the outer loop is left. -/
def read_dn_steps (lib : Tasn1) (inited : Bool) (asn : Name) :
    Nat → Nat → Nat → List Nat → Option (List Nat)
  | 0, _, _, _ => none
  | fuel + 1, i, j, result =>
    match dn_parse_rdn lib inited ((dn_pair asn i j).map Prod.fst)
        ((dn_pair asn i j).map Prod.snd) with
    | none => if j == 1 then some result else read_dn_steps lib inited asn fuel (i + 1) 1 result
    | some rdn =>
      let result := if j > 1 then result ++ [43] else if i > 1 then result ++ [44, 32] else result
      read_dn_steps lib inited asn fuel i (j + 1) (result ++ rdn)

/-- The two loops of `egg_asn1_read_dn_part` run round by round, as in
`dn_parse_steps`, entered with the variable `printable`; the value is what the
function returns. -/
def read_dn_part_steps (lib : Tasn1) (inited : Bool) (asn : Name) (match_ : List Nat) :
    Nat → Nat → Nat → Option PrintableOid → Option (Option (List Nat))
  | 0, _, _, _ => none
  | fuel + 1, i, j, printable =>
    match egg_asn1_read_oid ((dn_pair asn i j).map Prod.fst) with
    | none =>
      if j == 1 then some none
      else read_dn_part_steps lib inited asn match_ fuel (i + 1) 1 printable
    | some oid =>
      if g_ascii_strcasecmp oid match_ ≠ 0 then
        let printable := dn_find_printable inited (some oid)
        let skip : Bool := match printable with
          | none => true
          | some row => match row.attr with
            | none => true
            | some attr =>
              decide ((if g_ascii_strcasecmp attr match_ = 0 then (1 : Int) else 0) = 0)
        if skip then read_dn_part_steps lib inited asn match_ fuel i (j + 1) printable
        else
          match egg_asn1_read_value ((dn_pair asn i j).map Prod.snd) with
          | none => some none
          | some value => some (dn_print_oid_value lib printable value)
      else
        match egg_asn1_read_value ((dn_pair asn i j).map Prod.snd) with
        | none => some none
        | some value => some (dn_print_oid_value lib printable value)

/-- The number of rounds of the inner loop that the members `asn` can ask for:
one for each pair, one more for each member, and one at the end. -/
def spec_rounds (asn : Name) : Nat := (asn.map (fun rdn => rdn.length + 1)).sum + 1

/-- C1 (evaluation at the failing input): for `v = 256` the code hands over the
single byte `0x00`, while the minimal big-endian encoding is `[0x01, 0x00]`;
for `v = 1` both are `[0x01]`. -/
theorem write_uint_256_not_minimal :
    egg_asn1_write_uint 256 = [0] ∧ spec_minimal_big_endian 256 = [1, 0] ∧
    egg_asn1_write_uint 1 = [1] ∧ spec_minimal_big_endian 1 = [1] := by
  refine ⟨by decide, by decide, by decide, by decide⟩

/-- C2 (evaluation at the failing input): for 65535 `egg_asn1_write_uint` hands
the bytes FF FF to `asn1_write_value`, which keeps them as the INTEGER -1 in its
shortest form, the byte FF, and `egg_asn1_read_uint` reads back 255; so it does
for 16777215 and for 4294967295. For 0, 1 and 255 the value is read back. -/
theorem write_read_uint_65535_reads_255 :
    egg_asn1_write_uint 65535 = [0xFF, 0xFF] ∧
    asn1_write_value_integer [0xFF, 0xFF] = [0xFF] ∧
    egg_asn1_read_uint (some (asn1_write_value_integer (egg_asn1_write_uint 65535))) =
      some 255 ∧
    egg_asn1_read_uint (some (asn1_write_value_integer (egg_asn1_write_uint 16777215))) =
      some 255 ∧
    egg_asn1_read_uint (some (asn1_write_value_integer (egg_asn1_write_uint 4294967295))) =
      some 255 ∧
    egg_asn1_read_uint (some (asn1_write_value_integer (egg_asn1_write_uint 0))) = some 0 ∧
    egg_asn1_read_uint (some (asn1_write_value_integer (egg_asn1_write_uint 1))) = some 1 ∧
    egg_asn1_read_uint (some (asn1_write_value_integer (egg_asn1_write_uint 255))) =
      some 255 := by
  refine ⟨by decide, by decide, by decide, by decide, by decide, by decide, by decide,
    by decide⟩

theorem or_shift_byte (hi lo k : Nat) (h : lo < 2 ^ k) : (hi * 2 ^ k) ||| lo = hi * 2 ^ k + lo := by
  rw [Nat.mul_comm]; exact (Nat.mul_add_lt_is_or h hi).symm

theorem read_uint_len1 (a : Nat) (ha : a < 256) :
    egg_asn1_read_uint (some [a]) = some (spec_big_endian_value [a]) := by
  simp [egg_asn1_read_uint, asn1_read_value, spec_big_endian_value, read_uint_step, List.range_succ]
  omega

theorem read_uint_len2 (a b : Nat) (ha : a < 256) (hb : b < 256) :
    egg_asn1_read_uint (some [a, b]) = some (spec_big_endian_value [a, b]) := by
  simp [egg_asn1_read_uint, asn1_read_value, spec_big_endian_value, read_uint_step, List.range_succ, Nat.shiftLeft_eq]
  have h1 : a * 256 % 4294967296 = a * 2 ^ 8 := by omega
  rw [h1, or_shift_byte a b 8 (by omega)]
  omega

theorem read_uint_len3 (a b c : Nat) (ha : a < 256) (hb : b < 256) (hc : c < 256) :
    egg_asn1_read_uint (some [a, b, c]) = some (spec_big_endian_value [a, b, c]) := by
  simp [egg_asn1_read_uint, asn1_read_value, spec_big_endian_value, read_uint_step, List.range_succ, Nat.shiftLeft_eq]
  have h1 : a * 65536 % 4294967296 = a * 2 ^ 16 := by omega
  rw [h1, or_shift_byte a (b * 256) 16 (by omega)]
  have h2 : (a * 2 ^ 16 + b * 256) % 4294967296 = (a * 256 + b) * 2 ^ 8 := by omega
  rw [h2, or_shift_byte (a * 256 + b) c 8 (by omega)]
  omega

theorem read_uint_len4 (a b c d : Nat) (ha : a < 256) (hb : b < 256) (hc : c < 256)
    (hd : d < 256) :
    egg_asn1_read_uint (some [a, b, c, d]) = some (spec_big_endian_value [a, b, c, d]) := by
  simp [egg_asn1_read_uint, asn1_read_value, spec_big_endian_value, read_uint_step, List.range_succ, Nat.shiftLeft_eq]
  have h1 : a * 16777216 % 4294967296 = a * 2 ^ 24 := by omega
  rw [h1, or_shift_byte a (b * 65536) 24 (by omega)]
  have h2 : (a * 2 ^ 24 + b * 65536) % 4294967296 = (a * 256 + b) * 2 ^ 16 := by omega
  rw [h2, or_shift_byte (a * 256 + b) (c * 256) 16 (by omega)]
  have h3 : ((a * 256 + b) * 2 ^ 16 + c * 256) % 4294967296 = (a * 65536 + b * 256 + c) * 2 ^ 8 := by
    omega
  rw [h3, or_shift_byte (a * 65536 + b * 256 + c) d 8 (by omega)]
  omega

theorem big_endian_value_lt (b : List Nat) (hb : ∀ x ∈ b, x < 256) (hn : b.length ≤ 4) :
    spec_big_endian_value b < 2 ^ 32 := by
  match b, hb, hn with
  | [], _, _ => simp [spec_big_endian_value]
  | [a], hb, _ =>
    have ha : a < 256 := hb a (by simp)
    simp [spec_big_endian_value, List.range_succ]; omega
  | [a, b], hb, _ =>
    have ha : a < 256 := hb a (by simp)
    have hb' : b < 256 := hb b (by simp)
    simp [spec_big_endian_value, List.range_succ]; omega
  | [a, b, c], hb, _ =>
    have ha : a < 256 := hb a (by simp)
    have hb' : b < 256 := hb b (by simp)
    have hc : c < 256 := hb c (by simp)
    simp [spec_big_endian_value, List.range_succ]; omega
  | [a, b, c, d], hb, _ =>
    have ha : a < 256 := hb a (by simp)
    have hb' : b < 256 := hb b (by simp)
    have hc : c < 256 := hb c (by simp)
    have hd : d < 256 := hb d (by simp)
    simp [spec_big_endian_value, List.range_succ]; omega
  | _ :: _ :: _ :: _ :: _ :: _, _, hn => simp at hn

/-- C3: for a readable leaf whose content is the bytes `b`, `egg_asn1_read_uint`
succeeds exactly when `1 ≤ n ≤ 4` for `n` the number of bytes, and then returns
the big-endian value of `b`, which fits in 32 bits; with 0 bytes or more than 4
bytes it fails. -/
theorem read_uint_big_endian (b : List Nat) (hb : ∀ x ∈ b, x < 256) :
    egg_asn1_read_uint (some b) =
      (if 1 ≤ b.length ∧ b.length ≤ 4 then some (spec_big_endian_value b) else none) ∧
    (b.length ≤ 4 → spec_big_endian_value b < 2 ^ 32) ∧
    (b.length = 0 ∨ 4 < b.length → egg_asn1_read_uint (some b) = none) := by
  have h1 : egg_asn1_read_uint (some b) =
      (if 1 ≤ b.length ∧ b.length ≤ 4 then some (spec_big_endian_value b) else none) := by
    match b, hb with
    | [], _ => simp [egg_asn1_read_uint, asn1_read_value]
    | [a], hb => simpa using read_uint_len1 a (hb a (by simp))
    | [a, b], hb => simpa using read_uint_len2 a b (hb a (by simp)) (hb b (by simp))
    | [a, b, c], hb =>
      simpa using read_uint_len3 a b c (hb a (by simp)) (hb b (by simp)) (hb c (by simp))
    | [a, b, c, d], hb =>
      simpa using read_uint_len4 a b c d (hb a (by simp)) (hb b (by simp)) (hb c (by simp))
        (hb d (by simp))
    | _ :: _ :: _ :: _ :: _ :: _, _ => simp [egg_asn1_read_uint, asn1_read_value]
  refine ⟨h1, big_endian_value_lt b hb, fun h => ?_⟩
  rw [h1, if_neg (by omega)]

/-- Witness for `read_uint_big_endian` at the content `[0x01, 0x00]`. -/
theorem read_uint_big_endian_witness :
    (∀ x ∈ [1, 0], x < 256) ∧ egg_asn1_read_uint (some [1, 0]) = some 256 :=
  ⟨by decide, (read_uint_big_endian [1, 0] (by decide)).1.trans (by decide)⟩


/-! ### Two digit years -/

theorem two_to_four_digit_year_window (clk : Clock) (t yy : Int) (hnow : clk.now ≥ 0)
    (ht : clk.tm_year = some t) (ht0 : 0 ≤ t) (hy0 : 0 ≤ yy) (hy1 : yy ≤ 99) :
    two_to_four_digit_year clk yy % 100 = yy ∧
    (t + 1900) - 39 ≤ two_to_four_digit_year clk yy ∧
    two_to_four_digit_year clk yy ≤ (t + 1900) + 60 := by
  have hm : Int.tmod t 100 = t % 100 := Int.tmod_eq_emod ht0 (by omega)
  unfold two_to_four_digit_year
  rw [ht]
  simp only [hm]
  split_ifs <;> omega

/-- C4 (as stated, refuted): with the clock in the year 1950, before the epoch,
the two-digit year 50 is not resolved to a year of the window around 1950; the
function returns -1. -/
theorem two_to_four_digit_year_clock_before_epoch :
    two_to_four_digit_year ⟨-631152000, some 50⟩ 50 = -1 ∧
    ¬ (two_to_four_digit_year ⟨-631152000, some 50⟩ 50 % 100 = 50 ∧
       1950 - 39 ≤ two_to_four_digit_year ⟨-631152000, some 50⟩ 50 ∧
       two_to_four_digit_year ⟨-631152000, some 50⟩ 50 ≤ 1950 + 60) := by
  decide

/-- C4 (amended): when the clock is not before the epoch (`time (NULL) >= 0`, so
the current UTC year `Y = tm_year + 1900` is at least 1970), every two-digit
year `yy` in 0..99 is resolved to the unique year `r` with `r mod 100 = yy` and
`Y - 39 ≤ r ≤ Y + 60`; when `time (NULL)` is negative the function returns -1,
whatever the year. -/
theorem two_to_four_digit_year_unique_in_window (clk : Clock) (yy : Int) :
    (clk.now < 0 → two_to_four_digit_year clk yy = -1) ∧
    (∀ t : Int, clk.now ≥ 0 → clk.tm_year = some t → 1970 ≤ t + 1900 → 0 ≤ yy → yy ≤ 99 →
      two_to_four_digit_year clk yy % 100 = yy ∧
      (t + 1900) - 39 ≤ two_to_four_digit_year clk yy ∧
      two_to_four_digit_year clk yy ≤ (t + 1900) + 60 ∧
      ∀ r : Int, r % 100 = yy → (t + 1900) - 39 ≤ r → r ≤ (t + 1900) + 60 →
        r = two_to_four_digit_year clk yy) := by
  constructor
  · intro hneg
    have h2 : ¬ clk.now ≥ 0 := by omega
    unfold two_to_four_digit_year
    split_ifs <;> rfl
  · intro t hnow ht hY hy0 hy1
    obtain ⟨h1, h2, h3⟩ := two_to_four_digit_year_window clk t yy hnow ht (by omega) hy0 hy1
    refine ⟨h1, h2, h3, fun r hr1 hr2 hr3 => ?_⟩
    omega

/-- Witness for `two_to_four_digit_year_unique_in_window`: in 2026 the two-digit
year 42 is 2042 and the two-digit year 90 is 1990; with the clock in 1950 the
value is -1. -/
theorem two_to_four_digit_year_unique_in_window_witness :
    two_to_four_digit_year ⟨1793000000, some 126⟩ 42 = 2042 ∧
    two_to_four_digit_year ⟨1793000000, some 126⟩ 42 % 100 = 42 ∧
    (126 + 1900 : Int) - 39 ≤ two_to_four_digit_year ⟨1793000000, some 126⟩ 42 ∧
    two_to_four_digit_year ⟨1793000000, some 126⟩ 42 ≤ (126 + 1900) + 60 ∧
    two_to_four_digit_year ⟨-631152000, some 50⟩ 42 = -1 :=
  have h := (two_to_four_digit_year_unique_in_window ⟨1793000000, some 126⟩ 42).2 126
    (by decide) rfl (by decide) (by decide) (by decide)
  ⟨by decide, h.1, h.2.1, h.2.2.1,
    (two_to_four_digit_year_unique_in_window ⟨-631152000, some 50⟩ 42).1 (by decide)⟩

/-! ### The grammar of the two parsers -/

theorem field_snd (time : List Nat) (e digits : Nat) (set : Tm → Int → Tm) (st : Tm × Nat) :
    (field time e digits set st).2 = if st.2 + digits ≤ e then st.2 + digits else st.2 := by
  unfold field; split_ifs <;> rfl

theorem parse_fields_snd_even (time : List Nat) (e : Nat) (st : Tm × Nat) :
    (parse_fields time e st).2 % 2 = st.2 % 2 := by
  simp only [parse_fields, field_snd]
  split_ifs <;> omega

theorem parse_zone_when (time : List Nat) (when : Tm) (p : Nat) :
    (parse_zone time when p).when = when := by
  unfold parse_zone
  dsimp only
  split_ifs <;> simp

theorem parse_rest_ret_ne_zero (time : List Nat) (e : Nat) (st : Tm × Nat)
    (h : (parse_rest time e st).ret ≠ 0) :
    out_of_range st.1 = false ∧ st.2 = e ∧
    parse_rest time e st = parse_zone time st.1 (skip_fraction time st.2) := by
  unfold parse_rest at h ⊢
  by_cases h1 : out_of_range st.1 = true
  · simp [h1] at h
  · by_cases h2 : st.2 = e
    · simp [h1, h2]
    · simp [h1, h2] at h

theorem parse_utc_time_when_in_range (clk : Clock) (time : List Nat)
    (h : (parse_utc_time clk time).ret ≠ 0) :
    out_of_range (parse_utc_time clk time).when = false := by
  unfold parse_utc_time at h ⊢
  dsimp only at h ⊢
  split_ifs at h ⊢ with h1
  · simp at h
  · obtain ⟨a, _, c⟩ := parse_rest_ret_ne_zero _ _ _ h
    rw [c, parse_zone_when]; exact a

theorem parse_general_time_when_in_range (time : List Nat)
    (h : (parse_general_time time).ret ≠ 0) :
    out_of_range (parse_general_time time).when = false := by
  unfold parse_general_time at h ⊢
  dsimp only at h ⊢
  split_ifs at h ⊢ with h1
  · simp at h
  · obtain ⟨a, _, c⟩ := parse_rest_ret_ne_zero _ _ _ h
    rw [c, parse_zone_when]; exact a

/-- C8: whenever `parse_utc_time` (under any clock) or `parse_general_time`
accepts a string, returning a value other than `FALSE`, the fields left in
`*when` are in range: `tm_year` in 0..9999, `tm_mon` in 0..11, `tm_mday` in
1..31, `tm_hour` in 0..23, `tm_min` and `tm_sec` in 0..59. -/
theorem parsed_fields_in_range (clk : Clock) (time : List Nat) :
    ((parse_utc_time clk time).ret ≠ 0 →
      out_of_range (parse_utc_time clk time).when = false) ∧
    ((parse_general_time time).ret ≠ 0 →
      out_of_range (parse_general_time time).when = false) ∧
    ∀ w : Tm, out_of_range w = false →
      (0 ≤ w.tm_year ∧ w.tm_year ≤ 9999) ∧ (0 ≤ w.tm_mon ∧ w.tm_mon ≤ 11) ∧
      (1 ≤ w.tm_mday ∧ w.tm_mday ≤ 31) ∧ (0 ≤ w.tm_hour ∧ w.tm_hour ≤ 23) ∧
      (0 ≤ w.tm_min ∧ w.tm_min ≤ 59) ∧ (0 ≤ w.tm_sec ∧ w.tm_sec ≤ 59) := by
  refine ⟨parse_utc_time_when_in_range clk time, parse_general_time_when_in_range time,
    fun w hw => ?_⟩
  simp only [out_of_range, decide_eq_false_iff_not] at hw
  omega

/-- Witness for `parsed_fields_in_range`: the fields of "420704120000Z" read in
2026 and of "20420704120000+xx". -/
theorem parsed_fields_in_range_witness :
    out_of_range (parse_utc_time ⟨1793000000, some 126⟩ (cstr "420704120000Z")).when = false ∧
    out_of_range (parse_general_time (cstr "20420704120000+xx")).when = false ∧
    (parse_general_time (cstr "20420704120000+xx")).when.tm_year ≤ 9999 :=
  have h := parsed_fields_in_range ⟨1793000000, some 126⟩ (cstr "420704120000Z")
  have g := parsed_fields_in_range ⟨1793000000, some 126⟩ (cstr "20420704120000+xx")
  ⟨h.1 (by decide), g.2.1 (by decide), ((g.2.2 _ (g.2.1 (by decide))).1).2⟩

/-- C6: for every string whose leading run of decimal digits has odd length,
`egg_asn1_time_parse_utc` (under any clock) and `egg_asn1_time_parse_general`
both return -1. -/
theorem odd_digit_run_fails (sizeof_time_t : Nat) (clk : Clock) (time : List Nat)
    (hodd : digit_run time % 2 = 1) :
    egg_asn1_time_parse_utc sizeof_time_t clk time = -1 ∧
    egg_asn1_time_parse_general sizeof_time_t time = -1 := by
  constructor
  · have h : (parse_utc_time clk time).ret = 0 := by
      by_contra hne
      unfold parse_utc_time at hne
      dsimp only at hne
      split_ifs at hne with h1
      · simp at hne
      · obtain ⟨_, b, _⟩ := parse_rest_ret_ne_zero _ _ _ hne
        have hk := parse_fields_snd_even time (digit_run time) _ ▸ b ▸ hodd
        rw [field_snd] at hk
        split_ifs at hk
    simp [egg_asn1_time_parse_utc, h]
  · have h : (parse_general_time time).ret = 0 := by
      by_contra hne
      unfold parse_general_time at hne
      dsimp only at hne
      split_ifs at hne with h1
      · simp at hne
      · obtain ⟨_, b, _⟩ := parse_rest_ret_ne_zero _ _ _ hne
        have hk := parse_fields_snd_even time (digit_run time) _ ▸ b ▸ hodd
        rw [field_snd] at hk
        split_ifs at hk
    simp [egg_asn1_time_parse_general, h]

/-- Witness for `odd_digit_run_fails`: the string "2042070". -/
theorem odd_digit_run_fails_witness :
    digit_run (cstr "2042070") % 2 = 1 ∧
    egg_asn1_time_parse_utc 8 ⟨1793000000, some 126⟩ (cstr "2042070") = -1 ∧
    egg_asn1_time_parse_general 8 (cstr "2042070") = -1 :=
  ⟨by decide, odd_digit_run_fails 8 ⟨1793000000, some 126⟩ (cstr "2042070") (by decide)⟩


theorem atoin_two (s : List Nat) (p a b : Nat) (ha : charAt s p = 48 + a)
    (hb : charAt s (p + 1) = 48 + b) (ha9 : a ≤ 9) (hb9 : b ≤ 9) :
    atoin s p 2 = (a : Int) * 10 + b := by
  simp only [atoin, atoin_loop, ha, hb, Nat.add_zero]
  rw [if_neg (by omega), if_neg (by omega)]
  push_cast
  ring

theorem atoin_four (s : List Nat) (p a b c d : Nat) (ha : charAt s p = 48 + a)
    (hb : charAt s (p + 1) = 48 + b) (hc : charAt s (p + 2) = 48 + c)
    (hd : charAt s (p + 3) = 48 + d) (ha9 : a ≤ 9) (hb9 : b ≤ 9) (hc9 : c ≤ 9) (hd9 : d ≤ 9) :
    atoin s p 4 = (a : Int) * 1000 + b * 100 + c * 10 + d := by
  simp only [atoin, atoin_loop, ha, hb, hc, hd, Nat.add_zero]
  rw [if_neg (by omega), if_neg (by omega), if_neg (by omega), if_neg (by omega)]
  push_cast
  ring

theorem digit_le (a : Nat) (h : a ≤ 9) : 48 + a ≤ 57 := by omega

theorem parse_general_time_digits (a0 a1 a2 a3 b0 b1 b2 b3 b4 b5 b6 b7 b8 b9 : Nat)
    (h0 : a0 ≤ 9) (h1 : a1 ≤ 9) (h2 : a2 ≤ 9) (h3 : a3 ≤ 9)
    (k0 : b0 ≤ 9) (k1 : b1 ≤ 9) (k2 : b2 ≤ 9) (k3 : b3 ≤ 9) (k4 : b4 ≤ 9)
    (k5 : b5 ≤ 9) (k6 : b6 ≤ 9) (k7 : b7 ≤ 9) (k8 : b8 ≤ 9) (k9 : b9 ≤ 9) :
    parse_general_time [48 + a0, 48 + a1, 48 + a2, 48 + a3, 48 + b0, 48 + b1, 48 + b2,
      48 + b3, 48 + b4, 48 + b5, 48 + b6, 48 + b7, 48 + b8, 48 + b9, 90] =
    let w := tm_of ((a0 : Int) * 1000 + a1 * 100 + a2 * 10 + a3 - 1900) ((b0 : Int) * 10 + b1 - 1)
      ((b2 : Int) * 10 + b3) ((b4 : Int) * 10 + b5) ((b6 : Int) * 10 + b7) ((b8 : Int) * 10 + b9)
    if out_of_range w then ⟨0, w, 0⟩ else ⟨1, w, 0⟩ := by
  have he : digit_run [48 + a0, 48 + a1, 48 + a2, 48 + a3, 48 + b0, 48 + b1, 48 + b2,
      48 + b3, 48 + b4, 48 + b5, 48 + b6, 48 + b7, 48 + b8, 48 + b9, 90] = 14 := by
    simp [digit_run, List.takeWhile, digit_le, h0, h1, h2, h3, k0, k1, k2, k3, k4, k5, k6, k7,
      k8, k9]
  have y := atoin_four [48 + a0, 48 + a1, 48 + a2, 48 + a3, 48 + b0, 48 + b1, 48 + b2,
      48 + b3, 48 + b4, 48 + b5, 48 + b6, 48 + b7, 48 + b8, 48 + b9, 90] 0 a0 a1 a2 a3
      rfl rfl rfl rfl h0 h1 h2 h3
  have f1 := atoin_two [48 + a0, 48 + a1, 48 + a2, 48 + a3, 48 + b0, 48 + b1, 48 + b2,
      48 + b3, 48 + b4, 48 + b5, 48 + b6, 48 + b7, 48 + b8, 48 + b9, 90] 4 b0 b1 rfl rfl k0 k1
  have f2 := atoin_two [48 + a0, 48 + a1, 48 + a2, 48 + a3, 48 + b0, 48 + b1, 48 + b2,
      48 + b3, 48 + b4, 48 + b5, 48 + b6, 48 + b7, 48 + b8, 48 + b9, 90] 6 b2 b3 rfl rfl k2 k3
  have f3 := atoin_two [48 + a0, 48 + a1, 48 + a2, 48 + a3, 48 + b0, 48 + b1, 48 + b2,
      48 + b3, 48 + b4, 48 + b5, 48 + b6, 48 + b7, 48 + b8, 48 + b9, 90] 8 b4 b5 rfl rfl k4 k5
  have f4 := atoin_two [48 + a0, 48 + a1, 48 + a2, 48 + a3, 48 + b0, 48 + b1, 48 + b2,
      48 + b3, 48 + b4, 48 + b5, 48 + b6, 48 + b7, 48 + b8, 48 + b9, 90] 10 b6 b7 rfl rfl k6 k7
  have f5 := atoin_two [48 + a0, 48 + a1, 48 + a2, 48 + a3, 48 + b0, 48 + b1, 48 + b2,
      48 + b3, 48 + b4, 48 + b5, 48 + b6, 48 + b7, 48 + b8, 48 + b9, 90] 12 b8 b9 rfl rfl k8 k9
  generalize hs : [48 + a0, 48 + a1, 48 + a2, 48 + a3, 48 + b0, 48 + b1, 48 + b2,
      48 + b3, 48 + b4, 48 + b5, 48 + b6, 48 + b7, 48 + b8, 48 + b9, 90] = s at *
  have hl : s.length = 15 := by rw [← hs]; rfl
  have hc : charAt s 14 = 90 := by rw [← hs]; rfl
  unfold parse_general_time
  simp only [he, hl, parse_fields, field, parse_rest, skip_fraction, parse_zone, tm_of, tm_zero]
  simp [y, f1, f2, f3, f4, f5, hc]

theorem parse_utc_time_digits (clk : Clock) (a0 a1 b0 b1 b2 b3 b4 b5 b6 b7 b8 b9 : Nat)
    (h0 : a0 ≤ 9) (h1 : a1 ≤ 9)
    (k0 : b0 ≤ 9) (k1 : b1 ≤ 9) (k2 : b2 ≤ 9) (k3 : b3 ≤ 9) (k4 : b4 ≤ 9)
    (k5 : b5 ≤ 9) (k6 : b6 ≤ 9) (k7 : b7 ≤ 9) (k8 : b8 ≤ 9) (k9 : b9 ≤ 9) :
    parse_utc_time clk [48 + a0, 48 + a1, 48 + b0, 48 + b1, 48 + b2,
      48 + b3, 48 + b4, 48 + b5, 48 + b6, 48 + b7, 48 + b8, 48 + b9, 90] =
    let w := tm_of (two_to_four_digit_year clk ((a0 : Int) * 10 + a1) - 1900)
      ((b0 : Int) * 10 + b1 - 1)
      ((b2 : Int) * 10 + b3) ((b4 : Int) * 10 + b5) ((b6 : Int) * 10 + b7) ((b8 : Int) * 10 + b9)
    if out_of_range w then ⟨0, w, 0⟩ else ⟨1, w, 0⟩ := by
  have he : digit_run [48 + a0, 48 + a1, 48 + b0, 48 + b1, 48 + b2,
      48 + b3, 48 + b4, 48 + b5, 48 + b6, 48 + b7, 48 + b8, 48 + b9, 90] = 12 := by
    simp [digit_run, List.takeWhile, digit_le, h0, h1, k0, k1, k2, k3, k4, k5, k6, k7,
      k8, k9]
  have y := atoin_two [48 + a0, 48 + a1, 48 + b0, 48 + b1, 48 + b2,
      48 + b3, 48 + b4, 48 + b5, 48 + b6, 48 + b7, 48 + b8, 48 + b9, 90] 0 a0 a1 rfl rfl h0 h1
  have f1 := atoin_two [48 + a0, 48 + a1, 48 + b0, 48 + b1, 48 + b2,
      48 + b3, 48 + b4, 48 + b5, 48 + b6, 48 + b7, 48 + b8, 48 + b9, 90] 2 b0 b1 rfl rfl k0 k1
  have f2 := atoin_two [48 + a0, 48 + a1, 48 + b0, 48 + b1, 48 + b2,
      48 + b3, 48 + b4, 48 + b5, 48 + b6, 48 + b7, 48 + b8, 48 + b9, 90] 4 b2 b3 rfl rfl k2 k3
  have f3 := atoin_two [48 + a0, 48 + a1, 48 + b0, 48 + b1, 48 + b2,
      48 + b3, 48 + b4, 48 + b5, 48 + b6, 48 + b7, 48 + b8, 48 + b9, 90] 6 b4 b5 rfl rfl k4 k5
  have f4 := atoin_two [48 + a0, 48 + a1, 48 + b0, 48 + b1, 48 + b2,
      48 + b3, 48 + b4, 48 + b5, 48 + b6, 48 + b7, 48 + b8, 48 + b9, 90] 8 b6 b7 rfl rfl k6 k7
  have f5 := atoin_two [48 + a0, 48 + a1, 48 + b0, 48 + b1, 48 + b2,
      48 + b3, 48 + b4, 48 + b5, 48 + b6, 48 + b7, 48 + b8, 48 + b9, 90] 10 b8 b9 rfl rfl k8 k9
  generalize hs : [48 + a0, 48 + a1, 48 + b0, 48 + b1, 48 + b2,
      48 + b3, 48 + b4, 48 + b5, 48 + b6, 48 + b7, 48 + b8, 48 + b9, 90] = s at *
  have hl : s.length = 13 := by rw [← hs]; rfl
  have hc : charAt s 12 = 90 := by rw [← hs]; rfl
  unfold parse_utc_time
  simp only [he, hl, parse_fields, field, parse_rest, skip_fraction, parse_zone, tm_of, tm_zero]
  simp [y, f1, f2, f3, f4, f5, hc]

theorem digits2_value (n : Nat) (h : n < 100) :
    ((n / 10 % 10 : Nat) : Int) * 10 + ((n % 10 : Nat) : Int) = n := by
  omega

theorem digits4_value (n : Nat) (h : n ≤ 9999) :
    ((n / 1000 % 10 : Nat) : Int) * 1000 + ((n / 100 % 10 : Nat) : Int) * 100 +
      ((n / 10 % 10 : Nat) : Int) * 10 + ((n % 10 : Nat) : Int) = n := by
  omega

theorem parse_general_time_fields (Y MM DD hh mm ss : Nat) (hY : Y ≤ 9999) (hMM : MM < 100)
    (hDD : DD < 100) (hhh : hh < 100) (hmm : mm < 100) (hss : ss < 100) :
    parse_general_time (digits4 Y ++ digits2 MM ++ digits2 DD ++ digits2 hh ++ digits2 mm ++
      digits2 ss ++ [90]) = six_fields_Z ((Y : Int) - 1900) ((MM : Int) - 1) DD hh mm ss := by
  have h := parse_general_time_digits (Y / 1000 % 10) (Y / 100 % 10) (Y / 10 % 10) (Y % 10)
    (MM / 10 % 10) (MM % 10) (DD / 10 % 10) (DD % 10) (hh / 10 % 10) (hh % 10)
    (mm / 10 % 10) (mm % 10) (ss / 10 % 10) (ss % 10)
    (by omega) (by omega) (by omega) (by omega) (by omega) (by omega) (by omega)
    (by omega) (by omega) (by omega) (by omega) (by omega) (by omega) (by omega)
  rw [digits4_value Y hY, digits2_value MM hMM, digits2_value DD hDD, digits2_value hh hhh,
    digits2_value mm hmm, digits2_value ss hss] at h
  exact h

theorem parse_utc_time_fields (clk : Clock) (yy MM DD hh mm ss : Nat) (hyy : yy < 100)
    (hMM : MM < 100) (hDD : DD < 100) (hhh : hh < 100) (hmm : mm < 100) (hss : ss < 100) :
    parse_utc_time clk (digits2 yy ++ digits2 MM ++ digits2 DD ++ digits2 hh ++ digits2 mm ++
      digits2 ss ++ [90]) =
    six_fields_Z (two_to_four_digit_year clk yy - 1900) ((MM : Int) - 1) DD hh mm ss := by
  have h := parse_utc_time_digits clk (yy / 10 % 10) (yy % 10)
    (MM / 10 % 10) (MM % 10) (DD / 10 % 10) (DD % 10) (hh / 10 % 10) (hh % 10)
    (mm / 10 % 10) (mm % 10) (ss / 10 % 10) (ss % 10)
    (by omega) (by omega) (by omega) (by omega) (by omega)
    (by omega) (by omega) (by omega) (by omega) (by omega) (by omega) (by omega)
  rw [digits2_value yy hyy, digits2_value MM hMM, digits2_value DD hDD, digits2_value hh hhh,
    digits2_value mm hmm, digits2_value ss hss] at h
  exact h


theorem charAt_append_right (a b : List Nat) (i : Nat) :
    charAt (a ++ b) (a.length + i) = charAt b i := by
  unfold charAt
  induction a with
  | nil => simp
  | cons x t ih => simpa [Nat.succ_add] using ih

theorem atoin_loop_append_right (a b : List Nat) (i : Nat) (digits : Nat) (ret base : Int) :
    atoin_loop (a ++ b) (a.length + i) digits ret base = atoin_loop b i digits ret base := by
  induction digits generalizing ret base with
  | zero => rfl
  | succ d ih =>
    simp only [atoin_loop, Nat.add_assoc, charAt_append_right, ih]

theorem atoin_append_right (a b : List Nat) (i : Nat) (digits : Nat) :
    atoin (a ++ b) (a.length + i) digits = atoin b i digits :=
  atoin_loop_append_right a b i digits 0 1

theorem parse_zone_append (a z : List Nat) (w : Tm) :
    parse_zone (a ++ z) w a.length = parse_zone z w 0 := by
  have c0 : charAt (a ++ z) a.length = charAt z 0 := charAt_append_right a z 0
  have a1 : atoin (a ++ z) (a.length + 1) 2 = atoin z (0 + 1) 2 := atoin_append_right a z _ 2
  have a3 : atoin (a ++ z) (a.length + 1 + 2) 2 = atoin z (0 + 1 + 2) 2 := by
    rw [Nat.add_assoc]; exact atoin_append_right a z _ 2
  have e1 : (a.length < a.length + z.length) = (0 < z.length) := by simp
  have e2 : (a.length + 1 ≠ a.length + z.length) = (0 + 1 ≠ z.length) := by simp
  have e3 : (a.length + 3 ≤ a.length + z.length) = (0 + 3 ≤ z.length) := by simp
  have e4 : (a.length + 1 + 2 + 2 ≤ a.length + z.length) = (0 + 1 + 2 + 2 ≤ z.length) := by
    simp [Nat.add_assoc]
  have e5 : (a.length + 1 + 2 + 2 ≠ a.length + z.length) = (0 + 1 + 2 + 2 ≠ z.length) := by
    simp [Nat.add_assoc]
  have e6 : (a.length + 1 + 2 ≠ a.length + z.length) = (0 + 1 + 2 ≠ z.length) := by
    simp [Nat.add_assoc]
  have e7 : (a.length ≠ a.length + z.length) = (0 ≠ z.length) := by
    simp [eq_comm]
  unfold parse_zone
  simp only [c0, a1, a3, List.length_append, e1, e2, e3, e4]
  split_ifs <;> simp only [e5, e6, e7] at * <;> first | rfl | contradiction

/-! ### The two entry points -/

/-- C5: for a UTCTime string yyMMDDhhmmss followed by `Z`, the result of
`egg_asn1_time_parse_utc` equals the result of `egg_asn1_time_parse_general` on
the same string with yy replaced by the four digits of the year `r` that
`two_to_four_digit_year` gives for yy under the same clock; and when the current
year is one of 1982..2081, "420704120000Z" and "20420704120000Z" both give the
epoch second 2288088000, which is 2042-07-04T12:00:00Z. -/
theorem utc_time_equals_general_time :
    (∀ (sizeof_time_t : Nat) (clk : Clock) (yy MM DD hh mm ss r : Nat),
      yy < 100 → MM < 100 → DD < 100 → hh < 100 → mm < 100 → ss < 100 →
      two_to_four_digit_year clk yy = (r : Int) → r ≤ 9999 →
      egg_asn1_time_parse_utc sizeof_time_t clk
          (digits2 yy ++ digits2 MM ++ digits2 DD ++ digits2 hh ++ digits2 mm ++ digits2 ss ++
            [90]) =
        egg_asn1_time_parse_general sizeof_time_t
          (digits4 r ++ digits2 MM ++ digits2 DD ++ digits2 hh ++ digits2 mm ++ digits2 ss ++
            [90])) ∧
    (∀ (clk : Clock) (t : Int), clk.now ≥ 0 → clk.tm_year = some t →
      1982 ≤ t + 1900 → t + 1900 ≤ 2081 →
      egg_asn1_time_parse_utc 8 clk (cstr "420704120000Z") = 2288088000 ∧
      egg_asn1_time_parse_general 8 (cstr "20420704120000Z") = 2288088000) := by
  have gen : ∀ (sizeof_time_t : Nat) (clk : Clock) (yy MM DD hh mm ss r : Nat),
      yy < 100 → MM < 100 → DD < 100 → hh < 100 → mm < 100 → ss < 100 →
      two_to_four_digit_year clk yy = (r : Int) → r ≤ 9999 →
      egg_asn1_time_parse_utc sizeof_time_t clk
          (digits2 yy ++ digits2 MM ++ digits2 DD ++ digits2 hh ++ digits2 mm ++ digits2 ss ++
            [90]) =
        egg_asn1_time_parse_general sizeof_time_t
          (digits4 r ++ digits2 MM ++ digits2 DD ++ digits2 hh ++ digits2 mm ++ digits2 ss ++
            [90]) := by
    intro w clk yy MM DD hh mm ss r hyy hMM hDD hhh hmm hss hr hr4
    unfold egg_asn1_time_parse_utc egg_asn1_time_parse_general
    rw [parse_utc_time_fields clk yy MM DD hh mm ss hyy hMM hDD hhh hmm hss,
      parse_general_time_fields r MM DD hh mm ss hr4 hMM hDD hhh hmm hss, hr]
  refine ⟨gen, fun clk t hnow ht h1 h2 => ?_⟩
  have hw := two_to_four_digit_year_window clk t 42 hnow ht (by omega) (by decide) (by decide)
  have hr : two_to_four_digit_year clk ((42 : Nat) : Int) = ((2042 : Nat) : Int) := by
    push_cast; omega
  have hg : egg_asn1_time_parse_general 8 (cstr "20420704120000Z") = 2288088000 := by decide
  refine ⟨?_, hg⟩
  have h := gen 8 clk 42 7 4 12 0 0 2042 (by decide) (by decide) (by decide) (by decide)
    (by decide) (by decide) hr (by decide)
  have s1 : cstr "420704120000Z" = digits2 42 ++ digits2 7 ++ digits2 4 ++ digits2 12 ++
      digits2 0 ++ digits2 0 ++ [90] := by decide
  have s2 : cstr "20420704120000Z" = digits4 2042 ++ digits2 7 ++ digits2 4 ++ digits2 12 ++
      digits2 0 ++ digits2 0 ++ [90] := by decide
  rw [s1, h, ← s2, hg]

/-- Witness for `utc_time_equals_general_time`, with the clock in 2026. -/
theorem utc_time_equals_general_time_witness :
    egg_asn1_time_parse_utc 8 ⟨1793000000, some 126⟩ (cstr "420704120000Z") = 2288088000 ∧
    egg_asn1_time_parse_utc 4 ⟨1793000000, some 126⟩
        (digits2 99 ++ digits2 12 ++ digits2 31 ++ digits2 23 ++ digits2 59 ++ digits2 59 ++ [90]) =
      egg_asn1_time_parse_general 4
        (digits4 1999 ++ digits2 12 ++ digits2 31 ++ digits2 23 ++ digits2 59 ++ digits2 59 ++
          [90]) :=
  ⟨(utc_time_equals_general_time.2 ⟨1793000000, some 126⟩ 126 (by decide) rfl (by decide)
      (by decide)).1,
   utc_time_equals_general_time.1 4 ⟨1793000000, some 126⟩ 99 12 31 23 59 59 1999 (by decide)
      (by decide) (by decide) (by decide) (by decide) (by decide) (by decide) (by decide)⟩

theorem days_before_month_bounds (leap : Bool) (mon : Int) (h0 : 0 ≤ mon) (h1 : mon ≤ 11) :
    0 ≤ days_before_month leap mon ∧ days_before_month leap mon ≤ 335 := by
  obtain ⟨n, rfl⟩ := Int.eq_ofNat_of_zero_le h0
  have hn : n ≤ 11 := by omega
  interval_cases n <;> cases leap <;> decide

theorem timegm_eight (w : Tm) (h : out_of_range w = false) : timegm 8 w = utc_epoch_second w := by
  simp only [out_of_range, decide_eq_false_iff_not] at h
  have hm : w.tm_mon / 12 = 0 := by omega
  have hm2 : w.tm_mon % 12 = w.tm_mon := by omega
  have hb := days_before_month_bounds (is_leap_year (w.tm_year + 1900)) w.tm_mon (by omega)
    (by omega)
  unfold timegm
  have key : -(2 ^ (8 * 8 - 1) : Int) ≤ utc_epoch_second w ∧
      utc_epoch_second w < 2 ^ (8 * 8 - 1) := by
    unfold utc_epoch_second days_before_year
    simp only [hm, hm2, add_zero]
    generalize days_before_month (is_leap_year (w.tm_year + 1900)) w.tm_mon = d at hb
    norm_num
    constructor <;> omega
  simp only [key, and_self, if_true]

theorem digit_run_append (run rest : List Nat) (hrun : ∀ c ∈ run, 48 ≤ c ∧ c ≤ 57)
    (hrest : ¬ (48 ≤ charAt rest 0 ∧ charAt rest 0 ≤ 57)) :
    digit_run (run ++ rest) = run.length := by
  unfold digit_run
  induction run with
  | nil =>
    cases rest with
    | nil => simp
    | cons c t =>
      have : ¬ (48 ≤ c ∧ c ≤ 57) := by simpa [charAt] using hrest
      simp [List.takeWhile, this]
  | cons x t ih =>
    have hx := hrun x (by simp)
    have ht := ih (fun c hc => hrun c (by simp [hc]))
    simp only [List.cons_append, List.takeWhile, ge_iff_le, hx, and_self, decide_True,
      List.length_cons]
    exact congrArg (· + 1) ht

theorem skip_fraction_append (run frac zone : List Nat)
    (hfrac : frac = [] ∨ ∃ a b c d, frac = [46, a, b, c, d])
    (hz : charAt zone 0 ≠ 46) :
    skip_fraction (run ++ frac ++ zone) run.length = (run ++ frac).length := by
  unfold skip_fraction
  rcases hfrac with rfl | ⟨a, b, c, d, rfl⟩
  · have hc : charAt (run ++ [] ++ zone) run.length = charAt zone 0 := by
      simpa using charAt_append_right run zone 0
    rw [if_neg (by rw [hc]; tauto)]; simp
  · have hc : charAt (run ++ [46, a, b, c, d] ++ zone) run.length = 46 := by
      rw [List.append_assoc]
      exact charAt_append_right run _ 0
    rw [if_pos ⟨by simp, hc, by simp⟩]; simp


theorem parse_general_time_accepted (time : List Nat) (h : (parse_general_time time).ret ≠ 0) :
    ∃ w : Tm, out_of_range w = false ∧
      parse_general_time time = parse_zone time w (skip_fraction time (digit_run time)) := by
  unfold parse_general_time at h ⊢
  dsimp only at h ⊢
  split_ifs at h ⊢ with h1
  · simp at h
  · obtain ⟨a, b, c⟩ := parse_rest_ret_ne_zero _ _ _ h
    exact ⟨_, a, by rw [c, b]⟩

theorem parse_general_time_zone (run frac zone : List Nat)
    (hrun : ∀ c ∈ run, 48 ≤ c ∧ c ≤ 57)
    (hfrac : frac = [] ∨ ∃ a b c d, frac = [46, a, b, c, d])
    (hz : charAt zone 0 = 0 ∨ charAt zone 0 = 90 ∨ charAt zone 0 = 43 ∨ charAt zone 0 = 45)
    (h : (parse_general_time (run ++ frac ++ zone)).ret ≠ 0) :
    ∃ w : Tm, out_of_range w = false ∧
      parse_general_time (run ++ frac ++ zone) = parse_zone zone w 0 := by
  obtain ⟨w, hw, e⟩ := parse_general_time_accepted _ h
  refine ⟨w, hw, ?_⟩
  have hd : digit_run (run ++ frac ++ zone) = run.length := by
    rw [List.append_assoc]
    apply digit_run_append run _ hrun
    rcases hfrac with rfl | ⟨a, b, c, d, rfl⟩
    · simp only [List.nil_append]; omega
    · simp [charAt]
  rw [e, hd, skip_fraction_append run frac zone hfrac (by omega), parse_zone_append]

theorem parse_zone_nil (w : Tm) : parse_zone [] w 0 = ⟨1, w, 0⟩ := by
  simp [parse_zone, charAt]

theorem parse_zone_Z (w : Tm) : parse_zone [90] w 0 = ⟨1, w, 0⟩ := by
  simp [parse_zone, charAt]

theorem parse_zone_plus (w : Tm) (hh mm : Nat) (h1 : hh < 100) (h2 : mm < 100) :
    parse_zone (43 :: (digits2 hh ++ digits2 mm)) w 0 =
      if hh > 24 then ⟨-1, w, 0⟩ else ⟨1, w, (hh : Int) * 3600 + (mm : Int) * 60⟩ := by
  have a1 := atoin_two (43 :: (digits2 hh ++ digits2 mm)) 1 (hh / 10 % 10) (hh % 10) rfl rfl
    (by omega) (by omega)
  have a2 := atoin_two (43 :: (digits2 hh ++ digits2 mm)) 3 (mm / 10 % 10) (mm % 10) rfl rfl
    (by omega) (by omega)
  rw [digits2_value hh h1] at a1
  rw [digits2_value mm h2] at a2
  have hl : (43 :: (digits2 hh ++ digits2 mm)).length = 5 := rfl
  have hc : charAt (43 :: (digits2 hh ++ digits2 mm)) 0 = 43 := rfl
  unfold parse_zone
  simp only [hl, hc, a1, a2]
  by_cases hb : hh > 24
  · have : ((hh : Int) * 3600 < 0 ∨ (hh : Int) * 3600 > 86400) := by omega
    simp [hb, this]
  · have : ¬ ((hh : Int) * 3600 < 0 ∨ (hh : Int) * 3600 > 86400) := by omega
    simp [hb, this]

theorem parse_zone_minus (w : Tm) (hh mm : Nat) (h1 : hh < 100) (h2 : mm < 100) :
    parse_zone (45 :: (digits2 hh ++ digits2 mm)) w 0 =
      if hh > 24 then ⟨-1, w, 0⟩ else ⟨1, w, -((hh : Int) * 3600 + (mm : Int) * 60)⟩ := by
  have a1 := atoin_two (45 :: (digits2 hh ++ digits2 mm)) 1 (hh / 10 % 10) (hh % 10) rfl rfl
    (by omega) (by omega)
  have a2 := atoin_two (45 :: (digits2 hh ++ digits2 mm)) 3 (mm / 10 % 10) (mm % 10) rfl rfl
    (by omega) (by omega)
  rw [digits2_value hh h1] at a1
  rw [digits2_value mm h2] at a2
  have hl : (45 :: (digits2 hh ++ digits2 mm)).length = 5 := rfl
  have hc : charAt (45 :: (digits2 hh ++ digits2 mm)) 0 = 45 := rfl
  unfold parse_zone
  simp only [hl, hc, a1, a2]
  by_cases hb : hh > 24
  · have : ((hh : Int) * 3600 < 0 ∨ (hh : Int) * 3600 > 86400) := by omega
    simp [hb, this]
  · have : ¬ ((hh : Int) * 3600 < 0 ∨ (hh : Int) * 3600 > 86400) := by omega
    simp [hb, this]


/-- C7 (evaluation at the failing inputs): an offset whose hour is not two
decimal digits ("+xx"), whose hour is more than 24 with characters left over
behind it ("+99garbage"), or whose minutes are not decimal digits ("+01xx") is
not rejected: the parsers leave through `return -1`, which is not `FALSE`, or
return `TRUE`, and the entry points return an epoch second, not -1. -/
theorem malformed_offset_not_rejected :
    (parse_general_time (cstr "20420704120000+xx")).ret = -1 ∧
    egg_asn1_time_parse_general 8 (cstr "20420704120000+xx") = 2288088000 ∧
    (parse_utc_time ⟨1793000000, some 126⟩ (cstr "420704120000+xx")).ret = -1 ∧
    egg_asn1_time_parse_utc 8 ⟨1793000000, some 126⟩ (cstr "420704120000+xx") = 2288088000 ∧
    (parse_general_time (cstr "20420704120000+99garbage")).ret = -1 ∧
    egg_asn1_time_parse_general 8 (cstr "20420704120000+99garbage") = 2288088000 ∧
    (parse_general_time (cstr "20420704120000+01xx")).ret = 1 ∧
    egg_asn1_time_parse_general 8 (cstr "20420704120000+01xx") = 2288088000 + 3540 := by
  refine ⟨by decide, by decide, by decide, by decide, by decide, by decide, by decide, by decide⟩

/-- C9 (as stated, refuted): the string "18991231235959Z" has its year in
0000..9999 and every other field in the ranges of the claim, and
`parse_general_time` rejects it; so it does "00000101000000Z". -/
theorem general_time_rejects_year_before_1900 :
    cstr "18991231235959Z" = digits4 1899 ++ digits2 12 ++ digits2 31 ++ digits2 23 ++
      digits2 59 ++ digits2 59 ++ [90] ∧
    (parse_general_time (cstr "18991231235959Z")).ret = 0 ∧
    (parse_general_time (cstr "00000101000000Z")).ret = 0 := by
  refine ⟨by decide, by decide, by decide⟩

/-- C9 (amended): for every GeneralizedTime string YYYYMMDDhhmmss followed by
`Z` with MM in 01..12, DD in 01..31, hh in 00..23 and mm, ss in 00..59: when
YYYY is in 1900..9999 `parse_general_time` returns `TRUE` with these fields and
offset 0, and the day is not checked against the month; when YYYY is in
0000..1899 it returns `FALSE`. -/
theorem general_time_accepts_years_from_1900 (Y MM DD hh mm ss : Nat)
    (hY1 : Y ≤ 9999) (hM0 : 1 ≤ MM) (hM1 : MM ≤ 12) (hD0 : 1 ≤ DD)
    (hD1 : DD ≤ 31) (hh1 : hh ≤ 23) (hm1 : mm ≤ 59) (hs1 : ss ≤ 59) :
    (1900 ≤ Y →
      parse_general_time (digits4 Y ++ digits2 MM ++ digits2 DD ++ digits2 hh ++ digits2 mm ++
        digits2 ss ++ [90]) =
      ⟨1, tm_of ((Y : Int) - 1900) ((MM : Int) - 1) DD hh mm ss, 0⟩) ∧
    (Y < 1900 →
      (parse_general_time (digits4 Y ++ digits2 MM ++ digits2 DD ++ digits2 hh ++ digits2 mm ++
        digits2 ss ++ [90])).ret = 0) := by
  rw [parse_general_time_fields Y MM DD hh mm ss hY1 (by omega) (by omega) (by omega) (by omega)
    (by omega)]
  constructor
  · intro hY0
    have hr : out_of_range (tm_of ((Y : Int) - 1900) ((MM : Int) - 1) DD hh mm ss) = false := by
      simp only [out_of_range, tm_of, decide_eq_false_iff_not]
      omega
    simp [six_fields_Z, hr]
  · intro hY0
    have hr : out_of_range (tm_of ((Y : Int) - 1900) ((MM : Int) - 1) DD hh mm ss) = true := by
      simp only [out_of_range, tm_of, decide_eq_true_eq]
      omega
    simp [six_fields_Z, hr]

/-- Witness for `general_time_accepts_years_from_1900`: "20230231000000Z", the
31st of February, is accepted, and "18000704120000Z" is rejected. -/
theorem general_time_accepts_years_from_1900_witness :
    cstr "20230231000000Z" = digits4 2023 ++ digits2 2 ++ digits2 31 ++ digits2 0 ++
      digits2 0 ++ digits2 0 ++ [90] ∧
    parse_general_time (digits4 2023 ++ digits2 2 ++ digits2 31 ++ digits2 0 ++ digits2 0 ++
      digits2 0 ++ [90]) = ⟨1, tm_of 123 1 31 0 0 0, 0⟩ ∧
    cstr "18000704120000Z" = digits4 1800 ++ digits2 7 ++ digits2 4 ++ digits2 12 ++
      digits2 0 ++ digits2 0 ++ [90] ∧
    (parse_general_time (digits4 1800 ++ digits2 7 ++ digits2 4 ++ digits2 12 ++ digits2 0 ++
      digits2 0 ++ [90])).ret = 0 :=
  ⟨by decide,
   (general_time_accepts_years_from_1900 2023 2 31 0 0 0 (by decide) (by decide) (by decide)
      (by decide) (by decide) (by decide) (by decide) (by decide)).1 (by decide),
   by decide,
   (general_time_accepts_years_from_1900 1800 7 4 12 0 0 (by decide) (by decide) (by decide)
      (by decide) (by decide) (by decide) (by decide) (by decide)).2 (by decide)⟩

/-- C10 (as stated, refuted): "19600101000000+0100" is accepted with the offset
+3600, the epoch second of its fields is -315619200, before 1970, and the value
returned is -315619200: the offset is not added. -/
theorem general_time_before_1970_offset_not_added :
    (parse_general_time (cstr "19600101000000+0100")).ret = 1 ∧
    (parse_general_time (cstr "19600101000000+0100")).offset = 1 * 3600 + 0 * 60 ∧
    utc_epoch_second (parse_general_time (cstr "19600101000000+0100")).when = -315619200 ∧
    egg_asn1_time_parse_general 8 (cstr "19600101000000+0100") = -315619200 ∧
    egg_asn1_time_parse_general 8 (cstr "19600101000000+0100") ≠
      utc_epoch_second (parse_general_time (cstr "19600101000000+0100")).when +
        (parse_general_time (cstr "19600101000000+0100")).offset := by
  refine ⟨by decide, by decide, by decide, by decide, by decide⟩

/-- C10 (amended): for every string on which `parse_general_time` returns `TRUE`
(with a 64-bit epoch), `egg_asn1_time_parse_general` returns the UTC epoch second
`t` of the parsed calendar fields plus the parsed offset when `t ≥ 0`, and `t`
itself when `t < 0`; for a string made of the digits, an optional fraction and
a zone, the parsed offset is 0 for `Z` or no zone, `hh*3600 + mm*60` for
"+hhmm" and `-(hh*3600 + mm*60)` for "-hhmm". -/
theorem general_time_epoch_plus_offset (time : List Nat)
    (hacc : (parse_general_time time).ret = 1) :
    egg_asn1_time_parse_general 8 time =
      (if 0 ≤ utc_epoch_second (parse_general_time time).when then
        utc_epoch_second (parse_general_time time).when + (parse_general_time time).offset
      else utc_epoch_second (parse_general_time time).when) ∧
    ∀ run frac : List Nat, (∀ c ∈ run, 48 ≤ c ∧ c ≤ 57) →
      (frac = [] ∨ ∃ a b c d, frac = [46, a, b, c, d]) →
      ((time = run ++ frac ∨ time = run ++ frac ++ [90]) →
        (parse_general_time time).offset = 0) ∧
      (∀ hh mm : Nat, hh < 100 → mm < 100 →
        time = run ++ frac ++ (43 :: (digits2 hh ++ digits2 mm)) →
        (parse_general_time time).offset = (hh : Int) * 3600 + (mm : Int) * 60) ∧
      (∀ hh mm : Nat, hh < 100 → mm < 100 →
        time = run ++ frac ++ (45 :: (digits2 hh ++ digits2 mm)) →
        (parse_general_time time).offset = -((hh : Int) * 3600 + (mm : Int) * 60)) := by
  have hne : (parse_general_time time).ret ≠ 0 := by rw [hacc]; decide
  constructor
  · have hr := parse_general_time_when_in_range time hne
    unfold egg_asn1_time_parse_general when_to_time
    simp only [hne, if_false, timegm_eight _ hr]
    rw [if_neg (by omega)]
  · intro run frac hrun hfrac
    refine ⟨fun h => ?_, fun hh mm h1 h2 h => ?_, fun hh mm h1 h2 h => ?_⟩
    · rcases h with h | h
      · subst h
        have hne2 : (parse_general_time (run ++ frac ++ [])).ret ≠ 0 := by simpa using hne
        obtain ⟨w, _, e⟩ := parse_general_time_zone run frac [] hrun hfrac (Or.inl rfl) hne2
        rw [List.append_nil] at e
        rw [e, parse_zone_nil]
      · subst h
        obtain ⟨w, _, e⟩ := parse_general_time_zone run frac [90] hrun hfrac
          (Or.inr (Or.inl rfl)) hne
        rw [e, parse_zone_Z]
    · subst h
      obtain ⟨w, _, e⟩ := parse_general_time_zone run frac (43 :: (digits2 hh ++ digits2 mm))
        hrun hfrac (Or.inr (Or.inr (Or.inl rfl))) hne
      rw [e, parse_zone_plus w hh mm h1 h2] at hacc ⊢
      split_ifs at hacc ⊢ with hb
      · simp at hacc
      · rfl
    · subst h
      obtain ⟨w, _, e⟩ := parse_general_time_zone run frac (45 :: (digits2 hh ++ digits2 mm))
        hrun hfrac (Or.inr (Or.inr (Or.inr rfl))) hne
      rw [e, parse_zone_minus w hh mm h1 h2] at hacc ⊢
      split_ifs at hacc ⊢ with hb
      · simp at hacc
      · rfl

/-- Witness for `general_time_epoch_plus_offset`: "20420704120000+0130" is the
epoch second 2288088000 plus 5400. -/
theorem general_time_epoch_plus_offset_witness :
    (parse_general_time (cstr "20420704120000+0130")).ret = 1 ∧
    egg_asn1_time_parse_general 8 (cstr "20420704120000+0130") = 2288088000 + 5400 ∧
    (parse_general_time (cstr "20420704120000+0130")).offset = 1 * 3600 + 30 * 60 :=
  have h := general_time_epoch_plus_offset (cstr "20420704120000+0130") (by decide)
  ⟨by decide, h.1.trans (by decide),
    ((h.2 (cstr "20420704120000") [] (by decide) (Or.inl rfl)).2.1 1 30 (by decide) (by decide)
      (by decide)).trans (by decide)⟩

/-! ### The epoch value -/

/-- C11 (evaluation at the failing input): with a 32-bit `time_t` the fields of
2042-07-04T12:00:00Z, whose `tm_year` is 142, are not clamped: the comparison
`when->tm_year >= 2038` is made with the years since 1900, so `when_to_time`
goes on to `timegm` and returns its -1, not 2145914603; the clamp is only
reached from the calendar year 3938 on. -/
theorem when_to_time_year_2042_not_clamped :
    (parse_general_time (cstr "20420704120000Z")).when = tm_of 142 6 4 12 0 0 ∧
    when_to_time 4 (tm_of 142 6 4 12 0 0) 0 = -1 ∧
    when_to_time 4 (tm_of 142 6 4 12 0 0) 0 ≠ 2145914603 ∧
    egg_asn1_time_parse_general 4 (cstr "20420704120000Z") = -1 ∧
    when_to_time 4 (tm_of (3937 - 1900) 11 31 23 59 59) 0 ≠ 2145914603 ∧
    when_to_time 4 (tm_of (3938 - 1900) 0 1 0 0 0) 0 = 2145914603 := by
  refine ⟨by decide, by decide, by decide, by decide, by decide, by decide⟩

theorem when_to_time_eight (w : Tm) (offset : Int) (h : out_of_range w = false) :
    when_to_time 8 w offset =
      if 0 ≤ utc_epoch_second w then utc_epoch_second w + offset else utc_epoch_second w := by
  unfold when_to_time
  rw [if_neg (by omega), timegm_eight w h]

theorem when_to_time_eight_eq_neg_one (w : Tm) (offset : Int) (h : out_of_range w = false) :
    when_to_time 8 w offset = -1 ↔
      (utc_epoch_second w = -1 ∨ (0 ≤ utc_epoch_second w ∧ utc_epoch_second w + offset = -1)) := by
  rw [when_to_time_eight w offset h]
  split_ifs <;> omega

/-- C12 (as stated, refuted): "19691231235959Z" and, with the clock in 2008,
"691231235959Z" are accepted, the parsers return `TRUE`, and the value returned
is -1, the epoch second of 1969-12-31T23:59:59Z; so is "19700101000059-0001",
whose fields have the epoch second 59 and whose offset is -60. -/
theorem accepted_time_yields_minus_one :
    (parse_general_time (cstr "19691231235959Z")).ret = 1 ∧
    egg_asn1_time_parse_general 8 (cstr "19691231235959Z") = -1 ∧
    (parse_utc_time ⟨1200000000, some 108⟩ (cstr "691231235959Z")).ret = 1 ∧
    egg_asn1_time_parse_utc 8 ⟨1200000000, some 108⟩ (cstr "691231235959Z") = -1 ∧
    (parse_general_time (cstr "19700101000059-0001")).ret = 1 ∧
    egg_asn1_time_parse_general 8 (cstr "19700101000059-0001") = -1 := by
  refine ⟨by decide, by decide, by decide, by decide, by decide, by decide⟩

/-- C12 (amended): with a 64-bit epoch, `egg_asn1_time_parse_utc` and
`egg_asn1_time_parse_general` return -1 whenever the parser returns `FALSE`; on
a string that the parser does not return `FALSE` for, they return -1 exactly
when the epoch second `t` of the parsed fields is -1, or `t ≥ 0` and `t` plus the
parsed offset is -1. -/
theorem time_parse_minus_one (clk : Clock) (time : List Nat) :
    ((parse_utc_time clk time).ret = 0 → egg_asn1_time_parse_utc 8 clk time = -1) ∧
    ((parse_general_time time).ret = 0 → egg_asn1_time_parse_general 8 time = -1) ∧
    ((parse_utc_time clk time).ret ≠ 0 →
      (egg_asn1_time_parse_utc 8 clk time = -1 ↔
        (utc_epoch_second (parse_utc_time clk time).when = -1 ∨
          (0 ≤ utc_epoch_second (parse_utc_time clk time).when ∧
            utc_epoch_second (parse_utc_time clk time).when +
              (parse_utc_time clk time).offset = -1)))) ∧
    ((parse_general_time time).ret ≠ 0 →
      (egg_asn1_time_parse_general 8 time = -1 ↔
        (utc_epoch_second (parse_general_time time).when = -1 ∨
          (0 ≤ utc_epoch_second (parse_general_time time).when ∧
            utc_epoch_second (parse_general_time time).when +
              (parse_general_time time).offset = -1)))) := by
  refine ⟨fun h => ?_, fun h => ?_, fun h => ?_, fun h => ?_⟩
  · simp [egg_asn1_time_parse_utc, h]
  · simp [egg_asn1_time_parse_general, h]
  · unfold egg_asn1_time_parse_utc
    simp only [h, if_false]
    exact when_to_time_eight_eq_neg_one _ _ (parse_utc_time_when_in_range clk time h)
  · unfold egg_asn1_time_parse_general
    simp only [h, if_false]
    exact when_to_time_eight_eq_neg_one _ _ (parse_general_time_when_in_range time h)

/-- Witness for `time_parse_minus_one`: "2042070" gives -1, "20420704120000Z"
does not. -/
theorem time_parse_minus_one_witness :
    egg_asn1_time_parse_general 8 (cstr "2042070") = -1 ∧
    egg_asn1_time_parse_utc 8 ⟨1793000000, some 126⟩ (cstr "2042070") = -1 ∧
    egg_asn1_time_parse_general 8 (cstr "20420704120000Z") ≠ -1 ∧
    egg_asn1_time_parse_utc 8 ⟨1793000000, some 126⟩ (cstr "420704120000Z") ≠ -1 :=
  have h := time_parse_minus_one ⟨1793000000, some 126⟩ (cstr "2042070")
  have g := time_parse_minus_one ⟨1793000000, some 126⟩ (cstr "20420704120000Z")
  have u := time_parse_minus_one ⟨1793000000, some 126⟩ (cstr "420704120000Z")
  ⟨h.2.1 (by decide), h.1 (by decide),
    fun e => absurd ((g.2.2.2 (by decide)).1 e) (by decide),
    fun e => absurd ((u.2.2.1 (by decide)).1 e) (by decide)⟩

/-! ### Distinguished names -/

theorem hexc_digit (d : Nat) (h : d < 16) : HEXC.getD d 0 = spec_hex_digit d := by
  interval_cases d <;> decide

theorem hex_loop_eq (data : List Nat) (h : ∀ b ∈ data, b < 256) :
    hex_loop data = spec_hex_upper data := by
  induction data with
  | nil => rfl
  | cons b t ih =>
    have hb : b < 256 := h b (by simp)
    have e1 : (b >>> 4) &&& 0xf = b / 16 := by
      rw [Nat.shiftRight_eq_div_pow, show (0xf : Nat) = 2 ^ 4 - 1 from rfl,
        Nat.and_pow_two_sub_one_eq_mod]
      omega
    have e2 : b &&& 0xf = b % 16 := by
      rw [show (0xf : Nat) = 2 ^ 4 - 1 from rfl, Nat.and_pow_two_sub_one_eq_mod]
    have ht := ih (fun x hx => h x (by simp [hx]))
    simp only [hex_loop, e1, e2, hexc_digit (b / 16) (by omega), hexc_digit (b % 16) (by omega), ht]
    simp [spec_hex_upper]

theorem dn_print_hex_value_eq (data : List Nat) (h : ∀ b ∈ data, b < 256) :
    dn_print_hex_value data = 35 :: spec_hex_upper data := by
  rw [dn_print_hex_value, hex_loop_eq data h]

theorem dn_find_printable_absent (inited : Bool) (oidstr : List Nat)
    (h : ∀ row ∈ printable_oids, row.oidstr ≠ oidstr) :
    dn_find_printable inited (some oidstr) = none := by
  unfold dn_find_printable
  rw [if_neg (by simp)]
  rw [List.find?_eq_none]
  intro row hrow
  have := h row hrow
  cases inited <;> simp [PrintableOid.oid, this]

theorem dn_print_oid_value_parsed_none (lib : Tasn1) (printable : Option PrintableOid)
    (data : List Nat) (hd : data ≠ [])
    (hp : ∀ row, printable = some row → dn_print_oid_value_parsed lib row data = none) :
    dn_print_oid_value lib printable data = some (dn_print_hex_value data) := by
  unfold dn_print_oid_value
  have hl : ¬ data.length = 0 := by
    intro h; exact hd (List.length_eq_zero.mp h)
  rw [if_neg hl]
  cases printable with
  | none => rfl
  | some row => simp [hp row rfl]

/-- C15: for every OID that is absent from the table `printable_oids` and every
value that is not empty, `egg_asn1_dn_print_value` gives `#` followed by the
upper case hexadecimal encoding of every byte, two digits for each; the bytes of
"hello" give "#68656C6C6F". -/
theorem unknown_oid_prints_hex (lib : Tasn1) (inited : Bool) (oidstr : List Nat)
    (habsent : ∀ row ∈ printable_oids, row.oidstr ≠ oidstr) :
    (∀ value : List Nat, value ≠ [] → (∀ b ∈ value, b < 256) →
      egg_asn1_dn_print_value lib inited (some oidstr) value =
        some (35 :: spec_hex_upper value)) ∧
    egg_asn1_dn_print_value lib inited (some oidstr) (cstr "hello") =
      some (cstr "#68656C6C6F") := by
  have key : ∀ value : List Nat, value ≠ [] →
      egg_asn1_dn_print_value lib inited (some oidstr) value =
        some (dn_print_hex_value value) := by
    intro value hv
    unfold egg_asn1_dn_print_value
    simp only [dn_find_printable_absent inited oidstr habsent]
    exact dn_print_oid_value_parsed_none lib none value hv (fun row h => by cases h)
  refine ⟨fun value hv hb => ?_, ?_⟩
  · rw [key value hv, dn_print_hex_value_eq value hb]
  · rw [key _ (by decide)]
    decide

/-- Witness for `unknown_oid_prints_hex`: the OID 1.2.3.4 is not in the table. -/
theorem unknown_oid_prints_hex_witness :
    egg_asn1_dn_print_value string_tasn1 true (some (cstr "1.2.3.4")) (cstr "hello") =
      some (cstr "#68656C6C6F") :=
  (unknown_oid_prints_hex string_tasn1 true (cstr "1.2.3.4") (by decide)).2

theorem dn_parse_rdns_snd (callback : Bool) (i : Nat) (asn : Name) (visits : List DnVisit) :
    (dn_parse_rdns callback i asn visits).2 > i := by
  induction asn generalizing i visits with
  | nil => simp [dn_parse_rdns]
  | cons rdn rest ih =>
    simp only [dn_parse_rdns]
    split_ifs
    · simp
    · have := ih (i + 1) (dn_parse_values callback i 1 rdn visits).1
      omega

/-- C20 (evaluation at the failing input): for a name with no members
`egg_asn1_dn_parse` returns `TRUE`, with or without a callback, and the callback
is not called; in fact it returns `TRUE` for every name, because `i` is
compared with 1 after the last `++i` of the loop. -/
theorem dn_parse_returns_true_for_empty_name :
    egg_asn1_dn_parse [] true = ([], true) ∧ egg_asn1_dn_parse [] false = ([], true) ∧
    ∀ (asn : Name) (callback : Bool), (egg_asn1_dn_parse asn callback).2 = true := by
  refine ⟨by decide, by decide, fun asn callback => ?_⟩
  simp only [egg_asn1_dn_parse, decide_eq_true_eq]
  have := dn_parse_rdns_snd callback 1 asn []
  omega

/-- C18 (evaluation at the failing input): once the table is filled in,
`egg_asn1_dn_oid_attr` returns NULL for 1.2.840.113549.1.9.7 and for
1.2.840.113549.1.9.20, whose rows have no short name, while the label asked for
is the dotted string, which is what `egg_asn1_read_dn` prints before `=`. -/
theorem dn_oid_attr_null_without_short_name :
    egg_asn1_dn_oid_attr true (some (cstr "1.2.840.113549.1.9.7")) = none ∧
    egg_asn1_dn_oid_attr true (some (cstr "1.2.840.113549.1.9.20")) = none ∧
    spec_label (cstr "1.2.840.113549.1.9.7") = cstr "1.2.840.113549.1.9.7" ∧
    spec_label (cstr "1.2.840.113549.1.9.20") = cstr "1.2.840.113549.1.9.20" ∧
    egg_asn1_read_dn string_tasn1 false
        [[(cstr "1.2.840.113549.1.9.7", der_string 0x13 (cstr "A"))]] =
      some (cstr "1.2.840.113549.1.9.7=A") ∧
    egg_asn1_dn_oid_attr true (some (cstr "2.5.4.3")) = some (cstr "CN") := by
  refine ⟨by decide, by decide, by decide, by decide, by decide, by decide⟩

theorem egg_asn1_read_value_some (content : List Nat) (h : content ≠ []) :
    egg_asn1_read_value (some content) = some content := by
  have hl : ¬ content.length ≤ 0 := by
    intro h0
    exact h (List.length_eq_zero.mp (Nat.le_zero.mp h0))
  simp [egg_asn1_read_value, asn1_read_value, hl]

theorem egg_asn1_read_oid_some (content : List Nat) (h : content ≠ []) :
    egg_asn1_read_oid (some content) = some (c_str content) := by
  simp [egg_asn1_read_oid, egg_asn1_read_value_some content h]

theorem dn_print_oid_value_some (lib : Tasn1) (printable : Option PrintableOid)
    (data : List Nat) (hd : data ≠ []) :
    ∃ display, dn_print_oid_value lib printable data = some display := by
  unfold dn_print_oid_value
  have hl : ¬ data.length = 0 := fun h => hd (List.length_eq_zero.mp h)
  rw [if_neg hl]
  cases printable with
  | none => exact ⟨_, rfl⟩
  | some row =>
    cases h : dn_print_oid_value_parsed lib row data with
    | none => exact ⟨dn_print_hex_value data, by simp only [h]⟩
    | some v => exact ⟨v, by simp only [h]⟩

theorem dn_find_printable_inited (oid : List Nat) :
    dn_find_printable true (some oid) = spec_table_row oid := by
  unfold dn_find_printable spec_table_row
  rw [if_neg (by simp)]
  congr 1
  funext row
  simp [PrintableOid.oid]

theorem dn_parse_rdn_some (lib : Tasn1) (atv : List Nat × List Nat)
    (h1 : atv.1 ≠ []) (h2 : atv.2 ≠ []) :
    ∃ display, dn_print_oid_value lib (spec_table_row (c_str atv.1)) atv.2 = some display ∧
      dn_parse_rdn lib true (some atv.1) (some atv.2) =
        some (spec_label (c_str atv.1) ++ [61] ++ display) := by
  obtain ⟨display, hd⟩ := dn_print_oid_value_some lib (spec_table_row (c_str atv.1)) atv.2 h2
  refine ⟨display, hd, ?_⟩
  unfold dn_parse_rdn
  simp only [egg_asn1_read_oid_some atv.1 h1, egg_asn1_read_value_some atv.2 h2,
    dn_find_printable_inited, hd, spec_label]
  cases hr : spec_table_row (c_str atv.1) with
  | none => rfl
  | some row =>
    cases ha : row.attr with
    | none => simp [ha]
    | some a => simp [ha]

theorem pair_text_eq (lib : Tasn1) (atv : List Nat × List Nat)
    (h1 : atv.1 ≠ []) (h2 : atv.2 ≠ []) :
    dn_parse_rdn lib true (some atv.1) (some atv.2) = some (pair_text lib atv) ∧
      pair_text lib atv ≠ [] := by
  obtain ⟨display, _, h⟩ := dn_parse_rdn_some lib atv h1 h2
  simp [pair_text, h]

theorem read_dn_values_more (lib : Tasn1) (i j : Nat) (rest : List (List Nat × List Nat))
    (result : List Nat) (hj : 1 < j) (hok : ∀ atv ∈ rest, atv.1 ≠ [] ∧ atv.2 ≠ []) :
    read_dn_values lib true i j rest result =
      (result ++ (rest.map (fun atv => [43] ++ pair_text lib atv)).flatten, false) := by
  induction rest generalizing j result with
  | nil =>
    have : (j == 1) = false := by simp; omega
    simp [read_dn_values, this]
  | cons atv t ih =>
    have h := hok atv (by simp)
    simp only [read_dn_values, (pair_text_eq lib atv h.1 h.2).1, if_pos hj]
    rw [ih (j + 1) _ (by omega) (fun a ha => hok a (by simp [ha]))]
    simp

theorem read_dn_values_first (lib : Tasn1) (i : Nat) (atv : List Nat × List Nat)
    (rest : List (List Nat × List Nat)) (result : List Nat)
    (hok : ∀ a ∈ atv :: rest, a.1 ≠ [] ∧ a.2 ≠ []) :
    read_dn_values lib true i 1 (atv :: rest) result =
      (result ++ (if i > 1 then [44, 32] else []) ++
        spec_join [43] ((atv :: rest).map (pair_text lib)), false) := by
  have h := hok atv (by simp)
  simp only [read_dn_values, (pair_text_eq lib atv h.1 h.2).1]
  rw [if_neg (by omega)]
  rw [read_dn_values_more lib i 2 rest _ (by omega) (fun a ha => hok a (by simp [ha]))]
  have hj : ∀ (x : List Nat) (l : List (List Nat × List Nat)),
      x ++ (l.map (fun a => [43] ++ pair_text lib a)).flatten =
        spec_join [43] (x :: l.map (pair_text lib)) := by
    intro x l
    induction l generalizing x with
    | nil => simp [spec_join]
    | cons a t ih => simp [spec_join, ← ih]
  split_ifs <;> simp [← hj]


theorem read_dn_rdns_more (lib : Tasn1) (i : Nat) (asn : Name) (result : List Nat)
    (hi : 1 < i) (hne : ∀ rdn ∈ asn, rdn ≠ [])
    (hok : ∀ rdn ∈ asn, ∀ atv ∈ rdn, atv.1 ≠ [] ∧ atv.2 ≠ []) :
    read_dn_rdns lib true i asn result =
      result ++ (asn.map (fun rdn =>
        [44, 32] ++ spec_join [43] (rdn.map (pair_text lib)))).flatten := by
  induction asn generalizing i result with
  | nil => simp [read_dn_rdns, read_dn_values]
  | cons rdn rest ih =>
    have hr := hne rdn (by simp)
    obtain ⟨atv, t, rfl⟩ := List.exists_cons_of_ne_nil hr
    simp only [read_dn_rdns]
    rw [read_dn_values_first lib i atv t result (hok _ (by simp))]
    simp only [Bool.false_eq_true, if_false, if_pos hi]
    rw [ih (i + 1) _ (by omega) (fun r hr => hne r (by simp [hr]))
      (fun r hr => hok r (by simp [hr]))]
    simp

theorem read_dn_rdns_first (lib : Tasn1) (rdn : List (List Nat × List Nat)) (rest : Name)
    (hne : ∀ r ∈ rdn :: rest, r ≠ [])
    (hok : ∀ r ∈ rdn :: rest, ∀ atv ∈ r, atv.1 ≠ [] ∧ atv.2 ≠ []) :
    read_dn_rdns lib true 1 (rdn :: rest) [] =
      spec_join [44, 32] ((rdn :: rest).map (fun r => spec_join [43] (r.map (pair_text lib)))) := by
  have hr := hne rdn (by simp)
  obtain ⟨atv, t, rfl⟩ := List.exists_cons_of_ne_nil hr
  simp only [read_dn_rdns]
  rw [read_dn_values_first lib 1 atv t [] (hok _ (by simp))]
  simp only [Bool.false_eq_true, if_false]
  rw [read_dn_rdns_more lib 2 rest _ (by omega) (fun r hr => hne r (by simp [hr]))
    (fun r hr => hok r (by simp [hr]))]
  have hj : ∀ (x : List Nat) (l : Name),
      x ++ (l.map (fun r => [44, 32] ++ spec_join [43] (r.map (pair_text lib)))).flatten =
        spec_join [44, 32] (x :: l.map (fun r => spec_join [43] (r.map (pair_text lib)))) := by
    intro x l
    induction l generalizing x with
    | nil => simp [spec_join]
    | cons a t ih => simp [spec_join, ← ih]
  simp [← hj]

theorem spec_join_ne_nil (sep x : List Nat) (l : List (List Nat)) (hx : x ≠ []) :
    spec_join sep (x :: l) ≠ [] := by
  cases l with
  | nil => simpa [spec_join] using hx
  | cons y t => simp [spec_join, hx]

/-- C13: for every name given as a list, not empty, of members that are not
empty, `egg_asn1_read_dn` returns the texts `label=value` of the pairs, those of
one member joined with `+` and the members joined with `, `, in the order of
the list; each text is the label of the OID, `=` and the value as
`dn_print_oid_value` prints it. With values that are DER strings,
(2.5.4.3, "Test") and (2.5.4.6, "US") in two members give "CN=Test, C=US", and
(2.5.4.3, "A") and (2.5.4.11, "B") in one member give "CN=A+OU=B". -/
theorem read_dn_joins_pairs :
    (∀ (lib : Tasn1) (inited : Bool) (asn : Name), asn ≠ [] → (∀ rdn ∈ asn, rdn ≠ []) →
      (∀ rdn ∈ asn, ∀ atv ∈ rdn, atv.1 ≠ [] ∧ atv.2 ≠ []) →
      egg_asn1_read_dn lib inited asn =
        some (spec_join [44, 32]
          (asn.map (fun rdn => spec_join [43] (rdn.map (pair_text lib))))) ∧
      ∀ rdn ∈ asn, ∀ atv ∈ rdn, ∃ display,
        dn_print_oid_value lib (spec_table_row (c_str atv.1)) atv.2 = some display ∧
        pair_text lib atv = spec_label (c_str atv.1) ++ [61] ++ display) ∧
    egg_asn1_read_dn string_tasn1 false
        [[(cstr "2.5.4.3", der_string 0x13 (cstr "Test"))],
         [(cstr "2.5.4.6", der_string 0x13 (cstr "US"))]] = some (cstr "CN=Test, C=US") ∧
    egg_asn1_read_dn string_tasn1 false
        [[(cstr "2.5.4.3", der_string 0x13 (cstr "A")),
          (cstr "2.5.4.11", der_string 0x13 (cstr "B"))]] = some (cstr "CN=A+OU=B") := by
  refine ⟨fun lib inited asn ha hne hok => ⟨?_, fun rdn hr atv hat => ?_⟩, by decide, by decide⟩
  · obtain ⟨rdn, rest, rfl⟩ := List.exists_cons_of_ne_nil ha
    obtain ⟨atv, t, rfl⟩ := List.exists_cons_of_ne_nil (hne rdn (by simp))
    have h1 := hok (atv :: t) (by simp) atv (by simp)
    unfold egg_asn1_read_dn
    simp only [init_printable_oids]
    rw [read_dn_rdns_first lib (atv :: t) rest hne hok]
    have hne2 : spec_join [44, 32]
        (((atv :: t) :: rest).map (fun r => spec_join [43] (r.map (pair_text lib)))) ≠ [] := by
      simp only [List.map_cons]
      exact spec_join_ne_nil _ _ _ (spec_join_ne_nil _ _ _ (pair_text_eq lib atv h1.1 h1.2).2)
    rw [if_neg (fun h => hne2 (List.length_eq_zero.mp h))]
  · have h := hok rdn hr atv hat
    obtain ⟨display, hd, hp⟩ := dn_parse_rdn_some lib atv h.1 h.2
    exact ⟨display, hd, by simp [pair_text, hp]⟩

/-- Witness for `read_dn_joins_pairs`: a name of two members with three pairs. -/
theorem read_dn_joins_pairs_witness :
    egg_asn1_read_dn string_tasn1 false
        [[(cstr "2.5.4.3", der_string 0x0C (cstr "A")),
          (cstr "2.5.4.11", der_string 0x13 (cstr "B"))],
         [(cstr "1.2.3", [5, 0])]] = some (cstr "CN=A+OU=B, 1.2.3=#0500") :=
  ((read_dn_joins_pairs.1 string_tasn1 false
      [[(cstr "2.5.4.3", der_string 0x0C (cstr "A")),
        (cstr "2.5.4.11", der_string 0x13 (cstr "B"))],
       [(cstr "1.2.3", [5, 0])]] (by decide) (by decide) (by decide)).1).trans (by decide)

theorem read_dn_values_length_le (lib : Tasn1) (inited : Bool) (i j : Nat)
    (rest : List (List Nat × List Nat)) (result : List Nat) :
    result.length ≤ (read_dn_values lib inited i j rest result).1.length := by
  induction rest generalizing j result with
  | nil => simp [read_dn_values]
  | cons atv t ih =>
    simp only [read_dn_values]
    cases h : dn_parse_rdn lib inited (some atv.1) (some atv.2) with
    | none => simp
    | some rdn =>
      simp only
      refine le_trans ?_ (ih _ _)
      split_ifs <;> simp

theorem read_dn_values_first_pos (lib : Tasn1) (i : Nat) (atv : List Nat × List Nat)
    (t : List (List Nat × List Nat)) (result : List Nat) (h1 : atv.1 ≠ []) (h2 : atv.2 ≠ []) :
    0 < (read_dn_values lib true i 1 (atv :: t) result).1.length := by
  have hp := pair_text_eq lib atv h1 h2
  have h0 : 0 < (pair_text lib atv).length := List.length_pos.mpr hp.2
  simp only [read_dn_values, hp.1]
  refine lt_of_lt_of_le ?_ (read_dn_values_length_le _ _ _ _ _ _)
  simp only [List.length_append]
  omega

theorem read_dn_rdns_length_le (lib : Tasn1) (inited : Bool) (i : Nat) (asn : Name)
    (result : List Nat) :
    result.length ≤ (read_dn_rdns lib inited i asn result).length := by
  induction asn generalizing i result with
  | nil => simp [read_dn_rdns, read_dn_values]
  | cons rdn rest ih =>
    simp only [read_dn_rdns]
    split_ifs
    · exact read_dn_values_length_le _ _ _ _ _ _
    · exact le_trans (read_dn_values_length_le lib inited i 1 rdn result) (ih _ _)

/-- C14 (as stated, refuted): a name whose first member has no pair and whose
second member has one pair has a member and a pair, and `egg_asn1_read_dn`
returns NULL for it; so it does for the name that has one member without
pairs. -/
theorem read_dn_null_with_empty_first_member :
    egg_asn1_read_dn string_tasn1 false
      [[], [(cstr "2.5.4.3", der_string 0x13 (cstr "A"))]] = none ∧
    egg_asn1_read_dn string_tasn1 false [[]] = none := by
  refine ⟨by decide, by decide⟩

/-- C14 (amended): `egg_asn1_read_dn` returns NULL exactly when the name has no
pair at the position (1, 1), that is when it has no member or its first member
has no pair; for every name whose first member has a pair it returns a string
that is not empty. -/
theorem read_dn_null_iff (lib : Tasn1) (inited : Bool) (asn : Name)
    (hok : ∀ rdn ∈ asn, ∀ atv ∈ rdn, atv.1 ≠ [] ∧ atv.2 ≠ []) :
    (egg_asn1_read_dn lib inited asn = none ↔ (asn = [] ∨ asn.head? = some [])) ∧
    (∀ s, egg_asn1_read_dn lib inited asn = some s → s ≠ []) := by
  constructor
  · unfold egg_asn1_read_dn
    simp only [init_printable_oids]
    match asn, hok with
    | [], _ => simp [read_dn_rdns, read_dn_values]
    | [] :: rest, _ => simp [read_dn_rdns, read_dn_values]
    | (atv :: t) :: rest, hok =>
      have h1 := hok (atv :: t) (by simp) atv (by simp)
      have hlen : 0 < (read_dn_rdns lib true 1 ((atv :: t) :: rest) []).length := by
        have hf := read_dn_values_first_pos lib 1 atv t [] h1.1 h1.2
        simp only [read_dn_rdns]
        split_ifs
        · exact hf
        · exact lt_of_lt_of_le hf (read_dn_rdns_length_le _ _ _ _ _)
      rw [if_neg (by omega)]
      simp
  · intro s hs
    unfold egg_asn1_read_dn at hs
    simp only at hs
    split_ifs at hs with h
    simp only [Option.some.injEq] at hs
    rw [← hs]
    intro h0
    exact h (by rw [h0]; rfl)

/-- Witness for `read_dn_null_iff`: the name of one pair (2.5.4.6, "US"). -/
theorem read_dn_null_iff_witness :
    egg_asn1_read_dn string_tasn1 false [[(cstr "2.5.4.6", der_string 0x13 (cstr "US"))]] ≠
      none :=
  fun h => absurd (((read_dn_null_iff string_tasn1 false
    [[(cstr "2.5.4.6", der_string 0x13 (cstr "US"))]] (by decide)).1).1 h) (by decide)

theorem c_str_of_no_nul (text : List Nat) (h : 0 ∉ text) : c_str text = text := by
  unfold c_str
  rw [List.takeWhile_eq_self_iff]
  intro x hx
  have : x ≠ 0 := fun e => h (e ▸ hx)
  simpa using this

theorem dn_print_checked_invalid (text : List Nat) (h0 : 0 ∉ text)
    (hv : g_utf8_validate text = false) :
    dn_print_checked (some text) = some (dn_print_hex_value text) := by
  simp [dn_print_checked, c_str_of_no_nul text h0, hv]

theorem dn_print_oid_value_of_parsed (lib : Tasn1) (row : PrintableOid) (data v : List Nat)
    (hd : data ≠ []) (hp : dn_print_oid_value_parsed lib row data = some v) :
    dn_print_oid_value lib (some row) data = some v := by
  unfold dn_print_oid_value
  rw [if_neg (fun h => hd (List.length_eq_zero.mp h))]
  simp only [hp]

/-- C16 (as stated, refuted): for the OID 2.5.4.3 of the table, the value
14 01 E9, a TeletexString whose text E9 is not valid UTF-8, is printed as "#E9",
the text, and not as "#1401E9", every byte of the value; and the value
14 03 C3 00 28, whose text C3 00 28 is not valid UTF-8, is printed as "#C3", with
the bytes from the NUL on dropped. -/
theorem invalid_utf8_text_not_all_bytes :
    g_utf8_validate [0xE9] = false ∧
    egg_asn1_dn_print_value string_tasn1 true (some (cstr "2.5.4.3")) [0x14, 1, 0xE9] =
      some (cstr "#E9") ∧
    35 :: spec_hex_upper [0x14, 1, 0xE9] = cstr "#1401E9" ∧
    g_utf8_validate [0xC3, 0, 0x28] = false ∧
    egg_asn1_dn_print_value string_tasn1 true (some (cstr "2.5.4.3")) [0x14, 3, 0xC3, 0, 0x28] =
      some (cstr "#C3") ∧
    35 :: spec_hex_upper [0xC3, 0, 0x28] = cstr "#C30028" ∧
    35 :: spec_hex_upper [0x14, 3, 0xC3, 0, 0x28] = cstr "#1403C30028" := by
  refine ⟨by decide, by decide, by decide, by decide, by decide, by decide, by decide⟩

/-- C16 (amended): for an OID found in the table, when the value is decoded to a
text (the content of the root leaf, or of the alternative chosen for a CHOICE)
that has no NUL byte and is not valid UTF-8, the value is printed as `#`
followed by the upper case hexadecimal encoding of every byte of that text, two
digits for each; when the value gives no text at all it is printed as `#`
followed by the encoding of every byte of the value, so that the bytes C3 28,
which are no DER element, are printed as "#C328". -/
theorem invalid_utf8_prints_hex (lib : Tasn1) (inited : Bool) (oid : GQuark)
    (row : PrintableOid) (hrow : dn_find_printable inited oid = some row) :
    (∀ (data name text : List Nat) (asn1 : ASN1_TYPE), data ≠ [] →
      lib.asn1_find_structure_from_oid row.oidstr = some name →
      egg_asn1_decode lib (cstr "PKIX1." ++ name) data = some asn1 →
      ((row.is_choice = false ∧ egg_asn1_read_value (asn1 []) = some text) ∨
        (row.is_choice = true ∧ ∃ arm, egg_asn1_read_value (asn1 []) = some arm ∧
          (c_str arm = cstr "printableString" ∨ c_str arm = cstr "ia5String" ∨
            c_str arm = cstr "utf8String" ∨ c_str arm = cstr "teletexString") ∧
          egg_asn1_read_value (asn1 (c_str arm)) = some text)) →
      0 ∉ text → (∀ b ∈ text, b < 256) → g_utf8_validate text = false →
      egg_asn1_dn_print_value lib inited oid data = some (35 :: spec_hex_upper text)) ∧
    (∀ data : List Nat, data ≠ [] → (∀ b ∈ data, b < 256) →
      dn_print_oid_value_parsed lib row data = none →
      egg_asn1_dn_print_value lib inited oid data = some (35 :: spec_hex_upper data)) ∧
    (dn_print_oid_value_parsed lib row [0xC3, 0x28] = none →
      egg_asn1_dn_print_value lib inited oid [0xC3, 0x28] = some (cstr "#C328")) := by
  have hoid : ∃ s, oid = some s := by
    cases oid with
    | none => simp [dn_find_printable] at hrow
    | some s => exact ⟨s, rfl⟩
  obtain ⟨s, rfl⟩ := hoid
  have hnone : ∀ data : List Nat, data ≠ [] → (∀ b ∈ data, b < 256) →
      dn_print_oid_value_parsed lib row data = none →
      egg_asn1_dn_print_value lib inited (some s) data = some (35 :: spec_hex_upper data) := by
    intro data hd hb hp
    unfold egg_asn1_dn_print_value
    simp only [hrow]
    rw [dn_print_oid_value_parsed_none lib (some row) data hd
      (fun r hr => by cases hr; exact hp), dn_print_hex_value_eq data hb]
  refine ⟨fun data name text asn1 hd hn hdec hread h0 hb hv => ?_, hnone, fun hp => ?_⟩
  · unfold egg_asn1_dn_print_value
    simp only [hrow]
    apply dn_print_oid_value_of_parsed lib row data _ hd
    unfold dn_print_oid_value_parsed
    simp only [hn, hdec]
    rcases hread with ⟨hc, hr⟩ | ⟨hc, arm, hr, harm, ht⟩
    · simp only [hr, hc, Bool.false_eq_true, if_false]
      rw [dn_print_checked_invalid text h0 hv, dn_print_hex_value_eq text hb]
    · simp only [hr, hc, if_true, harm, ht]
      rw [dn_print_checked_invalid text h0 hv, dn_print_hex_value_eq text hb]
  · rw [hnone [0xC3, 0x28] (by decide) (by decide) hp]
    decide

/-- Witness for `invalid_utf8_prints_hex`: under 2.5.4.3 the TeletexString
14 02 C3 28 is printed as "#C328", and so are the bytes C3 28 themselves. -/
theorem invalid_utf8_prints_hex_witness :
    egg_asn1_dn_print_value string_tasn1 true (some (cstr "2.5.4.3")) [0x14, 2, 0xC3, 0x28] =
      some (cstr "#C328") ∧
    egg_asn1_dn_print_value string_tasn1 true (some (cstr "2.5.4.3")) [0xC3, 0x28] =
      some (cstr "#C328") :=
  have h := invalid_utf8_prints_hex string_tasn1 true (some (cstr "2.5.4.3"))
    ⟨cstr "2.5.4.3", some (cstr "CN"), some (cstr "Common Name"), true⟩ (by decide)
  ⟨(h.1 [0x14, 2, 0xC3, 0x28] (cstr "DirectoryString") [0xC3, 0x28]
      (fun path => if path = [] then some (cstr "teletexString")
        else if path = cstr "teletexString" then some [0xC3, 0x28] else none)
      (by decide) (by decide) (by rfl)
      (Or.inr ⟨rfl, cstr "teletexString", by decide, by decide, by decide⟩)
      (by decide) (by decide) (by decide)).trans (by decide),
   h.2.2 (by decide)⟩

/-- C17 (as stated, refuted): for the OID 2.5.4.3 of the table, the bytes of
"hello" cannot be decoded as the type of the OID and are valid UTF-8, and the
value is printed as "#68656C6C6F", not as "hello". -/
theorem undecodable_utf8_value_prints_hex :
    dn_find_printable true (some (cstr "2.5.4.3")) =
      some ⟨cstr "2.5.4.3", some (cstr "CN"), some (cstr "Common Name"), true⟩ ∧
    egg_asn1_decode string_tasn1 (cstr "PKIX1.DirectoryString") (cstr "hello") = none ∧
    g_utf8_validate (cstr "hello") = true ∧
    egg_asn1_dn_print_value string_tasn1 true (some (cstr "2.5.4.3")) (cstr "hello") =
      some (cstr "#68656C6C6F") ∧
    egg_asn1_dn_print_value string_tasn1 true (some (cstr "2.5.4.3")) (cstr "hello") ≠
      some (cstr "hello") := by
  refine ⟨by decide, ?_, by decide, by decide, by decide⟩
  simp [egg_asn1_decode, string_tasn1, der_string_decoding, cstr, der_string_choice]

/-- C17 (amended): for an OID found in the table whose value cannot be decoded as
its schema type, the value is printed as `#` followed by the upper case
hexadecimal encoding of every byte of the value, whether the bytes are valid
UTF-8 or not. -/
theorem undecodable_value_prints_hex (lib : Tasn1) (inited : Bool) (oid : GQuark)
    (row : PrintableOid) (data : List Nat) (hrow : dn_find_printable inited oid = some row)
    (hd : data ≠ []) (hb : ∀ b ∈ data, b < 256)
    (hdec : ∀ name, lib.asn1_find_structure_from_oid row.oidstr = some name →
      egg_asn1_decode lib (cstr "PKIX1." ++ name) data = none) :
    egg_asn1_dn_print_value lib inited oid data = some (35 :: spec_hex_upper data) := by
  have hp : dn_print_oid_value_parsed lib row data = none := by
    unfold dn_print_oid_value_parsed
    cases hn : lib.asn1_find_structure_from_oid row.oidstr with
    | none => rfl
    | some name => simp only [hdec name hn]
  cases oid with
  | none => simp [dn_find_printable] at hrow
  | some s =>
    unfold egg_asn1_dn_print_value
    simp only [hrow]
    rw [dn_print_oid_value_parsed_none lib (some row) data hd
      (fun r hr => by cases hr; exact hp), dn_print_hex_value_eq data hb]

/-- Witness for `undecodable_value_prints_hex`: "hello" under 2.5.4.3. -/
theorem undecodable_value_prints_hex_witness :
    egg_asn1_dn_print_value string_tasn1 true (some (cstr "2.5.4.3")) (cstr "hello") =
      some (cstr "#68656C6C6F") :=
  (undecodable_value_prints_hex string_tasn1 true (some (cstr "2.5.4.3"))
    ⟨cstr "2.5.4.3", some (cstr "CN"), some (cstr "Common Name"), true⟩ (cstr "hello")
    (by decide) (by decide) (by decide)
    (fun name hn => by
      have : name = cstr "DirectoryString" := by
        have h2 : string_tasn1.asn1_find_structure_from_oid (cstr "2.5.4.3") =
            some (cstr "DirectoryString") := by decide
        rw [h2] at hn
        exact (Option.some.inj hn).symm
      subst this
      simp [egg_asn1_decode, string_tasn1, der_string_decoding, cstr, der_string_choice])).trans
    (by decide)

theorem visited_pairs_cons (rdn : List (List Nat × List Nat)) (rest : Name) :
    visited_pairs (rdn :: rest) = if rdn = [] then [] else rdn ++ visited_pairs rest := by
  unfold visited_pairs
  cases rdn with
  | nil => simp [List.takeWhile]
  | cons a t => simp [List.takeWhile]

theorem read_dn_part_values_find (lib : Tasn1) (match_ : List Nat) (j : Nat)
    (rest : List (List Nat × List Nat)) (printable : Option PrintableOid)
    (hok : ∀ atv ∈ rest, atv.1 ≠ [] ∧ atv.2 ≠ []) :
    (∀ atv, rest.find? (spec_pair_matches match_) = some atv →
      ∃ p, read_dn_part_values lib true match_ j rest printable =
        PartLoop.returned (dn_print_oid_value lib p atv.2)) ∧
    (rest.find? (spec_pair_matches match_) = none →
      ∃ p, read_dn_part_values lib true match_ j rest printable =
        PartLoop.left (j + rest.length == 1) p) := by
  induction rest generalizing j printable with
  | nil => simp [read_dn_part_values]
  | cons a t ih =>
    have ha := hok a (by simp)
    have iht := fun j p => ih j p (fun x hx => hok x (by simp [hx]))
    simp only [read_dn_part_values, egg_asn1_read_oid_some a.1 ha.1,
      egg_asn1_read_value_some a.2 ha.2, dn_find_printable_inited, List.find?_cons]
    by_cases hc : g_ascii_strcasecmp (c_str a.1) match_ = 0
    · have hm : spec_pair_matches match_ a = true := by simp [spec_pair_matches, hc]
      simp only [hm, hc, ne_eq, not_true_eq_false, if_false]
      exact ⟨fun atv h => ⟨printable, by cases h; rfl⟩, fun h => by cases h⟩
    · simp only [hc, ne_eq, not_false_eq_true, if_true]
      cases hr : spec_table_row (c_str a.1) with
      | none =>
        have hm : spec_pair_matches match_ a = false := by simp [spec_pair_matches, hc, hr]
        simp only [hm, if_true]
        have := iht (j + 1) none
        refine ⟨this.1, fun h => ?_⟩
        obtain ⟨p, hp⟩ := this.2 h
        exact ⟨p, by rw [hp]; simp [Nat.add_assoc, Nat.add_comm 1]⟩
      | some row =>
        cases hat : row.attr with
        | none =>
          have hm : spec_pair_matches match_ a = false := by
            simp [spec_pair_matches, hc, hr, hat]
          simp only [hm, hat, if_true]
          have := iht (j + 1) (some row)
          refine ⟨this.1, fun h => ?_⟩
          obtain ⟨p, hp⟩ := this.2 h
          exact ⟨p, by rw [hp]; simp [Nat.add_assoc, Nat.add_comm 1]⟩
        | some attr =>
          by_cases hcm : g_ascii_strcasecmp attr match_ = 0
          · have hm : spec_pair_matches match_ a = true := by
              simp [spec_pair_matches, hc, hr, hat, hcm]
            simp only [hm, hat, hcm, if_true]
            refine ⟨fun atv h => ⟨some row, ?_⟩, fun h => by cases h⟩
            cases h
            simp
          · have hm : spec_pair_matches match_ a = false := by
              simp [spec_pair_matches, hc, hr, hat, hcm]
            simp only [hm, hat, hcm, if_false]
            have := iht (j + 1) (some row)
            refine ⟨fun atv h => ?_, fun h => ?_⟩
            · obtain ⟨p, hp⟩ := this.1 atv (by simpa using h)
              exact ⟨p, by simpa using hp⟩
            · obtain ⟨p, hp⟩ := this.2 (by simpa using h)
              exact ⟨p, by simp [hp, Nat.add_assoc, Nat.add_comm 1]⟩


theorem read_dn_part_rdns_find (lib : Tasn1) (match_ : List Nat) (i : Nat) (asn : Name)
    (printable : Option PrintableOid)
    (hok : ∀ rdn ∈ asn, ∀ atv ∈ rdn, atv.1 ≠ [] ∧ atv.2 ≠ []) :
    (∀ atv, (visited_pairs asn).find? (spec_pair_matches match_) = some atv →
      ∃ p, read_dn_part_rdns lib true match_ i asn printable =
        dn_print_oid_value lib p atv.2) ∧
    ((visited_pairs asn).find? (spec_pair_matches match_) = none →
      read_dn_part_rdns lib true match_ i asn printable = none) := by
  induction asn generalizing i printable with
  | nil => simp [read_dn_part_rdns, visited_pairs]
  | cons rdn rest ih =>
    have ihr := fun i p => ih i p (fun r hr => hok r (by simp [hr]))
    have hin := read_dn_part_values_find lib match_ 1 rdn printable (hok rdn (by simp))
    rw [visited_pairs_cons]
    by_cases hr : rdn = []
    · subst hr
      simp [read_dn_part_rdns, read_dn_part_values]
    · rw [if_neg hr, List.find?_append]
      simp only [read_dn_part_rdns]
      cases hf : rdn.find? (spec_pair_matches match_) with
      | some a =>
        obtain ⟨p, hp⟩ := hin.1 a hf
        simp only [Option.or_some, hp]
        exact ⟨fun atv h => ⟨p, by cases h; rfl⟩, fun h => by cases h⟩
      | none =>
        obtain ⟨p, hp⟩ := hin.2 hf
        have hlen : (1 + rdn.length == 1) = false := by
          have h0 : 0 < rdn.length := List.length_pos.mpr hr
          have h1 : 1 + rdn.length ≠ 1 := by omega
          simpa using h1
        simp only [Option.none_or, hp, hlen, Bool.false_eq_true, if_false]
        exact ihr (i + 1) p

/-- C19 (as stated, refuted): in the name whose first member has no pair and
whose second member holds (2.5.4.6, "US"), that pair matches "C" and "2.5.4.6",
and `egg_asn1_read_dn_part` returns NULL for both. -/
theorem read_dn_part_null_behind_empty_member :
    spec_pair_matches (cstr "C") (cstr "2.5.4.6", der_string 0x13 (cstr "US")) = true ∧
    egg_asn1_read_dn_part string_tasn1 false
      [[], [(cstr "2.5.4.6", der_string 0x13 (cstr "US"))]] (cstr "C") = none ∧
    egg_asn1_read_dn_part string_tasn1 false
      [[], [(cstr "2.5.4.6", der_string 0x13 (cstr "US"))]] (cstr "2.5.4.6") = none := by
  refine ⟨by decide, by decide, by decide⟩

/-- C19 (amended): among the pairs of the members in front of the first member
without a pair, taken in document order, `egg_asn1_read_dn_part` returns a
value for the first pair whose OID string or whose short name in the table
equals `match` ignoring the case of ASCII letters, namely the bytes of the value
of that pair as `dn_print_oid_value` prints them; it returns NULL exactly when
none of those pairs matches. -/
theorem read_dn_part_first_match (lib : Tasn1) (inited : Bool) (asn : Name)
    (match_ : List Nat) (hok : ∀ rdn ∈ asn, ∀ atv ∈ rdn, atv.1 ≠ [] ∧ atv.2 ≠ []) :
    (∀ atv, (visited_pairs asn).find? (spec_pair_matches match_) = some atv →
      ∃ p value, dn_print_oid_value lib p atv.2 = some value ∧
        egg_asn1_read_dn_part lib inited asn match_ = some value) ∧
    (egg_asn1_read_dn_part lib inited asn match_ = none ↔
      ∀ atv ∈ visited_pairs asn, spec_pair_matches match_ atv = false) := by
  have h := read_dn_part_rdns_find lib match_ 1 asn none hok
  have hsome : ∀ atv, (visited_pairs asn).find? (spec_pair_matches match_) = some atv →
      ∃ p value, dn_print_oid_value lib p atv.2 = some value ∧
        egg_asn1_read_dn_part lib inited asn match_ = some value := by
    intro atv hf
    obtain ⟨p, hp⟩ := h.1 atv hf
    have hmem : atv ∈ visited_pairs asn := List.mem_of_find?_eq_some hf
    have hv : atv.2 ≠ [] := by
      unfold visited_pairs at hmem
      obtain ⟨rdn, hr, ha⟩ := List.mem_flatten.mp hmem
      exact (hok rdn (List.takeWhile_subset _ hr) atv ha).2
    obtain ⟨value, hval⟩ := dn_print_oid_value_some lib p atv.2 hv
    exact ⟨p, value, hval, by
      unfold egg_asn1_read_dn_part
      simp only [init_printable_oids]
      rw [hp, hval]⟩
  refine ⟨hsome, ?_⟩
  constructor
  · intro hnone
    cases hf : (visited_pairs asn).find? (spec_pair_matches match_) with
    | some atv =>
      obtain ⟨p, value, _, hv⟩ := hsome atv hf
      rw [hnone] at hv
      cases hv
    | none =>
      intro atv ha
      have := List.find?_eq_none.mp hf atv ha
      simpa using this
  · intro hall
    have hf : (visited_pairs asn).find? (spec_pair_matches match_) = none := by
      rw [List.find?_eq_none]
      intro atv ha
      simp [hall atv ha]
    unfold egg_asn1_read_dn_part
    simp only [init_printable_oids]
    exact h.2 hf

/-- Witness for `read_dn_part_first_match`: "cn" finds the first of two pairs. -/
theorem read_dn_part_first_match_witness :
    egg_asn1_read_dn_part string_tasn1 false
        [[(cstr "2.5.4.3", der_string 0x13 (cstr "Test"))],
         [(cstr "2.5.4.6", der_string 0x13 (cstr "US"))]] (cstr "cn") = some (cstr "Test") ∧
    egg_asn1_read_dn_part string_tasn1 false
        [[(cstr "2.5.4.3", der_string 0x13 (cstr "Test"))],
         [(cstr "2.5.4.6", der_string 0x13 (cstr "US"))]] (cstr "O") = none :=
  have h := read_dn_part_first_match string_tasn1 false
    [[(cstr "2.5.4.3", der_string 0x13 (cstr "Test"))],
     [(cstr "2.5.4.6", der_string 0x13 (cstr "US"))]]
  ⟨by decide, ((h (cstr "O") (by decide)).2).2 (by decide)⟩


/-! ### The sliding window -/

/-- C30 (counterexample): with the current year 1950 the claim lets the two
digit year 11 move from 1911 to 2011 when the year becomes 1951, but the clock
is before the epoch in both years and the code answers -1 both times. -/
theorem year_window_before_epoch_does_not_slide :
    (1950 + 61) % 100 = 11 ∧
    two_to_four_digit_year ⟨-600000000, some 50⟩ 11 = -1 ∧
    two_to_four_digit_year ⟨-580000000, some 51⟩ 11 = -1 := by decide

/-- C30 (amended): for a current year Y = 1900 + t from 1970 on, read from a
clock at or after the epoch, moving to the year Y + 1 changes the resolution of
the two digit year (Y + 61) mod 100 from Y - 39 to Y + 61 and of no other two
digit year. -/
theorem year_window_slides_by_one (clk clk2 : Clock) (t yy : Int)
    (hnow : clk.now ≥ 0) (hnow2 : clk2.now ≥ 0)
    (ht : clk.tm_year = some t) (ht2 : clk2.tm_year = some (t + 1))
    (hY : 1970 ≤ t + 1900) (hyy : 0 ≤ yy ∧ yy ≤ 99) :
    (yy = (t + 1900 + 61) % 100 →
      two_to_four_digit_year clk yy = t + 1900 - 39 ∧
      two_to_four_digit_year clk2 yy = t + 1900 + 61) ∧
    (yy ≠ (t + 1900 + 61) % 100 →
      two_to_four_digit_year clk yy = two_to_four_digit_year clk2 yy) := by
  have h1 := two_to_four_digit_year_window clk t yy hnow ht (by omega) hyy.1 hyy.2
  have h2 := two_to_four_digit_year_window clk2 (t + 1) yy hnow2 ht2 (by omega) hyy.1 hyy.2
  constructor
  · intro h
    omega
  · intro h
    omega

/-- C30 (witness): from 2026 to 2027 the two digit year 87 moves from 1987 to
2087. -/
theorem year_window_slides_by_one_witness :
    (87 = ((126 : Int) + 1900 + 61) % 100 →
      two_to_four_digit_year ⟨1793000000, some 126⟩ 87 = 126 + 1900 - 39 ∧
      two_to_four_digit_year ⟨1825000000, some 127⟩ 87 = 126 + 1900 + 61) ∧
    ((87 : Int) ≠ (126 + 1900 + 61) % 100 →
      two_to_four_digit_year ⟨1793000000, some 126⟩ 87 =
        two_to_four_digit_year ⟨1825000000, some 127⟩ 87) :=
  year_window_slides_by_one ⟨1793000000, some 126⟩ ⟨1825000000, some 127⟩ 126 87
    (by decide) (by decide) rfl rfl (by decide) (by decide)

/-! ### Strings without a year -/

/-- C27: `parse_general_time` accepts "12.1234Z", whose digit run has two
digits: the year stays 1900 and the two digits are read as the month; and
`parse_utc_time` accepts ".1234Z", which has no digit at all in front. -/
theorem time_without_year_accepted :
    digit_run (cstr "12.1234Z") = 2 ∧
    (parse_general_time (cstr "12.1234Z")).ret = 1 ∧
    (parse_general_time (cstr "12.1234Z")).when = tm_of 0 11 1 0 0 0 ∧
    digit_run (cstr ".1234Z") = 0 ∧
    (parse_utc_time ⟨1793000000, some 126⟩ (cstr ".1234Z")).ret = 1 ∧
    (parse_utc_time ⟨1793000000, some 126⟩ (cstr ".1234Z")).when = tm_of 0 0 1 0 0 0 := by
  decide

/-! ### A part looked up by its OID -/

/-- C26: for the name CN=Test the part looked up by the dotted OID 2.5.4.3 is
the hexadecimal form of the raw value, while the part looked up by the short
name CN is "Test", the text that `egg_asn1_read_dn` shows after the equals
sign. -/
theorem read_dn_part_by_oid_differs :
    egg_asn1_read_dn_part string_tasn1 false
      [[(cstr "2.5.4.3", der_string 0x13 (cstr "Test"))]] (cstr "2.5.4.3")
      = some (cstr "#130454657374") ∧
    egg_asn1_read_dn_part string_tasn1 false
      [[(cstr "2.5.4.3", der_string 0x13 (cstr "Test"))]] (cstr "CN")
      = some (cstr "Test") ∧
    egg_asn1_read_dn string_tasn1 false
      [[(cstr "2.5.4.3", der_string 0x13 (cstr "Test"))]] = some (cstr "CN=Test") := by
  decide

/-! ### The members that are read -/

theorem visited_members_cons (rdn : List (List Nat × List Nat)) (rest : Name) :
    visited_members (rdn :: rest) = if rdn = [] then [] else rdn :: visited_members rest := by
  unfold visited_members
  cases rdn with
  | nil => simp [List.takeWhile]
  | cons a t => simp [List.takeWhile]

theorem visited_members_ne_nil (asn : Name) : ∀ rdn ∈ visited_members asn, rdn ≠ [] := by
  intro rdn hr
  have h := List.mem_takeWhile_imp hr
  intro e
  simp [e] at h

theorem visited_members_subset (asn : Name) : ∀ rdn ∈ visited_members asn, rdn ∈ asn :=
  fun _ hr => List.takeWhile_subset _ hr

theorem visited_members_append (pre post : Name) (hpre : ∀ rdn ∈ pre, rdn ≠ []) :
    visited_members (pre ++ [] :: post) = pre := by
  induction pre with
  | nil => simp [visited_members]
  | cons rdn rest ih =>
    have h := hpre rdn (by simp)
    rw [List.cons_append, visited_members_cons, if_neg h,
      ih (fun r hr => hpre r (by simp [hr]))]

theorem read_dn_rdns_visited (lib : Tasn1) (inited : Bool) (i : Nat) (asn : Name)
    (result : List Nat) :
    read_dn_rdns lib inited i asn result =
      read_dn_rdns lib inited i (visited_members asn) result := by
  induction asn generalizing i result with
  | nil => rfl
  | cons rdn rest ih =>
    rw [visited_members_cons]
    by_cases hr : rdn = []
    · subst hr
      simp [read_dn_rdns, read_dn_values]
    · rw [if_neg hr]
      simp only [read_dn_rdns]
      rw [ih]

theorem read_dn_visited (lib : Tasn1) (inited : Bool) (asn : Name)
    (hok : ∀ rdn ∈ asn, ∀ atv ∈ rdn, atv.1 ≠ [] ∧ atv.2 ≠ []) :
    egg_asn1_read_dn lib inited asn =
      if visited_members asn = [] then none
      else some (spec_join [44, 32]
        ((visited_members asn).map (fun rdn => spec_join [43] (rdn.map (pair_text lib))))) := by
  unfold egg_asn1_read_dn
  simp only [init_printable_oids]
  rw [read_dn_rdns_visited]
  have hne := visited_members_ne_nil asn
  have hok2 : ∀ rdn ∈ visited_members asn, ∀ atv ∈ rdn, atv.1 ≠ [] ∧ atv.2 ≠ [] :=
    fun rdn hr => hok rdn (visited_members_subset asn rdn hr)
  generalize visited_members asn = pre at hne hok2
  cases pre with
  | nil => simp [read_dn_rdns, read_dn_values]
  | cons rdn rest =>
    rw [read_dn_rdns_first lib rdn rest hne hok2]
    obtain ⟨atv, t, rfl⟩ := List.exists_cons_of_ne_nil (hne rdn (by simp))
    have h1 := hok2 (atv :: t) (by simp) atv (by simp)
    have hp := (pair_text_eq lib atv h1.1 h1.2).2
    have hx : spec_join [43] ((atv :: t).map (pair_text lib)) ≠ [] :=
      spec_join_ne_nil [43] (pair_text lib atv) (t.map (pair_text lib)) hp
    have hj := spec_join_ne_nil [44, 32] (spec_join [43] ((atv :: t).map (pair_text lib)))
      (rest.map (fun r => spec_join [43] (r.map (pair_text lib)))) hx
    have hl : ¬ (spec_join [44, 32] (spec_join [43] ((atv :: t).map (pair_text lib)) ::
        rest.map (fun r => spec_join [43] (r.map (pair_text lib))))).length = 0 :=
      fun h0 => hj (List.length_eq_zero.mp h0)
    rw [if_neg (List.cons_ne_nil _ _)]
    simp only [List.map_cons] at hl ⊢
    rw [if_neg hl]

/-- C28: `egg_asn1_read_dn` reads the members `?i` of the name from the first,
and in each the pairs `?j` from the first; a member without a first pair ends
the name, the end of the pairs of a member leads to the next member. So the
result is the text of the members in front of the first member without a pair,
the pairs of a member joined with `+` and the members with `, `, and NULL when
there is no such member; what follows a member without a pair is left out. -/
theorem read_dn_stops_at_empty_member (lib : Tasn1) (inited : Bool) (asn : Name)
    (hok : ∀ rdn ∈ asn, ∀ atv ∈ rdn, atv.1 ≠ [] ∧ atv.2 ≠ []) :
    egg_asn1_read_dn lib inited asn =
      (if visited_members asn = [] then none
       else some (spec_join [44, 32]
        ((visited_members asn).map (fun rdn => spec_join [43] (rdn.map (pair_text lib)))))) ∧
    egg_asn1_read_dn lib inited asn = egg_asn1_read_dn lib inited (visited_members asn) ∧
    (∀ pre post : Name, asn = pre ++ [] :: post → (∀ rdn ∈ pre, rdn ≠ []) →
      egg_asn1_read_dn lib inited asn = egg_asn1_read_dn lib inited pre) := by
  have h2 : egg_asn1_read_dn lib inited asn =
      egg_asn1_read_dn lib inited (visited_members asn) := by
    unfold egg_asn1_read_dn
    simp only [init_printable_oids]
    rw [read_dn_rdns_visited]
  refine ⟨read_dn_visited lib inited asn hok, h2, fun pre post he hpre => ?_⟩
  rw [h2, he, visited_members_append pre post hpre]

/-- Witness for `read_dn_stops_at_empty_member`: of the members CN=A+OU=B, a
member without a pair and C=US, the text is "CN=A+OU=B". -/
theorem read_dn_stops_at_empty_member_witness :
    egg_asn1_read_dn string_tasn1 false
        [[(cstr "2.5.4.3", der_string 0x13 (cstr "A")),
          (cstr "2.5.4.11", der_string 0x13 (cstr "B"))], [],
         [(cstr "2.5.4.6", der_string 0x13 (cstr "US"))]] = some (cstr "CN=A+OU=B") :=
  ((read_dn_stops_at_empty_member string_tasn1 false
      [[(cstr "2.5.4.3", der_string 0x13 (cstr "A")),
        (cstr "2.5.4.11", der_string 0x13 (cstr "B"))], [],
       [(cstr "2.5.4.6", der_string 0x13 (cstr "US"))]] (by decide)).1).trans (by decide)

theorem dn_parse_values_visits (callback : Bool) (i j : Nat)
    (rest : List (List Nat × List Nat)) (visits : List DnVisit)
    (hok : ∀ atv ∈ rest, atv.1 ≠ [] ∧ atv.2 ≠ []) :
    dn_parse_values callback i j rest visits =
      (if callback then
          visits ++ rest.map (fun atv => ⟨i, c_str atv.1, atv.2, atv.2.length⟩)
        else visits, j + rest.length == 1) := by
  induction rest generalizing j visits with
  | nil => cases callback <;> simp [dn_parse_values]
  | cons atv t ih =>
    have h := hok atv (by simp)
    simp only [dn_parse_values, egg_asn1_read_oid_some atv.1 h.1,
      egg_asn1_read_value_some atv.2 h.2]
    rw [ih (j + 1) _ (fun a ha => hok a (by simp [ha]))]
    have e : j + 1 + t.length = j + (atv :: t).length := by simp; omega
    rw [e]
    cases callback <;> simp

theorem dn_parse_rdns_visits (callback : Bool) (i : Nat) (asn : Name) (visits : List DnVisit)
    (hi : 1 ≤ i) (hok : ∀ rdn ∈ asn, ∀ atv ∈ rdn, atv.1 ≠ [] ∧ atv.2 ≠ []) :
    (dn_parse_rdns callback i asn visits).1 =
      if callback then visits ++ spec_visits i (visited_members asn) else visits := by
  induction asn generalizing i visits with
  | nil => cases callback <;> simp [dn_parse_rdns, dn_parse_values, visited_members, spec_visits]
  | cons rdn rest ih =>
    simp only [dn_parse_rdns]
    rw [dn_parse_values_visits callback i 1 rdn visits (hok rdn (by simp)), visited_members_cons]
    by_cases hr : rdn = []
    · subst hr
      cases callback <;> simp [spec_visits]
    · have hl : (1 + rdn.length == 1) = false := by
        have h0 : 0 < rdn.length := List.length_pos.mpr hr
        have h1 : 1 + rdn.length ≠ 1 := by omega
        simpa using h1
      simp only [hl, Bool.false_eq_true, if_false, if_neg hr]
      rw [ih (i + 1) _ (by omega) (fun r h => hok r (by simp [h]))]
      cases callback <;> simp [spec_visits]

/-- C21 (as stated, refuted): the name whose members are one without a pair and
one with the pair (2.5.4.3, "A") has a pair, and the callback is not called; of
the members CN=A, one without a pair and C=US the callback is called for the
first only, with the index 1, the OID 2.5.4.3, the three bytes of the value and
their number. -/
theorem dn_parse_skips_pairs_behind_empty_member :
    egg_asn1_dn_parse [[], [(cstr "2.5.4.3", der_string 0x13 (cstr "A"))]] true = ([], true) ∧
    egg_asn1_dn_parse [[(cstr "2.5.4.3", der_string 0x13 (cstr "A"))], [],
        [(cstr "2.5.4.6", der_string 0x13 (cstr "US"))]] true =
      ([⟨1, cstr "2.5.4.3", [0x13, 1, 65], 3⟩], true) := by
  decide

/-- C21 (amended): when a callback is given, `egg_asn1_dn_parse` calls it once for
each pair of the members in front of the first member without a pair, in
document order, with the index of the member counted from 1, the OID of the
pair, the bytes of its value and their number; these members are the ones whose
pairs `egg_asn1_read_dn` prints, in the same order. Without a callback nothing
is called. -/
theorem dn_parse_visits_pairs_of_read_dn (lib : Tasn1) (inited : Bool) (asn : Name)
    (hok : ∀ rdn ∈ asn, ∀ atv ∈ rdn, atv.1 ≠ [] ∧ atv.2 ≠ []) :
    (egg_asn1_dn_parse asn true).1 = spec_visits 1 (visited_members asn) ∧
    (egg_asn1_dn_parse asn false).1 = [] ∧
    egg_asn1_read_dn lib inited asn =
      (if visited_members asn = [] then none
       else some (spec_join [44, 32]
        ((visited_members asn).map (fun rdn => spec_join [43] (rdn.map (pair_text lib)))))) := by
  refine ⟨?_, ?_, read_dn_visited lib inited asn hok⟩
  · simp only [egg_asn1_dn_parse]
    rw [dn_parse_rdns_visits true 1 asn [] (by omega) hok]
    simp
  · simp only [egg_asn1_dn_parse]
    rw [dn_parse_rdns_visits false 1 asn [] (by omega) hok]
    simp

/-- Witness for `dn_parse_visits_pairs_of_read_dn`: of the members CN=A+OU=B and
C=US the callback gets the three pairs, with the indices 1, 1 and 2. -/
theorem dn_parse_visits_pairs_of_read_dn_witness :
    (egg_asn1_dn_parse
        [[(cstr "2.5.4.3", der_string 0x13 (cstr "A")),
          (cstr "2.5.4.11", der_string 0x13 (cstr "B"))],
         [(cstr "2.5.4.6", der_string 0x13 (cstr "US"))]] true).1 =
      [⟨1, cstr "2.5.4.3", [0x13, 1, 65], 3⟩, ⟨1, cstr "2.5.4.11", [0x13, 1, 66], 3⟩,
       ⟨2, cstr "2.5.4.6", [0x13, 2, 85, 83], 4⟩] :=
  ((dn_parse_visits_pairs_of_read_dn string_tasn1 false
      [[(cstr "2.5.4.3", der_string 0x13 (cstr "A")),
        (cstr "2.5.4.11", der_string 0x13 (cstr "B"))],
       [(cstr "2.5.4.6", der_string 0x13 (cstr "US"))]] (by decide)).1).trans (by decide)

/-! ### Values of a CHOICE -/

/-- C29 (as stated, refuted): under the OID 2.5.4.3, marked as a CHOICE, the
value 0C 02 C3 28 decodes to the alternative utf8String with the content C3 28,
and it is printed as "#C328", not as the content; the value 13 03 41 00 42
decodes to printableString with the content 41 00 42 and is printed as "A". -/
theorem recognised_choice_not_printed_as_content :
    egg_asn1_dn_print_value string_tasn1 true (some (cstr "2.5.4.3")) [0x0C, 2, 0xC3, 0x28] =
      some (cstr "#C328") ∧
    egg_asn1_dn_print_value string_tasn1 true (some (cstr "2.5.4.3")) [0x0C, 2, 0xC3, 0x28] ≠
      some [0xC3, 0x28] ∧
    egg_asn1_dn_print_value string_tasn1 true (some (cstr "2.5.4.3")) [0x13, 3, 0x41, 0, 0x42] =
      some (cstr "A") := by
  decide

/-- C29 (amended): for an OID of the table marked as a CHOICE and a value that
decodes to the alternative `arm`: when `arm` is none of printableString,
ia5String, utf8String and teletexString, the value is printed as `#` followed by
the upper case hexadecimal encoding of its bytes; when `arm` is one of the four
and its content has no NUL byte and is valid UTF-8, the value is printed as that
content. -/
theorem choice_value_printed (lib : Tasn1) (inited : Bool) (oid : GQuark)
    (row : PrintableOid) (data name arm : List Nat) (asn1 : ASN1_TYPE)
    (hrow : dn_find_printable inited oid = some row) (hc : row.is_choice = true)
    (hd : data ≠ []) (hb : ∀ b ∈ data, b < 256)
    (hn : lib.asn1_find_structure_from_oid row.oidstr = some name)
    (hdec : egg_asn1_decode lib (cstr "PKIX1." ++ name) data = some asn1)
    (harm : egg_asn1_read_value (asn1 []) = some arm) :
    (¬ (c_str arm = cstr "printableString" ∨ c_str arm = cstr "ia5String" ∨
        c_str arm = cstr "utf8String" ∨ c_str arm = cstr "teletexString") →
      egg_asn1_dn_print_value lib inited oid data = some (35 :: spec_hex_upper data)) ∧
    ((c_str arm = cstr "printableString" ∨ c_str arm = cstr "ia5String" ∨
        c_str arm = cstr "utf8String" ∨ c_str arm = cstr "teletexString") →
      ∀ text, egg_asn1_read_value (asn1 (c_str arm)) = some text → 0 ∉ text →
        g_utf8_validate text = true →
        egg_asn1_dn_print_value lib inited oid data = some text) := by
  have hoid : ∃ s, oid = some s := by
    cases oid with
    | none => simp [dn_find_printable] at hrow
    | some s => exact ⟨s, rfl⟩
  obtain ⟨s, rfl⟩ := hoid
  constructor
  · intro h4
    have hp : dn_print_oid_value_parsed lib row data = none := by
      unfold dn_print_oid_value_parsed
      simp only [hn, hdec, harm, hc, if_true, if_neg h4]
    unfold egg_asn1_dn_print_value
    simp only [hrow]
    rw [dn_print_oid_value_parsed_none lib (some row) data hd
      (fun r hr => by cases hr; exact hp), dn_print_hex_value_eq data hb]
  · intro h4 text ht h0 hv
    unfold egg_asn1_dn_print_value
    simp only [hrow]
    apply dn_print_oid_value_of_parsed lib row data _ hd
    unfold dn_print_oid_value_parsed
    simp only [hn, hdec, harm, hc, if_true, if_pos h4, ht]
    simp [dn_print_checked, c_str_of_no_nul text h0, hv]

/-- Witness for `choice_value_printed`: under 2.5.4.3 the BMPString 1E 02 00 41
is printed as "#1E020041". -/
theorem choice_value_printed_witness :
    egg_asn1_dn_print_value string_tasn1 true (some (cstr "2.5.4.3")) [0x1E, 2, 0, 0x41] =
      some (cstr "#1E020041") :=
  ((choice_value_printed string_tasn1 true (some (cstr "2.5.4.3"))
      ⟨cstr "2.5.4.3", some (cstr "CN"), some (cstr "Common Name"), true⟩
      [0x1E, 2, 0, 0x41] (cstr "DirectoryString") (cstr "bmpString")
      (fun path => if path = [] then some (cstr "bmpString")
        else if path = cstr "bmpString" then some [0, 0x41] else none)
      (by decide) rfl (by decide) (by decide) (by decide) (by rfl) (by decide)).1
    (by decide)).trans (by decide)

/-! ### Decoding and encoding -/

/-- C24: `egg_asn1_decode` returns an element only when the name of the type
begins with "PKIX1." or with "PK.", the element of that type can be created in
the tree that the beginning selects, and `asn1_der_decoding` succeeds, and the
element is the one that was decoded; with any other beginning, and with any
error of the decoding, it returns NULL. -/
theorem decode_only_on_success (lib : Tasn1) (type data : List Nat) :
    (∀ asn, egg_asn1_decode lib type data = some asn →
      (type.take 6 = cstr "PKIX1." ∧ lib.asn1_create_element true type = true ∧
        lib.asn1_der_decoding true type data = some asn) ∨
      (type.take 3 = cstr "PK." ∧ lib.asn1_create_element false type = true ∧
        lib.asn1_der_decoding false type data = some asn)) ∧
    (type.take 6 ≠ cstr "PKIX1." → type.take 3 ≠ cstr "PK." →
      egg_asn1_decode lib type data = none) ∧
    (lib.asn1_der_decoding true type data = none →
      lib.asn1_der_decoding false type data = none → egg_asn1_decode lib type data = none) := by
  refine ⟨fun asn h => ?_, fun h6 h3 => ?_, fun ht hf => ?_⟩
  · unfold egg_asn1_decode at h
    split_ifs at h with h6 hc h3 hc2
    · exact Or.inl ⟨h6, hc, h⟩
    · exact Or.inr ⟨h3, hc2, h⟩
  · simp [egg_asn1_decode, h6, h3]
  · unfold egg_asn1_decode
    split_ifs <;> first | rfl | assumption

/-- Witness for `decode_only_on_success`: the bytes 13 01 41 are decoded as
`PKIX1.DirectoryString`, and not under the name `DirectoryString`. -/
theorem decode_only_on_success_witness :
    egg_asn1_decode string_tasn1 (cstr "DirectoryString") [0x13, 1, 0x41] = none :=
  (decode_only_on_success string_tasn1 (cstr "DirectoryString") [0x13, 1, 0x41]).2.1
    (by decide) (by decide)

/-! ### Boolean leaves -/

/-- C25: `egg_asn1_read_boolean` returns `TRUE` exactly when `asn1_read_value`
can read the leaf into its buffer, which is when the leaf is there with a text
of at most 31 characters; `*val` is then `TRUE` if and only if the text, up to
its first NUL, is "TRUE" with letters of either case, so that it is `FALSE` for
"FALSE" and for any other text. When the leaf cannot be read the function
returns `FALSE` and `*val` is as it was. -/
theorem read_boolean_true_iff (leaf : Option (List Nat)) (val : Bool) :
    ((egg_asn1_read_boolean leaf val).1 = true ↔
      ∃ text, leaf = some text ∧ text.length ≤ 31) ∧
    (∀ text, leaf = some text → text.length ≤ 31 →
      ((egg_asn1_read_boolean leaf val).2 = true ↔
        (c_str text).map ascii_tolower = cstr "true")) ∧
    ((egg_asn1_read_boolean leaf val).1 = false → (egg_asn1_read_boolean leaf val).2 = val) ∧
    (egg_asn1_read_boolean (some (cstr "TRUE")) val = (true, true) ∧
      egg_asn1_read_boolean (some (cstr "True")) val = (true, true) ∧
      egg_asn1_read_boolean (some (cstr "FALSE")) val = (true, false) ∧
      egg_asn1_read_boolean (some (cstr "yes")) val = (true, false) ∧
      egg_asn1_read_boolean none val = (false, val)) := by
  have hT : (cstr "TRUE").map ascii_tolower = cstr "true" := by decide
  refine ⟨?_, ?_, ?_, ?_⟩
  · cases leaf with
    | none => simp [egg_asn1_read_boolean, asn1_read_value]
    | some text =>
      by_cases hl : text.length ≤ 31
      · simp only [egg_asn1_read_boolean, asn1_read_value, hl, if_true]
        split_ifs <;> simp [hl]
      · simp [egg_asn1_read_boolean, asn1_read_value, hl]
  · intro text ht hl
    subst ht
    simp only [egg_asn1_read_boolean, asn1_read_value, hl, if_true, g_ascii_strcasecmp, hT]
    by_cases he : (c_str text).map ascii_tolower = cstr "true"
    · simp [he]
    · simp [he]
  · cases leaf with
    | none => simp [egg_asn1_read_boolean, asn1_read_value]
    | some text =>
      by_cases hl : text.length ≤ 31
      · simp only [egg_asn1_read_boolean, asn1_read_value, hl, if_true]
        split_ifs <;> simp
      · simp [egg_asn1_read_boolean, asn1_read_value, hl]
  · refine ⟨?_, ?_, ?_, ?_, ?_⟩ <;> cases val <;> decide

/-- Witness for `read_boolean_true_iff`: the text "true" gives `TRUE`. -/
theorem read_boolean_true_iff_witness :
    (egg_asn1_read_boolean (some (cstr "true")) false).2 = true :=
  ((read_boolean_true_iff (some (cstr "true")) false).2.1 (cstr "true") rfl (by decide)).2
    (by decide)

theorem egg_asn1_encode_of_coder (coder : Tasn1Coding) (asn : ASN1_TYPE) (part b : List Nat)
    (hb : b ≠ []) (hder : coder.der asn part = some b) :
    egg_asn1_encode coder asn part = some (b, b.length) := by
  have h0 : ¬ b.length ≤ 0 := by
    intro h
    exact hb (List.length_eq_zero.mp (Nat.le_zero.mp h))
  simp only [egg_asn1_encode, asn1_der_coding, hder, if_neg h0, le_refl, if_true]

/-! ### The length of an element -/

theorem element_length_total_or_failure (lib : Tasn1Der) (data : List Nat) :
    (egg_asn1_element_length lib data = -1 ∨
      ∃ cb, lib.asn1_get_tag_der data = some cb ∧
        0 ≤ (lib.asn1_get_length_der (data.drop cb)).1 ∧
        egg_asn1_element_length lib data =
          (cb : Int) + ((lib.asn1_get_length_der (data.drop cb)).2 : Int) +
            (lib.asn1_get_length_der (data.drop cb)).1 ∧
        egg_asn1_element_length lib data ≤ (data.length : Int)) ∧
    (lib.asn1_get_tag_der data = none → egg_asn1_element_length lib data = -1) ∧
    (∀ cb, lib.asn1_get_tag_der data = some cb →
      (lib.asn1_get_length_der (data.drop cb)).1 < 0 → egg_asn1_element_length lib data = -1) ∧
    (∀ cb, lib.asn1_get_tag_der data = some cb →
      (data.length : Int) < (cb : Int) + ((lib.asn1_get_length_der (data.drop cb)).2 : Int) +
        (lib.asn1_get_length_der (data.drop cb)).1 →
      egg_asn1_element_length lib data = -1) := by
  refine ⟨?_, fun h => ?_, fun cb h hl => ?_, fun cb h hl => ?_⟩
  · cases h : lib.asn1_get_tag_der data with
    | none => simp [egg_asn1_element_length, h]
    | some cb =>
      simp only [egg_asn1_element_length, h]
      split_ifs with h1 h2
      · right
        refine ⟨cb, rfl, h1, by omega, by omega⟩
      · exact Or.inl rfl
      · exact Or.inl rfl
  · simp [egg_asn1_element_length, h]
  · simp only [egg_asn1_element_length, h]
    rw [if_neg (by omega)]
  · simp only [egg_asn1_element_length, h]
    split_ifs with h1 h2
    · omega
    · rfl
    · rfl

/-- C23 (evaluation at the failing input): in the buffer 30 81 the length field
says that one byte of length follows and the buffer ends there;
`asn1_get_length_der` gives the length 0 for it and `egg_asn1_element_length`
returns 2, not -1. For 30 82 00, where one of the two bytes of the length is
missing, it returns 3. The buffer 30 03 01 02, shorter than the element it
declares, the indefinite length 30 80 and the single byte 30 give -1. -/
theorem element_length_truncated_length_field :
    asn1_get_tag_der [0x30, 0x81] = some 1 ∧
    asn1_get_length_der [0x81] = (0, 1) ∧
    egg_asn1_element_length libtasn1_der [0x30, 0x81] = 2 ∧
    asn1_get_length_der [0x82, 0x00] = (0, 2) ∧
    egg_asn1_element_length libtasn1_der [0x30, 0x82, 0x00] = 3 ∧
    egg_asn1_element_length libtasn1_der [0x30, 0x03, 0x01, 0x02] = -1 ∧
    egg_asn1_element_length libtasn1_der [0x30, 0x80] = -1 ∧
    egg_asn1_element_length libtasn1_der [0x30] = -1 := by
  refine ⟨by decide, by decide, by decide, by decide, by decide, by decide, by decide,
    by decide⟩

/-! ### The value of the clamp -/

/-- C31: the value 2145914603 that `when_to_time` returns where it clamps, for a
`time_t` of 4 bytes and `tm_year >= 2038`, is the epoch second of the fields of
2037-12-31 23:23:23 read as UTC; `timegm` gives it for those fields with a
`time_t` of 4 bytes and of 8 bytes, so does `when_to_time` with the offset 0, and
it is below 2^31. -/
theorem clamp_value_is_end_of_2037 :
    (∀ (when : Tm) (offset : Int), when.tm_year ≥ 2038 →
      when_to_time 4 when offset = 2145914603) ∧
    utc_epoch_second (tm_of 137 11 31 23 23 23) = 2145914603 ∧
    timegm 4 (tm_of 137 11 31 23 23 23) = 2145914603 ∧
    timegm 8 (tm_of 137 11 31 23 23 23) = 2145914603 ∧
    when_to_time 4 (tm_of 137 11 31 23 23 23) 0 = 2145914603 ∧
    when_to_time 8 (tm_of 137 11 31 23 23 23) 0 = 2145914603 ∧
    egg_asn1_time_parse_general 8 (cstr "20371231232323Z") = 2145914603 ∧
    (2145914603 : Int) < 2 ^ 31 ∧ -(2 ^ 31 : Int) ≤ 2145914603 := by
  refine ⟨fun when offset h => ?_, by decide, by decide, by decide, by decide, by decide,
    by decide, by decide, by decide⟩
  simp [when_to_time, h]

/-- Witness for `clamp_value_is_end_of_2037`: the fields with `tm_year` 2038. -/
theorem clamp_value_is_end_of_2037_witness :
    when_to_time 4 (tm_of 2038 0 1 0 0 0) 3600 = 2145914603 :=
  clamp_value_is_end_of_2037.1 (tm_of 2038 0 1 0 0 0) 3600 (by decide)

/-! ### The table before it is filled in -/

/-- C36: for the OID 2.5.4.3 of the table, before `init_printable_oids` has run
`egg_asn1_dn_oid_attr` returns "2.5.4.3", `egg_asn1_dn_oid_desc` returns
"2.5.4.3" and `egg_asn1_dn_print_value` prints the PrintableString "Test" as
"#130454657374"; once the table is filled in they give "CN", "Common Name" and
"Test". -/
theorem table_functions_depend_on_init :
    egg_asn1_dn_oid_attr false (some (cstr "2.5.4.3")) = some (cstr "2.5.4.3") ∧
    egg_asn1_dn_oid_attr (init_printable_oids false) (some (cstr "2.5.4.3")) =
      some (cstr "CN") ∧
    egg_asn1_dn_oid_desc id false (some (cstr "2.5.4.3")) = some (cstr "2.5.4.3") ∧
    egg_asn1_dn_oid_desc id (init_printable_oids false) (some (cstr "2.5.4.3")) =
      some (cstr "Common Name") ∧
    egg_asn1_dn_print_value string_tasn1 false (some (cstr "2.5.4.3"))
      (der_string 0x13 (cstr "Test")) = some (cstr "#130454657374") ∧
    egg_asn1_dn_print_value string_tasn1 (init_printable_oids false) (some (cstr "2.5.4.3"))
      (der_string 0x13 (cstr "Test")) = some (cstr "Test") := by
  decide

/-! ### The content of an element -/

/-- C35: whenever `egg_asn1_element_length` returns `L >= 0` for a buffer,
`egg_asn1_element_content` does not return NULL for it, and the offset of the
pointer that it returns, which is the number of bytes of the tag and of the
length, plus `*n_content` is `L`; offset and `*n_content` are not negative and
`L` is at most `n_data`, so the content lies in the buffer and ends where the
element ends. -/
theorem element_content_ends_at_element_length (lib : Tasn1Der) (data : List Nat) (L : Int)
    (hL : egg_asn1_element_length lib data = L) (h0 : L ≥ 0) :
    ∃ offset n_content : Int, egg_asn1_element_content lib data = some (offset, n_content) ∧
      offset + n_content = L ∧ 0 ≤ offset ∧ 0 ≤ n_content ∧ L ≤ (data.length : Int) ∧
      (∃ cb : Nat, lib.asn1_get_tag_der data = some cb ∧
        offset = (cb : Int) + ((lib.asn1_get_length_der (data.drop cb)).2 : Int)) := by
  subst hL
  cases h : lib.asn1_get_tag_der data with
  | none => simp [egg_asn1_element_length, h] at h0
  | some cb =>
    simp only [egg_asn1_element_length, h] at h0 ⊢
    simp only [egg_asn1_element_content, h]
    by_cases hl : (lib.asn1_get_length_der (data.drop cb)).1 ≥ 0
    · rw [if_pos hl] at h0 ⊢
      rw [if_neg (by omega)]
      split_ifs at h0 ⊢ with h2
      · exact ⟨_, _, rfl, by omega, by omega, hl, h2, cb, rfl, by omega⟩
      · omega
    · rw [if_neg hl] at h0
      omega

/-- Witness for `element_content_ends_at_element_length`: for the buffer
30 03 01 02 03 09 09 the length is 5, the content begins at the offset 2 and has
3 bytes. -/
theorem element_content_ends_at_element_length_witness :
    ∃ offset n_content : Int,
      egg_asn1_element_content libtasn1_der [0x30, 3, 1, 2, 3, 9, 9] = some (offset, n_content) ∧
      offset + n_content = 5 ∧ 0 ≤ offset ∧ 0 ≤ n_content ∧
      (5 : Int) ≤ (([0x30, 3, 1, 2, 3, 9, 9] : List Nat).length : Int) ∧
      (∃ cb : Nat, libtasn1_der.asn1_get_tag_der [0x30, 3, 1, 2, 3, 9, 9] = some cb ∧
        offset = (cb : Int) +
          ((libtasn1_der.asn1_get_length_der (([0x30, 3, 1, 2, 3, 9, 9] : List Nat).drop cb)).2 :
            Int)) :=
  element_content_ends_at_element_length libtasn1_der [0x30, 3, 1, 2, 3, 9, 9] 5 (by decide)
    (by decide)

/-! ### Elements back to back -/

/-- C33: let every element `e` of the list `es` be well formed with a definite
length, which is here: whatever bytes `s` follow it, the tag of `e ++ s` is read,
the length behind it is read and is not negative, and the bytes of the tag, the
bytes of the length and the length add up to the number of bytes of `e`. Then
`egg_asn1_element_length (e ++ s)` is the number of bytes of `e` for every `s`;
and at every place of the concatenation of `es` where an element begins, the
function gives the number of bytes of that element, and the bytes behind them
are the concatenation of the elements that follow. -/
theorem element_length_splits (lib : Tasn1Der) (es : List (List Nat))
    (hwf : ∀ e ∈ es, ∀ s : List Nat, ∃ (cb_tag cb_len : Nat) (len : Int),
      lib.asn1_get_tag_der (e ++ s) = some cb_tag ∧
      lib.asn1_get_length_der ((e ++ s).drop cb_tag) = (len, cb_len) ∧ 0 ≤ len ∧
      (e.length : Int) = (cb_tag : Int) + (cb_len : Int) + len) :
    (∀ e ∈ es, ∀ s : List Nat, egg_asn1_element_length lib (e ++ s) = (e.length : Int)) ∧
    (∀ (pre : List (List Nat)) (e : List Nat) (post : List (List Nat)), es = pre ++ e :: post →
      egg_asn1_element_length lib ((e :: post).flatten) = (e.length : Int) ∧
      ((e :: post).flatten).drop e.length = post.flatten) := by
  have h1 : ∀ e ∈ es, ∀ s : List Nat,
      egg_asn1_element_length lib (e ++ s) = (e.length : Int) := by
    intro e he s
    obtain ⟨cb_tag, cb_len, len, htag, hlen, h0, hsum⟩ := hwf e he s
    simp only [egg_asn1_element_length, htag, hlen]
    rw [if_pos (by omega), if_pos]
    · omega
    · simp only [List.length_append, Nat.cast_add]
      omega
  refine ⟨h1, fun pre e post hes => ?_⟩
  have he : e ∈ es := by rw [hes]; simp
  constructor
  · rw [List.flatten_cons]
    exact h1 e he _
  · simp

/-- Witness for `element_length_splits`: the elements 30 03 01 02 03 and
04 01 07 back to back, read as libtasn1 reads them. -/
theorem element_length_splits_witness :
    egg_asn1_element_length libtasn1_der [0x30, 3, 1, 2, 3, 0x04, 1, 7] = 5 ∧
    egg_asn1_element_length libtasn1_der [0x04, 1, 7] = 3 :=
  have hwf : ∀ e ∈ [[0x30, 3, 1, 2, 3], [0x04, 1, 7]], ∀ s : List Nat,
      ∃ (cb_tag cb_len : Nat) (len : Int),
        libtasn1_der.asn1_get_tag_der (e ++ s) = some cb_tag ∧
        libtasn1_der.asn1_get_length_der ((e ++ s).drop cb_tag) = (len, cb_len) ∧ 0 ≤ len ∧
        (e.length : Int) = (cb_tag : Int) + (cb_len : Int) + len := by
    intro e he s
    simp only [List.mem_cons, List.mem_singleton, List.not_mem_nil, or_false] at he
    rcases he with rfl | rfl
    · have e1 : (48 : Nat) &&& 31 = 16 := by decide
      have e2 : (3 : Nat) &&& 128 = 0 := by decide
      exact ⟨1, 1, 3, by simp [libtasn1_der, asn1_get_tag_der, e1],
        by simp [libtasn1_der, asn1_get_length_der, length_check, e2], by decide, by decide⟩
    · have e1 : (4 : Nat) &&& 31 = 4 := by decide
      have e2 : (1 : Nat) &&& 128 = 0 := by decide
      exact ⟨1, 1, 1, by simp [libtasn1_der, asn1_get_tag_der, e1],
        by simp [libtasn1_der, asn1_get_length_der, length_check, e2], by decide, by decide⟩
  have h := element_length_splits libtasn1_der [[0x30, 3, 1, 2, 3], [0x04, 1, 7]] hwf
  ⟨(h.2 [] [0x30, 3, 1, 2, 3] [[0x04, 1, 7]] rfl).1,
   (h.2 [[0x30, 3, 1, 2, 3]] [0x04, 1, 7] [] rfl).1⟩

/-! ### What `egg_asn1_write_uint` writes -/

theorem getD_of_drop_cons (asn : Name) (k : Nat) (rdn : List (List Nat × List Nat))
    (rest : Name) (h : asn.drop k = rdn :: rest) :
    asn.getD k [] = rdn ∧ asn.drop (k + 1) = rest := by
  constructor
  · have h0 : (asn.drop k)[0]? = some rdn := by rw [h]; simp
    rw [List.getElem?_drop] at h0
    simp only [Nat.add_zero] at h0
    simp [List.getD_eq_getElem?_getD, h0]
  · rw [← List.drop_drop, h]
    rfl

theorem getD_of_drop_nil (asn : Name) (k : Nat) (h : asn.drop k = []) : asn.getD k [] = [] := by
  have hk : asn.length ≤ k := List.drop_eq_nil_iff.mp h
  simp [List.getD_eq_getElem?_getD, List.getElem?_eq_none hk]

theorem dn_pair_of_drop (asn : Name) (i l : Nat) (rdn todo : List (List Nat × List Nat))
    (hrdn : asn.getD (i - 1) [] = rdn) (htodo : rdn.drop l = todo) :
    dn_pair asn i (l + 1) = todo.head? ∧ rdn.drop (l + 1) = todo.tail := by
  subst htodo
  constructor
  · simp only [dn_pair, hrdn, Nat.add_sub_cancel]
    rw [List.head?_drop]
  · rw [← List.drop_drop]
    simp

theorem spec_rounds_cons (rdn : List (List Nat × List Nat)) (rest : Name) :
    spec_rounds (rdn :: rest) = rdn.length + 1 + spec_rounds rest := by
  simp [spec_rounds]
  omega

theorem spec_rounds_pos (asn : Name) : 1 ≤ spec_rounds asn := by
  simp [spec_rounds]

theorem dn_parse_steps_values (asn : Name) (callback : Bool) (i : Nat)
    (rdn : List (List Nat × List Nat)) (hrdn : asn.getD (i - 1) [] = rdn) (K : Nat)
    (next : List DnVisit → List DnVisit × Nat)
    (hnext : ∀ fuel, K ≤ fuel → ∀ visits,
      dn_parse_steps asn callback fuel (i + 1) 1 visits = some (next visits))
    (todo : List (List Nat × List Nat)) :
    ∀ (l : Nat), rdn.drop l = todo → ∀ fuel, todo.length + 1 + K ≤ fuel → ∀ visits,
      dn_parse_steps asn callback fuel i (l + 1) visits =
        some (if (dn_parse_values callback i (l + 1) todo visits).2
          then ((dn_parse_values callback i (l + 1) todo visits).1, i + 1)
          else next (dn_parse_values callback i (l + 1) todo visits).1) := by
  induction todo with
  | nil =>
    intro l hl fuel hf visits
    obtain ⟨f, rfl⟩ : ∃ f, fuel = f + 1 := ⟨fuel - 1, by omega⟩
    have hp := (dn_pair_of_drop asn i l rdn [] hrdn hl).1
    simp only [dn_parse_steps, hp, List.head?_nil, Option.map_none', egg_asn1_read_oid,
      egg_asn1_read_value, dn_parse_values]
    by_cases h1 : (l + 1 == 1) = true
    · simp [h1]
    · simp only [h1, Bool.false_eq_true, if_false]
      exact hnext f (by simp at hf; omega) visits
  | cons atv t ih =>
    intro l hl fuel hf visits
    obtain ⟨f, rfl⟩ : ∃ f, fuel = f + 1 := ⟨fuel - 1, by omega⟩
    have hp := dn_pair_of_drop asn i l rdn (atv :: t) hrdn hl
    have hf2 : t.length + 1 + K ≤ f := by simp at hf; omega
    simp only [dn_parse_steps, hp.1, List.head?_cons, Option.map_some', dn_parse_values]
    cases ho : egg_asn1_read_oid (some atv.1) with
    | none =>
      simp only
      by_cases h1 : (l + 1 == 1) = true
      · simp [h1]
      · simp only [h1, Bool.false_eq_true, if_false]
        exact hnext f (by omega) visits
    | some oid =>
      simp only
      cases hvl : egg_asn1_read_value (some atv.2) with
      | none =>
        simp only
        by_cases h1 : (l + 1 == 1) = true
        · simp [h1]
        · simp only [h1, Bool.false_eq_true, if_false]
          exact hnext f (by omega) visits
      | some value =>
        simp only
        exact ih (l + 1) hp.2 f hf2 _

theorem dn_parse_steps_rdns (asn : Name) (callback : Bool) (rest : Name) :
    ∀ (k : Nat), asn.drop k = rest → ∀ fuel, spec_rounds rest ≤ fuel → ∀ visits,
      dn_parse_steps asn callback fuel (k + 1) 1 visits =
        some (dn_parse_rdns callback (k + 1) rest visits) := by
  induction rest with
  | nil =>
    intro k hk fuel hf visits
    have hr := getD_of_drop_nil asn k hk
    obtain ⟨f, rfl⟩ : ∃ f, fuel = f + 1 := ⟨fuel - 1, by have := spec_rounds_pos []; omega⟩
    have hp : dn_pair asn (k + 1) 1 = none := by
      simp only [dn_pair, Nat.add_sub_cancel, hr]
      rfl
    simp [dn_parse_steps, hp, egg_asn1_read_oid, egg_asn1_read_value, dn_parse_rdns,
      dn_parse_values]
  | cons rdn rest ih =>
    intro k hk fuel hf visits
    obtain ⟨hr, hd⟩ := getD_of_drop_cons asn k rdn rest hk
    have h := dn_parse_steps_values asn callback (k + 1) rdn (by simpa using hr)
      (spec_rounds rest) (dn_parse_rdns callback (k + 2) rest)
      (fun fuel hf visits => ih (k + 1) hd fuel hf visits) rdn 0 rfl fuel
      (by rw [spec_rounds_cons] at hf; omega) visits
    simp only [Nat.zero_add] at h
    rw [h]
    simp only [dn_parse_rdns]

theorem read_dn_steps_values (lib : Tasn1) (inited : Bool) (asn : Name) (i : Nat)
    (rdn : List (List Nat × List Nat)) (hrdn : asn.getD (i - 1) [] = rdn) (K : Nat)
    (next : List Nat → List Nat)
    (hnext : ∀ fuel, K ≤ fuel → ∀ result,
      read_dn_steps lib inited asn fuel (i + 1) 1 result = some (next result))
    (todo : List (List Nat × List Nat)) :
    ∀ (l : Nat), rdn.drop l = todo → ∀ fuel, todo.length + 1 + K ≤ fuel → ∀ result,
      read_dn_steps lib inited asn fuel i (l + 1) result =
        some (if (read_dn_values lib inited i (l + 1) todo result).2
          then (read_dn_values lib inited i (l + 1) todo result).1
          else next (read_dn_values lib inited i (l + 1) todo result).1) := by
  induction todo with
  | nil =>
    intro l hl fuel hf result
    obtain ⟨f, rfl⟩ : ∃ f, fuel = f + 1 := ⟨fuel - 1, by omega⟩
    have hp := (dn_pair_of_drop asn i l rdn [] hrdn hl).1
    simp only [read_dn_steps, hp, List.head?_nil, Option.map_none', dn_parse_rdn,
      egg_asn1_read_oid, egg_asn1_read_value, read_dn_values]
    by_cases h1 : (l + 1 == 1) = true
    · simp [h1]
    · simp only [h1, Bool.false_eq_true, if_false]
      exact hnext f (by simp at hf; omega) result
  | cons atv t ih =>
    intro l hl fuel hf result
    obtain ⟨f, rfl⟩ : ∃ f, fuel = f + 1 := ⟨fuel - 1, by omega⟩
    have hp := dn_pair_of_drop asn i l rdn (atv :: t) hrdn hl
    have hf2 : t.length + 1 + K ≤ f := by simp at hf; omega
    simp only [read_dn_steps, hp.1, List.head?_cons, Option.map_some', read_dn_values]
    cases ho : dn_parse_rdn lib inited (some atv.1) (some atv.2) with
    | none =>
      simp only
      by_cases h1 : (l + 1 == 1) = true
      · simp [h1]
      · simp only [h1, Bool.false_eq_true, if_false]
        exact hnext f (by omega) result
    | some text =>
      simp only
      exact ih (l + 1) hp.2 f hf2 _

theorem read_dn_steps_rdns (lib : Tasn1) (inited : Bool) (asn : Name) (rest : Name) :
    ∀ (k : Nat), asn.drop k = rest → ∀ fuel, spec_rounds rest ≤ fuel → ∀ result,
      read_dn_steps lib inited asn fuel (k + 1) 1 result =
        some (read_dn_rdns lib inited (k + 1) rest result) := by
  induction rest with
  | nil =>
    intro k hk fuel hf result
    have hr := getD_of_drop_nil asn k hk
    obtain ⟨f, rfl⟩ : ∃ f, fuel = f + 1 := ⟨fuel - 1, by have := spec_rounds_pos []; omega⟩
    have hp : dn_pair asn (k + 1) 1 = none := by
      simp only [dn_pair, Nat.add_sub_cancel, hr]
      rfl
    simp [read_dn_steps, hp, dn_parse_rdn, egg_asn1_read_oid, egg_asn1_read_value,
      read_dn_rdns, read_dn_values]
  | cons rdn rest ih =>
    intro k hk fuel hf result
    obtain ⟨hr, hd⟩ := getD_of_drop_cons asn k rdn rest hk
    have h := read_dn_steps_values lib inited asn (k + 1) rdn (by simpa using hr)
      (spec_rounds rest) (read_dn_rdns lib inited (k + 2) rest)
      (fun fuel hf result => ih (k + 1) hd fuel hf result) rdn 0 rfl fuel
      (by rw [spec_rounds_cons] at hf; omega) result
    simp only [Nat.zero_add] at h
    rw [h]
    simp only [read_dn_rdns]

theorem read_dn_part_steps_values (lib : Tasn1) (inited : Bool) (asn : Name)
    (match_ : List Nat) (i : Nat)
    (rdn : List (List Nat × List Nat)) (hrdn : asn.getD (i - 1) [] = rdn) (K : Nat)
    (next : Option PrintableOid → Option (List Nat))
    (hnext : ∀ fuel, K ≤ fuel → ∀ printable,
      read_dn_part_steps lib inited asn match_ fuel (i + 1) 1 printable =
        some (next printable))
    (todo : List (List Nat × List Nat)) :
    ∀ (l : Nat), rdn.drop l = todo → ∀ fuel, todo.length + 1 + K ≤ fuel → ∀ printable,
      read_dn_part_steps lib inited asn match_ fuel i (l + 1) printable =
        some (match read_dn_part_values lib inited match_ (l + 1) todo printable with
          | PartLoop.returned value => value
          | PartLoop.left done printable => if done then none else next printable) := by
  induction todo with
  | nil =>
    intro l hl fuel hf printable
    obtain ⟨f, rfl⟩ : ∃ f, fuel = f + 1 := ⟨fuel - 1, by omega⟩
    have hp := (dn_pair_of_drop asn i l rdn [] hrdn hl).1
    simp only [read_dn_part_steps, hp, List.head?_nil, Option.map_none',
      egg_asn1_read_oid, egg_asn1_read_value, read_dn_part_values]
    by_cases h1 : (l + 1 == 1) = true
    · simp [h1]
    · simp only [h1, Bool.false_eq_true, if_false]
      exact hnext f (by simp at hf; omega) printable
  | cons atv t ih =>
    intro l hl fuel hf printable
    obtain ⟨f, rfl⟩ : ∃ f, fuel = f + 1 := ⟨fuel - 1, by omega⟩
    have hp := dn_pair_of_drop asn i l rdn (atv :: t) hrdn hl
    have hf2 : t.length + 1 + K ≤ f := by simp at hf; omega
    simp only [read_dn_part_steps, hp.1, List.head?_cons, Option.map_some',
      read_dn_part_values]
    cases ho : egg_asn1_read_oid (some atv.1) with
    | none =>
      simp only
      by_cases h1 : (l + 1 == 1) = true
      · simp [h1]
      · simp only [h1, Bool.false_eq_true, if_false]
        exact hnext f (by omega) printable
    | some oid =>
      simp only
      split_ifs with hm hs
      · exact ih (l + 1) hp.2 f hf2 _
      · cases egg_asn1_read_value (some atv.2) <;> rfl
      · cases egg_asn1_read_value (some atv.2) <;> rfl

theorem read_dn_part_steps_rdns (lib : Tasn1) (inited : Bool) (asn : Name)
    (match_ : List Nat) (rest : Name) :
    ∀ (k : Nat), asn.drop k = rest → ∀ fuel, spec_rounds rest ≤ fuel → ∀ printable,
      read_dn_part_steps lib inited asn match_ fuel (k + 1) 1 printable =
        some (read_dn_part_rdns lib inited match_ (k + 1) rest printable) := by
  induction rest with
  | nil =>
    intro k hk fuel hf printable
    have hr := getD_of_drop_nil asn k hk
    obtain ⟨f, rfl⟩ : ∃ f, fuel = f + 1 := ⟨fuel - 1, by have := spec_rounds_pos []; omega⟩
    have hp : dn_pair asn (k + 1) 1 = none := by
      simp only [dn_pair, Nat.add_sub_cancel, hr]
      rfl
    simp [read_dn_part_steps, hp, egg_asn1_read_oid, egg_asn1_read_value, read_dn_part_rdns]
  | cons rdn rest ih =>
    intro k hk fuel hf printable
    obtain ⟨hr, hd⟩ := getD_of_drop_cons asn k rdn rest hk
    have h := read_dn_part_steps_values lib inited asn match_ (k + 1) rdn (by simpa using hr)
      (spec_rounds rest) (read_dn_part_rdns lib inited match_ (k + 2) rest)
      (fun fuel hf printable => ih (k + 1) hd fuel hf printable) rdn 0 rfl fuel
      (by rw [spec_rounds_cons] at hf; omega) printable
    simp only [Nat.zero_add] at h
    rw [h]
    simp only [read_dn_part_rdns]

/-- C32: for every name, given as the finite list of its members, the two loops
of `egg_asn1_dn_parse`, of `egg_asn1_read_dn` and of `egg_asn1_read_dn_part`, run
round by round with the leaves read at their positions, come to an end within
`spec_rounds asn` rounds of the inner loop (one for each pair, one more for each
member, and one), and with that many rounds or more the calls of the callback
and the value returned are those of the functions, which depend on the name
only; the name is only read. A second call finds the table filled in by the
first and returns the same value. -/
theorem dn_traversals_end_and_repeat (lib : Tasn1) (inited : Bool) (asn : Name)
    (match_ : List Nat) (callback : Bool) (fuel : Nat) (hfuel : spec_rounds asn ≤ fuel) :
    (dn_parse_steps asn callback fuel 1 1 []).map (fun r => (r.1, decide (r.2 > 1))) =
      some (egg_asn1_dn_parse asn callback) ∧
    (read_dn_steps lib (init_printable_oids inited) asn fuel 1 1 []).map
        (fun result => if result.length = 0 then none else some result) =
      some (egg_asn1_read_dn lib inited asn) ∧
    read_dn_part_steps lib (init_printable_oids inited) asn match_ fuel 1 1 none =
      some (egg_asn1_read_dn_part lib inited asn match_) ∧
    egg_asn1_read_dn lib (init_printable_oids inited) asn = egg_asn1_read_dn lib inited asn ∧
    egg_asn1_read_dn_part lib (init_printable_oids inited) asn match_ =
      egg_asn1_read_dn_part lib inited asn match_ := by
  refine ⟨?_, ?_, ?_, rfl, rfl⟩
  · rw [dn_parse_steps_rdns asn callback asn 0 rfl fuel hfuel []]
    rfl
  · rw [read_dn_steps_rdns lib _ asn asn 0 rfl fuel hfuel []]
    rfl
  · rw [read_dn_part_steps_rdns lib _ asn match_ asn 0 rfl fuel hfuel none]
    rfl

/-- Witness for `dn_traversals_end_and_repeat`: the name of the members CN=A+OU=B
and C=US asks for six rounds, and with six rounds the callback has been called
for the three pairs. -/
theorem dn_traversals_end_and_repeat_witness :
    spec_rounds [[(cstr "2.5.4.3", der_string 0x13 (cstr "A")),
        (cstr "2.5.4.11", der_string 0x13 (cstr "B"))],
      [(cstr "2.5.4.6", der_string 0x13 (cstr "US"))]] = 6 ∧
    (dn_parse_steps [[(cstr "2.5.4.3", der_string 0x13 (cstr "A")),
        (cstr "2.5.4.11", der_string 0x13 (cstr "B"))],
      [(cstr "2.5.4.6", der_string 0x13 (cstr "US"))]] true 6 1 1 []).map
        (fun r => (r.1, decide (r.2 > 1))) =
      some ([⟨1, cstr "2.5.4.3", [0x13, 1, 65], 3⟩, ⟨1, cstr "2.5.4.11", [0x13, 1, 66], 3⟩,
        ⟨2, cstr "2.5.4.6", [0x13, 2, 85, 83], 4⟩], true) ∧
    dn_parse_steps [[(cstr "2.5.4.3", der_string 0x13 (cstr "A")),
        (cstr "2.5.4.11", der_string 0x13 (cstr "B"))],
      [(cstr "2.5.4.6", der_string 0x13 (cstr "US"))]] true 5 1 1 [] = none :=
  ⟨by decide,
   ((dn_traversals_end_and_repeat string_tasn1 false
      [[(cstr "2.5.4.3", der_string 0x13 (cstr "A")),
        (cstr "2.5.4.11", der_string 0x13 (cstr "B"))],
       [(cstr "2.5.4.6", der_string 0x13 (cstr "US"))]] (cstr "CN") true 6
      (by decide)).1).trans (by decide),
   by decide⟩

end EggAsn1
